import Mathlib

/-!
Pathfinder renderer: mesh index resolver, frame sequencing, shader programs
and buffer-texture caches.

A shallow embedding of `getMeshIndexRange` (renderer.cpp), of
`calculateStartFromIndexRanges` / `calculateCountFromIndexRanges`
(xcaa-strategy.cpp), of the call sequences of `Renderer::renderAtlas`,
`Renderer::attachMeshes` and `Renderer::setAntialiasingOptions`, of
`Renderer::computeTransform` and the uniform helpers (renderer.cpp), of the
adaptive strategy (xcaa-strategy.cpp), of the lookups of
`PathfinderShaderProgram` and of `ShaderManager::init` and `getProgram`
(shader-loader.cpp), of `Renderer::pathRangeForObject`,
`Renderer::createPathTransformBuffers`, `Renderer::uploadPathColors` and
`Renderer::uploadPathTransforms` (renderer.cpp), with the properties proved
about them.

Conventions of the embedding.

* C++ `int` values are Lean `Int`s. The resolver only subtracts 1 from a
  bound of a path range. Where two values are subtracted or multiplied
  (`calculateCountFromIndexRanges`, `createPathTransformBuffers`) the result is
  checked against the bounds of a 32-bit `int`, and a signed overflow yields no
  value.
* A `std::vector<Range>` is a `List Range`. `operator[]` and `back()` do not
  check bounds, so each read is recorded and a read outside `0 .. size-1`
  ends the computation with no value (undefined behaviour in C++).
* An `int` compared with, or used as an index into, a vector is converted to
  `size_t`: a negative value becomes a number of at least `2^63`, larger than
  the size of any vector. Hence `i >= v.size()` holds exactly when `i < 0` or
  `v.size() <= i`, and `v[i]` is inside the vector exactly when
  `0 <= i < v.size()`.
* A frame is the sequence of calls `renderAtlas` issues. The frame is aborted
  where the code has undefined behaviour or a failed assertion: in
  `directlyRenderObject` at a read outside `mMeshBuffers`, `mMeshes` or one of
  the two caches of buffer textures, at a null program or buffer texture, at a
  lookup of a location the program does not declare, and at an `int` overflow
  in an argument of a draw call. `renderAtlas` then does not return, and the
  calls are those issued up to that point.
-/

namespace pathfinder

/-! ## Range -/

/-- Modelled from the spec: the `Range` value type of utils.h, which is not
among the sources: `(start, end)` integers, half-open. -/
structure Range where
  start : Int
  «end» : Int
  deriving DecidableEq, Repr

/-- Modelled from the spec: `isEmpty() = (start == end)`. -/
def Range.isEmpty (r : Range) : Bool := r.start == r.«end»

/-- Modelled from the spec: `length() = end - start`. -/
def Range.length (r : Range) : Int := r.«end» - r.start

/-- Modelled from the spec: membership in the half-open interval
`start ≤ x < end`. -/
def Range.contains (r : Range) (x : Int) : Prop := r.start ≤ x ∧ x < r.«end»

/-! ## Reads of a vector -/

/-- A computation over a vector: the indices it has read, in order, and its
value; `value = none` means the last read was outside the vector. -/
structure Access (α : Type) where
  reads : List Int
  value : Option α
  deriving DecidableEq, Repr

/-- A value obtained without reading the vector. -/
def Access.ret {α : Type} (a : α) : Access α := ⟨[], some a⟩

/-- Sequencing: the second computation runs only when the first has a value. -/
def Access.andThen {α β : Type} (x : Access α) (k : α → Access β) : Access β :=
  match x.value with
  | none => ⟨x.reads, none⟩
  | some a => ⟨x.reads ++ (k a).reads, (k a).value⟩

instance : Monad Access where
  pure := Access.ret
  bind := Access.andThen

/-- The comparison `i >= v.size()` of an `int` with a vector size. -/
def geSize (i : Int) (v : List Range) : Bool :=
  decide (i < 0) || decide ((v.length : Int) ≤ i)

/-- The read `v[i]` with an `int` index. -/
def readAt (v : List Range) (i : Int) : Access Range :=
  ⟨[i], if 0 ≤ i then v[i.toNat]? else none⟩

/-- The read `v.back()`, the entry at index `size - 1`. -/
def readBack (v : List Range) : Access Range :=
  readAt v ((v.length : Int) - 1)

/-- Every read of a computation that has a value is inside a vector of `n`
entries. -/
def Access.Inside {α : Type} (n : Nat) (x : Access α) : Prop :=
  x.value.isSome = true → ∀ i ∈ x.reads, 0 ≤ i ∧ i < (n : Int)

/-! ## The mesh index resolver (renderer.cpp) -/

/-- The function `getMeshIndexRange(indexRanges, pathRange)`. -/
def getMeshIndexRange (indexRanges : List Range) (pathRange : Range) : Access Range :=
  if indexRanges.length = 0 then
    pure ⟨0, 0⟩
  else do
    let lastIndexRange ← readBack indexRanges
    let first ← readAt indexRanges 0
    let descending : Bool := decide (first.start > lastIndexRange.start)
    let pathRange : Range := ⟨pathRange.start - 1, pathRange.«end» - 1⟩
    let startIndex ←
      if geSize pathRange.start indexRanges then
        pure lastIndexRange.«end»
      else if !descending then do
        let e ← readAt indexRanges pathRange.start
        pure e.start
      else do
        let e ← readAt indexRanges pathRange.start
        pure e.«end»
    let endIndex ←
      if descending then do
        let e ← readAt indexRanges (pathRange.«end» - 1)
        pure e.start
      else if geSize pathRange.«end» indexRanges then
        pure lastIndexRange.«end»
      else do
        let e ← readAt indexRanges pathRange.«end»
        pure e.start
    if descending then
      pure ⟨endIndex, startIndex⟩
    else
      pure ⟨startIndex, endIndex⟩

/-! ## Index arithmetic of the mesh-coverage strategy (xcaa-strategy.cpp)

The count is a difference of two entries of the table, computed in `int`: a
difference outside the bounds of a 32-bit `int` is a signed overflow, undefined
behaviour, and yields no value. -/

/-- The largest `int`. -/
def INT_MAX : Int := 2147483647

/-- The smallest `int`. -/
def INT_MIN : Int := -2147483648

/-- The result of an `int` operation: a value inside the bounds of `int`, or
`none` for a signed overflow. -/
def checkedInt (x : Int) : Option Int :=
  if INT_MIN ≤ x ∧ x ≤ INT_MAX then some x else none

/-- The `int` subtraction `a - b`: no read, and no value on a signed overflow. -/
def checkedSub (a b : Int) : Access Int := ⟨[], checkedInt (a - b)⟩

/-- The function `calculateStartFromIndexRanges(pathRange, indexRanges)`. -/
def calculateStartFromIndexRanges (pathRange : Range) (indexRanges : List Range) :
    Access Int :=
  if indexRanges.length = 0 then
    pure 0
  else do
    let e ← readAt indexRanges (pathRange.start - 1)
    pure e.start

/-- The function `calculateCountFromIndexRanges(pathRange, indexRanges)`. -/
def calculateCountFromIndexRanges (pathRange : Range) (indexRanges : List Range) :
    Access Int :=
  if indexRanges.length = 0 then
    pure 0
  else do
    let lastIndex ←
      if geSize (pathRange.«end» - 1) indexRanges then do
        let e ← readBack indexRanges
        pure e.«end»
      else do
        let e ← readAt indexRanges (pathRange.«end» - 1)
        pure e.start
    let e ← readAt indexRanges (pathRange.start - 1)
    let firstIndex := e.start
    checkedSub lastIndex firstIndex

/-! ## The renderer (renderer.h, renderer.cpp)

A frame is modelled as the sequence of calls it issues: calls on the
antialiasing strategy, the renderer's own clearing and direct-rendering
routines, and the GL draw calls of `directlyRenderObject`. What
`directlyRenderObject` does between these calls (reads of the vectors of the
renderer, lookups of programs and of locations, uniform helpers) decides
whether the frame goes on or is aborted; the values bound and the arguments of
the draw calls are computed, and are not recorded in the calls. -/

/-- Modelled from the spec: the direct rendering modes of aa-strategy.h, which
is not among the sources: `none`, `conservative`, and the other direct modes. -/
inductive DirectRenderingMode where
  | drm_none
  | drm_conservative
  | drm_other
  deriving DecidableEq, Repr

/-- Modelled from the spec: packed meshes (meshes.h, not among the sources),
reduced to the per-path range tables the renderer and the strategies read. -/
structure PathfinderPackedMeshes where
  bQuadVertexPositionPathRanges : List Range
  bQuadVertexInteriorIndexPathRanges : List Range
  bBoxPathRanges : List Range
  deriving DecidableEq, Repr

/-- Modelled from the spec: the GPU buffers built from one packed mesh
(meshes.h, not among the sources), with the range tables they keep. -/
structure PathfinderPackedMeshBuffers where
  bQuadVertexPositionPathRanges : List Range
  bQuadVertexInteriorIndexPathRanges : List Range
  deriving DecidableEq, Repr

/-- Modelled from the spec: the constructor
`PathfinderPackedMeshBuffers(const PathfinderPackedMeshes&)` (meshes.h, not
among the sources): the buffers of a mesh keep its range tables. -/
def PathfinderPackedMeshBuffers.ofMeshes (m : PathfinderPackedMeshes) :
    PathfinderPackedMeshBuffers :=
  ⟨m.bQuadVertexPositionPathRanges, m.bQuadVertexInteriorIndexPathRanges⟩

/-- A call issued by the renderer. `attachMeshes` records the meshes and the
mesh buffers the renderer holds when the strategy receives the call. -/
inductive Call where
  | clearDestFramebuffer
  | clearForDirectRendering (objectIndex : Int)
  | directlyRenderObject (pass objectIndex : Int)
  | glDrawElements
  | glDrawElementsInstanced
  | glDrawArrays
  | glDrawArraysInstanced
  | init
  | attachMeshes (meshes : List PathfinderPackedMeshes)
      (meshBuffers : List PathfinderPackedMeshBuffers)
  | setFramebufferSize
  | prepareForRendering
  | prepareForDirectRendering
  | prepareToRenderObject (objectIndex : Int)
  | finishDirectlyRenderingObject (objectIndex : Int)
  | antialiasObject (objectIndex : Int)
  | finishAntialiasingObject (objectIndex : Int)
  | resolveAAForObject (objectIndex : Int)
  | resolve (pass : Int)
  deriving DecidableEq, Repr

/-- Modelled from the spec: the interface of `AntialiasingStrategy`
(aa-strategy.h, not among the sources) as the renderer uses it. `σ` is the
state of the strategy object; the two queries read it and every other method
may change it. -/
structure AntialiasingStrategy (σ : Type) where
  getPassCount : σ → Int
  getDirectRenderingMode : σ → DirectRenderingMode
  init : σ → σ
  attachMeshes : List PathfinderPackedMeshes → List PathfinderPackedMeshBuffers → σ → σ
  setFramebufferSize : σ → σ
  prepareForRendering : σ → σ
  prepareForDirectRendering : σ → σ
  prepareToRenderObject : Int → σ → σ
  finishDirectlyRenderingObject : Int → σ → σ
  antialiasObject : Int → σ → σ
  finishAntialiasingObject : Int → σ → σ
  resolveAAForObject : Int → σ → σ
  resolve : Int → σ → σ

/-- The effect of a call on the strategy object: a strategy method changes its
state, a call of the renderer or of GL leaves it alone. -/
def AntialiasingStrategy.apply {σ : Type} (S : AntialiasingStrategy σ) :
    Call → σ → σ
  | .init => S.init
  | .attachMeshes meshes meshBuffers => S.attachMeshes meshes meshBuffers
  | .setFramebufferSize => S.setFramebufferSize
  | .prepareForRendering => S.prepareForRendering
  | .prepareForDirectRendering => S.prepareForDirectRendering
  | .prepareToRenderObject i => S.prepareToRenderObject i
  | .finishDirectlyRenderingObject i => S.finishDirectlyRenderingObject i
  | .antialiasObject i => S.antialiasObject i
  | .finishAntialiasingObject i => S.finishAntialiasingObject i
  | .resolveAAForObject i => S.resolveAAForObject i
  | .resolve pass => S.resolve pass
  | _ => id

/-- Modelled from the spec: the enumeration `AntialiasingStrategyName`
(utils.h, not among the sources), as the integer code of the enumerator. -/
abbrev AntialiasingStrategyName := Int

/-- Modelled from the spec: the enumeration `SubpixelAAType` (utils.h, not
among the sources), as the integer code of the enumerator. -/
abbrev SubpixelAAType := Int

/-- Modelled from the spec: the enumeration `StemDarkeningMode` (utils.h, not
among the sources), as the integer code of the enumerator. -/
abbrev StemDarkeningMode := Int

/-- Modelled from the spec: the enumeration `GammaCorrectionMode` (utils.h, not
among the sources), as the integer code of the enumerator. -/
abbrev GammaCorrectionMode := Int

/-- Modelled from the spec: the options record `AAOptions` (utils.h, not among
the sources), with the three members `setAntialiasingOptions` reads. -/
structure AAOptions where
  gammaCorrection : GammaCorrectionMode
  subpixelAA : SubpixelAAType
  stemDarkening : StemDarkeningMode
  deriving DecidableEq, Repr

/-- The inline `Renderer::getPathIDsAreInstanced` of renderer.h. -/
def getPathIDsAreInstanced : Bool := false

/-- The buffer index at which path `k` begins in an ascending table: the start
of entry `k - 1`, or the end of the last entry for a path past the table. -/
def ascendingBound (T : List Range) (k : Int) : Int :=
  if k - 1 < (T.length : Int) then (T.getD (k - 1).toNat ⟨0, 0⟩).start
  else (T.getLastD ⟨0, 0⟩).«end»

/-- The entries of a table a path range addresses: the entries `start - 1` to
`end - 2`. -/
def addressedEntries (T : List Range) (R : Range) : List Range :=
  (T.drop (R.start - 1).toNat).take ((R.«end» - 1).toNat - (R.start - 1).toNat)

/-! ### Path transform buffers

`createPathTransformBuffers` computes the sizes of its arrays in `int`. Its
arithmetic is modelled with the bounds of a 32-bit `int` (`checkedInt`): an
operation whose result is outside them is undefined behaviour and yields no
value. -/

/-- The constant `MAX_PATHS` of renderer.h. -/
def MAX_PATHS : Int := 65535

/-- The conversion of an `int` to `size_t` (64 bits). -/
def toSizeT (x : Int) : Nat := (x % 2 ^ 64).toNat

/-- The template `PathTransformBuffers<T>` of renderer.h. -/
structure PathTransformBuffers (α : Type) where
  st : α
  ext : α
  deriving DecidableEq, Repr

/-- The method `Renderer::createPathTransformBuffers(pathCount)`. A
`std::vector<float>(n)` is the list of `n` zeros; `pathCount & 1` is
`pathCount % 2`. -/
def createPathTransformBuffers (pathCount : Int) :
    Option (PathTransformBuffers (List ℚ)) := do
  let pathCount ← checkedInt (pathCount + 1)
  let stSize ← checkedInt (pathCount * 4)
  let extCount ← checkedInt (pathCount + pathCount % 2)
  let extSize ← checkedInt (extCount * 2)
  pure ⟨List.replicate (toSizeT stSize) 0, List.replicate (toSizeT extSize) 0⟩

/-! ### The buffer-texture caches (renderer.cpp)

A `PathfinderBufferTexture` is known by its identity: the objects created with
`make_shared` are numbered in the order of their creation, so that a new object
differs from every object created before it. A null pointer is `none`. The
arrays handed to `upload` have a type `δ` taken as a parameter, and
`pathColorsForObject` and `pathTransformsForObject`, pure virtual in renderer.h,
are parameters too. -/

/-- The part of the renderer the two upload methods work on: the two caches, the
number of `PathfinderBufferTexture` objects created so far, and the calls of
`PathfinderBufferTexture::upload` so far, each with the texture and the array. -/
structure BufferTextures (δ : Type) where
  mPathColorsBufferTextures : List (Option Nat)
  mPathTransformBufferTextures : List (Option (PathTransformBuffers Nat))
  created : Nat
  uploads : List (Nat × δ)
  deriving DecidableEq, Repr

/-- The call `v.resize(n, nullptr)` of a vector of pointers. -/
def resize {β : Type} (v : List (Option β)) (n : Nat) : List (Option β) :=
  v.take n ++ List.replicate (n - v.length) none

/-- The expression `make_shared<PathfinderBufferTexture>(...)`: the new texture
and the state after it. -/
def makeBufferTexture {δ : Type} (s : BufferTextures δ) : Nat × BufferTextures δ :=
  (s.created, { s with created := s.created + 1 })

/-- The call `texture->upload(data)`. -/
def upload {δ : Type} (texture : Nat) (data : δ) (s : BufferTextures δ) :
    BufferTextures δ :=
  { s with uploads := s.uploads ++ [(texture, data)] }

/-- The body of the loop of `Renderer::uploadPathColors`. -/
def uploadPathColorsOfObject {δ : Type} (pathColorsForObject : Int → δ)
    (s : BufferTextures δ) (objectIndex : Nat) : BufferTextures δ :=
  let pathColors := pathColorsForObject objectIndex
  match s.mPathColorsBufferTextures.getD objectIndex none with
  | none =>
    let (pathColorsBufferTexture, s) := makeBufferTexture s
    let s := { s with
      mPathColorsBufferTextures :=
        s.mPathColorsBufferTextures.set objectIndex (some pathColorsBufferTexture) }
    upload pathColorsBufferTexture pathColors s
  | some pathColorsBufferTexture => upload pathColorsBufferTexture pathColors s

/-- The method `Renderer::uploadPathColors(objectCount)`. A negative
`objectCount` is converted to a size no vector can have, and `resize` throws:
there is no state after the call. -/
def uploadPathColors {δ : Type} (pathColorsForObject : Int → δ) (objectCount : Int)
    (s : BufferTextures δ) : Option (BufferTextures δ) :=
  if objectCount < 0 then none
  else
    let s := { s with
      mPathColorsBufferTextures := resize s.mPathColorsBufferTextures objectCount.toNat }
    some ((List.range objectCount.toNat).foldl (uploadPathColorsOfObject pathColorsForObject) s)

/-- The body of the loop of `Renderer::uploadPathTransforms`. -/
def uploadPathTransformsOfObject {δ : Type}
    (pathTransformsForObject : Int → PathTransformBuffers δ)
    (s : BufferTextures δ) (objectIndex : Nat) : BufferTextures δ :=
  let pathTransforms := pathTransformsForObject objectIndex
  match s.mPathTransformBufferTextures.getD objectIndex none with
  | none =>
    let (st, s) := makeBufferTexture s
    let (ext, s) := makeBufferTexture s
    let pathTransformBufferTextures : PathTransformBuffers Nat := ⟨st, ext⟩
    let s := { s with
      mPathTransformBufferTextures :=
        s.mPathTransformBufferTextures.set objectIndex (some pathTransformBufferTextures) }
    upload pathTransformBufferTextures.ext pathTransforms.ext
      (upload pathTransformBufferTextures.st pathTransforms.st s)
  | some pathTransformBufferTextures =>
    upload pathTransformBufferTextures.ext pathTransforms.ext
      (upload pathTransformBufferTextures.st pathTransforms.st s)

/-- The method `Renderer::uploadPathTransforms(objectCount)`; a negative
`objectCount` as in `uploadPathColors`. -/
def uploadPathTransforms {δ : Type}
    (pathTransformsForObject : Int → PathTransformBuffers δ) (objectCount : Int)
    (s : BufferTextures δ) : Option (BufferTextures δ) :=
  if objectCount < 0 then none
  else
    let s := { s with
      mPathTransformBufferTextures :=
        resize s.mPathTransformBufferTextures objectCount.toNat }
    some ((List.range objectCount.toNat).foldl
      (uploadPathTransformsOfObject pathTransformsForObject) s)

/-! ### The adaptive strategy (xcaa-strategy.cpp) -/

/-- The state of an `AdaptiveStencilMeshAAAStrategy`: the two strategies it
owns. -/
structure AdaptiveStencilMeshAAAStrategy (σm σs : Type) where
  mMeshStrategy : σm
  mStencilStrategy : σs

/-- One of the two strategies owned by the adaptive strategy. -/
inductive InnerStrategy where
  | mesh
  | stencil
  deriving DecidableEq, Repr

/-- The method `AdaptiveStencilMeshAAAStrategy::getAppropriateStrategy`, as the
choice it makes; `needsStencil` is the value of `renderer.getNeedsStencil()`. -/
def getAppropriateStrategy (needsStencil : Bool) : InnerStrategy :=
  if needsStencil then .stencil else .mesh

/-- A call `getAppropriateStrategy(renderer).method(...)`: the method, given as
`onMesh` on the mesh strategy and `onStencil` on the stencil strategy, runs on
the strategy chosen. -/
def AdaptiveStencilMeshAAAStrategy.dispatch {σm σs : Type} (needsStencil : Bool)
    (onMesh : σm → σm) (onStencil : σs → σs)
    (a : AdaptiveStencilMeshAAAStrategy σm σs) : AdaptiveStencilMeshAAAStrategy σm σs :=
  match getAppropriateStrategy needsStencil with
  | .stencil => { a with mStencilStrategy := onStencil a.mStencilStrategy }
  | .mesh => { a with mMeshStrategy := onMesh a.mMeshStrategy }

/-- The class `AdaptiveStencilMeshAAAStrategy` over a mesh strategy `Sm` and a
stencil strategy `Ss`; `needsStencil` is the value of
`renderer.getNeedsStencil()` at the calls. -/
def adaptiveStrategy {σm σs : Type} (Sm : AntialiasingStrategy σm)
    (Ss : AntialiasingStrategy σs) (needsStencil : Bool) :
    AntialiasingStrategy (AdaptiveStencilMeshAAAStrategy σm σs) where
  getPassCount := fun _ => 1
  getDirectRenderingMode := fun _ => .drm_none
  init := fun a => ⟨Sm.init a.mMeshStrategy, Ss.init a.mStencilStrategy⟩
  attachMeshes := fun meshes meshBuffers a =>
    ⟨Sm.attachMeshes meshes meshBuffers a.mMeshStrategy,
      Ss.attachMeshes meshes meshBuffers a.mStencilStrategy⟩
  setFramebufferSize := fun a =>
    ⟨Sm.setFramebufferSize a.mMeshStrategy, Ss.setFramebufferSize a.mStencilStrategy⟩
  prepareForRendering :=
    .dispatch needsStencil Sm.prepareForRendering Ss.prepareForRendering
  prepareForDirectRendering :=
    .dispatch needsStencil Sm.prepareForDirectRendering Ss.prepareForDirectRendering
  prepareToRenderObject := fun objectIndex =>
    .dispatch needsStencil (Sm.prepareToRenderObject objectIndex)
      (Ss.prepareToRenderObject objectIndex)
  finishDirectlyRenderingObject := fun objectIndex =>
    .dispatch needsStencil (Sm.finishDirectlyRenderingObject objectIndex)
      (Ss.finishDirectlyRenderingObject objectIndex)
  antialiasObject := fun objectIndex =>
    .dispatch needsStencil (Sm.antialiasObject objectIndex) (Ss.antialiasObject objectIndex)
  finishAntialiasingObject := fun objectIndex =>
    .dispatch needsStencil (Sm.finishAntialiasingObject objectIndex)
      (Ss.finishAntialiasingObject objectIndex)
  resolveAAForObject := fun objectIndex =>
    .dispatch needsStencil (Sm.resolveAAForObject objectIndex)
      (Ss.resolveAAForObject objectIndex)
  resolve := fun pass =>
    .dispatch needsStencil (Sm.resolve pass) (Ss.resolve pass)

/-- Whether a call is one of the per-pass and per-object methods of a
strategy, those the adaptive strategy hands to one of its two strategies. -/
def Call.isPerPassOrObject : Call → Bool
  | .prepareForRendering => true
  | .prepareForDirectRendering => true
  | .prepareToRenderObject _ => true
  | .finishDirectlyRenderingObject _ => true
  | .antialiasObject _ => true
  | .finishAntialiasingObject _ => true
  | .resolveAAForObject _ => true
  | .resolve _ => true
  | _ => false

/-- Whether a call belongs to direct rendering: `prepareForDirectRendering`,
`prepareToRenderObject`, `clearForDirectRendering` or `directlyRenderObject`. -/
def Call.isDirectRendering : Call → Bool
  | .prepareForDirectRendering => true
  | .prepareToRenderObject _ => true
  | .clearForDirectRendering _ => true
  | .directlyRenderObject _ _ => true
  | _ => false

/-! ### Shader programs (shader-loader.cpp) and the uniform helpers (renderer.cpp)

At this level a helper is the sequence of its queries of the program
(`hasUniform`, `getUniform`, `getAttribute`) and of the GL commands it issues.
A GL command keeps the location it is given; the values bound are not part of
the model. -/

/-- Modelled from the spec: the data of `PathfinderShaderProgram`
(shader-loader.h, not among the sources): the arrays `mUniforms[uniform_count]`
and `mAttributes[attribute_count]` of locations, `-1` for a binding the program
does not declare. `uniform_count` and `attribute_count` are their lengths. -/
structure PathfinderShaderProgram where
  mUniforms : List Int
  mAttributes : List Int
  deriving DecidableEq, Repr

/-- The method `PathfinderShaderProgram::hasUniform`. -/
def PathfinderShaderProgram.hasUniform (p : PathfinderShaderProgram)
    (aUniformID : Int) : Bool :=
  if aUniformID < 0 ∨ aUniformID ≥ (p.mUniforms.length : Int) then
    false
  else
    decide (p.mUniforms.getD aUniformID.toNat (-1) ≠ -1)

/-- The method `PathfinderShaderProgram::hasAttribute`. -/
def PathfinderShaderProgram.hasAttribute (p : PathfinderShaderProgram)
    (aAttributeID : Int) : Bool :=
  if aAttributeID < 0 ∨ aAttributeID ≥ (p.mAttributes.length : Int) then
    false
  else
    decide (p.mAttributes.getD aAttributeID.toNat (-1) ≠ -1)

/-- The method `PathfinderShaderProgram::getUniform`; `none` when one of its
assertions fails. -/
def PathfinderShaderProgram.getUniform (p : PathfinderShaderProgram)
    (aUniformID : Int) : Option Int :=
  if aUniformID < 0 ∨ aUniformID ≥ (p.mUniforms.length : Int) then
    none
  else if p.mUniforms.getD aUniformID.toNat (-1) ≠ -1 then
    some (p.mUniforms.getD aUniformID.toNat (-1))
  else
    none

/-- The method `PathfinderShaderProgram::getAttribute`; `none` when one of its
assertions fails. -/
def PathfinderShaderProgram.getAttribute (p : PathfinderShaderProgram)
    (aAttributeID : Int) : Option Int :=
  if aAttributeID < 0 ∨ aAttributeID ≥ (p.mAttributes.length : Int) then
    none
  else if p.mAttributes.getD aAttributeID.toNat (-1) ≠ -1 then
    some (p.mAttributes.getD aAttributeID.toNat (-1))
  else
    none

/-- The tables of the shader resources (resources.h, not among the sources) and
the outcomes of the GL driver, as parameters: the three counts, the entries
`PROGRAM_INFO[i].vertex` and `PROGRAM_INFO[i].fragment`, whether a shader
compiles (`GL_COMPILE_STATUS`), and the program object that linking produces,
with its locations, or `none` when `GL_LINK_STATUS` is false. -/
structure ShaderEnvironment where
  vs_count : Nat
  fs_count : Nat
  program_count : Nat
  programVertex : Nat → Nat
  programFragment : Nat → Nat
  compileVertexShader : Nat → Bool
  compileFragmentShader : Nat → Bool
  linkProgram : Nat → Nat → Nat → Option PathfinderShaderProgram

/-- The state of a `ShaderManager`: the program table `mPrograms`, `none` for a
null pointer. -/
structure ShaderManager where
  mPrograms : List (Option PathfinderShaderProgram)
  deriving DecidableEq, Repr

/-- The constructor `ShaderManager::ShaderManager()`: `program_count` null
pointers. -/
def ShaderManager.new (env : ShaderEnvironment) : ShaderManager :=
  ⟨List.replicate env.program_count none⟩

/-- The method `ShaderManager::loadShader`: the name of the shader object, a
non-zero number (here `shader`), or 0 when the shader does not compile. -/
def loadShader (compiles : Bool) (shader : Nat) : Nat :=
  if !compiles then 0 else shader

/-- A loop `for (i = 0; i < n && succeeded; i++) body`, on the pair of the flag
`succeeded` and the rest of the state; `body` gives the flag and the state after
one iteration. -/
def forWhileSucceeded {α : Type} (n : Nat) (body : Nat → α → Bool × α)
    (state : Bool × α) : Bool × α :=
  (List.range n).foldl (fun (state : Bool × α) i =>
    if state.1 then body i state.2 else state) state

/-- The first two loops of `ShaderManager::init`: the flag `succeeded` and the
arrays `vertexShaders` and `fragmentShaders` when the program loop starts. The
shader object created for shader `i` is named `i + 1`. -/
def loadAllShaders (env : ShaderEnvironment) : Bool × List Nat × List Nat :=
  let succeeded := true
  let vertexShaders := List.replicate env.vs_count 0
  let fragmentShaders := List.replicate env.fs_count 0
  let (succeeded, vertexShaders) :=
    forWhileSucceeded env.vs_count
      (fun i vertexShaders =>
        let vertexShaders := vertexShaders.set i (loadShader (env.compileVertexShader i) (i + 1))
        (if vertexShaders.getD i 0 = 0 then false else true, vertexShaders))
      (succeeded, vertexShaders)
  let (succeeded, fragmentShaders) :=
    forWhileSucceeded env.fs_count
      (fun i fragmentShaders =>
        let fragmentShaders :=
          fragmentShaders.set i (loadShader (env.compileFragmentShader i) (i + 1))
        (if fragmentShaders.getD i 0 = 0 then false else true, fragmentShaders))
      (succeeded, fragmentShaders)
  (succeeded, vertexShaders, fragmentShaders)

/-- The call `program->load(PROGRAM_INFO[i].name,
vertexShaders[PROGRAM_INFO[i].vertex], fragmentShaders[PROGRAM_INFO[i].fragment])`
of the third loop of `ShaderManager::init`: the loaded program, or `none` when
`load` returns false. -/
def loadProgram (env : ShaderEnvironment) (i : Nat) : Option PathfinderShaderProgram :=
  env.linkProgram i ((loadAllShaders env).2.1.getD (env.programVertex i) 0)
    ((loadAllShaders env).2.2.getD (env.programFragment i) 0)

/-- The method `ShaderManager::init()`: the value it returns and the manager
after it. -/
def ShaderManager.init (env : ShaderEnvironment) (m : ShaderManager) :
    Bool × ShaderManager :=
  let succeeded := (loadAllShaders env).1
  let (succeeded, mPrograms) :=
    forWhileSucceeded env.program_count
      (fun i mPrograms =>
        match loadProgram env i with
        | some program => (true, mPrograms.set i (some program))
        | none => (false, mPrograms))
      (succeeded, m.mPrograms)
  (succeeded, ⟨mPrograms⟩)

/-- The method `ShaderManager::getProgram(aProgramID)`: the pointer in the slot
(`some none` for a null pointer), or `none` when one of the two assertions
fails. -/
def ShaderManager.getProgram (env : ShaderEnvironment) (m : ShaderManager)
    (aProgramID : Int) : Option (Option PathfinderShaderProgram) :=
  if ¬ (aProgramID ≥ 0) then
    none
  else if ¬ (aProgramID < (env.program_count : Int)) then
    none
  else
    some (m.mPrograms.getD aProgramID.toNat none)

/-- The enumerators of `UniformID` the renderer uses (the enumeration is not
among the sources): their integer values are parameters. -/
structure UniformIDs where
  uniform_uFramebufferSize : Int
  uniform_uTexScale : Int
  uniform_uTransform : Int
  uniform_uTransformST : Int
  uniform_uTransformExt : Int
  uniform_uEmboldenAmount : Int
  uniform_uGammaLUT : Int
  uniform_uBGColor : Int
  uniform_uAreaLUT : Int
  deriving DecidableEq, Repr

/-- The enumerators of `AttributeID` the renderer uses (the enumeration is not
among the sources): their integer values are parameters. -/
structure AttributeIDs where
  attribute_aPosition : Int
  attribute_aVertexID : Int
  attribute_aPathID : Int
  deriving DecidableEq, Repr

/-- A GL command, with the location or texture unit it is given. -/
inductive GLCommand where
  | glUniform1i (location : Int)
  | glUniform2i (location : Int)
  | glUniform2f (location : Int)
  | glUniform3f (location : Int)
  | glUniform4f (location : Int)
  | glUniformMatrix4fv (location : Int)
  | glActiveTexture (textureUnit : Int)
  | glBindTexture
  | glUseProgram
  | glBindBuffer
  | glVertexAttribPointer (location : Int)
  | glVertexAttribDivisor (location : Int)
  | glEnableVertexAttribArray (location : Int)
  deriving DecidableEq, Repr

/-- What a helper does, step by step: a query of the program with its answer, a
lookup of a location, the computation of the transform of an object, or a GL
command. -/
inductive GLEvent where
  | hasUniform (id : Int) (result : Bool)
  | hasAttribute (id : Int) (result : Bool)
  | getUniform (id : Int)
  | getAttribute (id : Int)
  | computeTransform (pass objectIndex : Int)
  | command (c : GLCommand)
  deriving DecidableEq, Repr

/-- A helper run: its events in order, and its value; `value = none` means that
the run ended at a lookup whose assertion failed or at a value that could not be
read. -/
structure Run (α : Type) where
  events : List GLEvent
  value : Option α
  deriving DecidableEq, Repr

/-- A value obtained without any event. -/
def Run.ret {α : Type} (a : α) : Run α := ⟨[], some a⟩

/-- Sequencing: the second part runs only when the first has a value. -/
def Run.andThen {α β : Type} (x : Run α) (k : α → Run β) : Run β :=
  match x.value with
  | none => ⟨x.events, none⟩
  | some a => ⟨x.events ++ (k a).events, (k a).value⟩

instance : Monad Run where
  pure := Run.ret
  bind := Run.andThen

/-- The GL commands among the events of a run. -/
def Run.commands {α : Type} (x : Run α) : List GLCommand :=
  x.events.filterMap fun e =>
    match e with
    | .command c => some c
    | _ => none

/-- The query `aProgram.hasUniform(id)`. -/
def queryHasUniform (p : PathfinderShaderProgram) (id : Int) : Run Bool :=
  ⟨[.hasUniform id (p.hasUniform id)], some (p.hasUniform id)⟩

/-- The lookup `aProgram.getUniform(id)`. -/
def lookupUniform (p : PathfinderShaderProgram) (id : Int) : Run Int :=
  ⟨[.getUniform id], p.getUniform id⟩

/-- The lookup `aProgram.getAttribute(id)`. -/
def lookupAttribute (p : PathfinderShaderProgram) (id : Int) : Run Int :=
  ⟨[.getAttribute id], p.getAttribute id⟩

/-- A GL command. -/
def glCall (c : GLCommand) : Run Unit := ⟨[.command c], some ()⟩

/-- The call `computeTransform(pass, objectIndex)` made by a helper. -/
def computeTransformCall (pass objectIndex : Int) : Run Unit :=
  ⟨[.computeTransform pass objectIndex], some ()⟩

/-- The method `Renderer::setFramebufferSizeUniform(aProgram)`. -/
def setFramebufferSizeUniform (ids : UniformIDs) (aProgram : PathfinderShaderProgram) :
    Run Unit := do
  if ← queryHasUniform aProgram ids.uniform_uFramebufferSize then
    let location ← lookupUniform aProgram ids.uniform_uFramebufferSize
    glCall (.glUniform2i location)

/-- The method `Renderer::setTransformAndTexScaleUniformsForDest(aProgram,
tileInfo)`. -/
def setTransformAndTexScaleUniformsForDest (ids : UniformIDs)
    (aProgram : PathfinderShaderProgram) : Run Unit := do
  if ← queryHasUniform aProgram ids.uniform_uTexScale then
    let location ← lookupUniform aProgram ids.uniform_uTexScale
    glCall (.glUniform2f location)
  if ← queryHasUniform aProgram ids.uniform_uTransform then
    let location ← lookupUniform aProgram ids.uniform_uTransform
    glCall (.glUniformMatrix4fv location)

/-- The method `Renderer::setTransformSTAndTexScaleUniformsForDest(aProgram)`. -/
def setTransformSTAndTexScaleUniformsForDest (ids : UniformIDs)
    (aProgram : PathfinderShaderProgram) : Run Unit := do
  if ← queryHasUniform aProgram ids.uniform_uTransformST then
    let location ← lookupUniform aProgram ids.uniform_uTransformST
    glCall (.glUniform4f location)
  if ← queryHasUniform aProgram ids.uniform_uTexScale then
    let location ← lookupUniform aProgram ids.uniform_uTexScale
    glCall (.glUniform2f location)

/-- The method `Renderer::setTransformUniform(aProgram, pass, objectIndex)`. -/
def setTransformUniform (ids : UniformIDs) (aProgram : PathfinderShaderProgram)
    (pass objectIndex : Int) : Run Unit := do
  if ← queryHasUniform aProgram ids.uniform_uTransform then
    computeTransformCall pass objectIndex
    let location ← lookupUniform aProgram ids.uniform_uTransform
    glCall (.glUniformMatrix4fv location)

/-- The method `Renderer::setTransformSTUniform(aProgram, objectIndex)`. -/
def setTransformSTUniform (ids : UniformIDs) (aProgram : PathfinderShaderProgram)
    (objectIndex : Int) : Run Unit := do
  if ← queryHasUniform aProgram ids.uniform_uTransformST then
    computeTransformCall 0 objectIndex
    let location ← lookupUniform aProgram ids.uniform_uTransformST
    glCall (.glUniform4f location)

/-- The method `Renderer::setTransformAffineUniforms(aProgram, objectIndex)`. -/
def setTransformAffineUniforms (ids : UniformIDs) (aProgram : PathfinderShaderProgram)
    (objectIndex : Int) : Run Unit := do
  computeTransformCall 0 objectIndex
  if ← queryHasUniform aProgram ids.uniform_uTransformST then
    let location ← lookupUniform aProgram ids.uniform_uTransformST
    glCall (.glUniform4f location)
  if ← queryHasUniform aProgram ids.uniform_uTransformExt then
    let location ← lookupUniform aProgram ids.uniform_uTransformExt
    glCall (.glUniform2f location)

/-- The method `Renderer::setEmboldenAmountUniform(objectIndex, aProgram)`. -/
def setEmboldenAmountUniform (ids : UniformIDs) (_objectIndex : Int)
    (aProgram : PathfinderShaderProgram) : Run Unit := do
  if !(← queryHasUniform aProgram ids.uniform_uEmboldenAmount) then
    pure ()
  else
    let location ← lookupUniform aProgram ids.uniform_uEmboldenAmount
    glCall (.glUniform2f location)

/-- The method `Renderer::bindGammaLUT(bgColor, textureUnit, aProgram)`. -/
def bindGammaLUT (ids : UniformIDs) (textureUnit : Int)
    (aProgram : PathfinderShaderProgram) : Run Unit := do
  if ← queryHasUniform aProgram ids.uniform_uGammaLUT then
    glCall (.glActiveTexture textureUnit)
    glCall .glBindTexture
    let location ← lookupUniform aProgram ids.uniform_uGammaLUT
    glCall (.glUniform1i location)
  if ← queryHasUniform aProgram ids.uniform_uBGColor then
    let location ← lookupUniform aProgram ids.uniform_uBGColor
    glCall (.glUniform3f location)

/-- The method `Renderer::bindAreaLUT(textureUnit, aProgram)`. -/
def bindAreaLUT (ids : UniformIDs) (textureUnit : Int)
    (aProgram : PathfinderShaderProgram) : Run Unit := do
  if ← queryHasUniform aProgram ids.uniform_uAreaLUT then
    glCall (.glActiveTexture textureUnit)
    glCall .glBindTexture
    let location ← lookupUniform aProgram ids.uniform_uAreaLUT
    glCall (.glUniform1i location)

/-- The method `Renderer::initImplicitCoverCurveVAO(objectIndex,
instanceRange)`, on the direct curve program `directCurveProgram`;
`meshBuffersCount` is `mMeshBuffers.size()`. -/
def initImplicitCoverCurveVAO (attrs : AttributeIDs) (meshBuffersCount : Nat)
    (directCurveProgram : PathfinderShaderProgram) : Run Unit :=
  if meshBuffersCount = 0 then
    pure ()
  else do
    glCall .glUseProgram
    glCall .glBindBuffer
    let location ← lookupAttribute directCurveProgram attrs.attribute_aPosition
    glCall (.glVertexAttribPointer location)
    glCall .glBindBuffer
    let location ← lookupAttribute directCurveProgram attrs.attribute_aVertexID
    glCall (.glVertexAttribPointer location)
    glCall .glBindBuffer
    let location ← lookupAttribute directCurveProgram attrs.attribute_aPathID
    glCall (.glVertexAttribPointer location)
    if getPathIDsAreInstanced then
      let location ← lookupAttribute directCurveProgram attrs.attribute_aPathID
      glCall (.glVertexAttribDivisor location)
    let location ← lookupAttribute directCurveProgram attrs.attribute_aPosition
    glCall (.glEnableVertexAttribArray location)
    let location ← lookupAttribute directCurveProgram attrs.attribute_aVertexID
    glCall (.glEnableVertexAttribArray location)
    let location ← lookupAttribute directCurveProgram attrs.attribute_aPathID
    glCall (.glEnableVertexAttribArray location)

/-- The method `Renderer::initImplicitCoverInteriorVAO(objectIndex,
instanceRange, renderingMode)`, on the direct interior program
`directInteriorProgram`; `meshBuffersCount` is `mMeshBuffers.size()` and
`isConservativeInterior` is `directInteriorProgramName ==
program_conservativeInterior`. -/
def initImplicitCoverInteriorVAO (attrs : AttributeIDs) (meshBuffersCount : Nat)
    (isConservativeInterior : Bool) (directInteriorProgram : PathfinderShaderProgram) :
    Run Unit :=
  if meshBuffersCount = 0 then
    pure ()
  else do
    glCall .glUseProgram
    glCall .glBindBuffer
    let location ← lookupAttribute directInteriorProgram attrs.attribute_aPosition
    glCall (.glVertexAttribPointer location)
    glCall .glBindBuffer
    let location ← lookupAttribute directInteriorProgram attrs.attribute_aPathID
    glCall (.glVertexAttribPointer location)
    if getPathIDsAreInstanced then
      let location ← lookupAttribute directInteriorProgram attrs.attribute_aPathID
      glCall (.glVertexAttribDivisor location)
    if isConservativeInterior then
      glCall .glBindBuffer
      let location ← lookupAttribute directInteriorProgram attrs.attribute_aVertexID
      glCall (.glVertexAttribPointer location)
    let location ← lookupAttribute directInteriorProgram attrs.attribute_aPosition
    glCall (.glEnableVertexAttribArray location)
    let location ← lookupAttribute directInteriorProgram attrs.attribute_aPathID
    glCall (.glEnableVertexAttribArray location)
    if isConservativeInterior then
      let location ← lookupAttribute directInteriorProgram attrs.attribute_aVertexID
      glCall (.glEnableVertexAttribArray location)
    glCall .glBindBuffer

/-- Whether every lookup in a sequence of events comes after a query of the
same binding that answered true; `seen` are the events before the sequence. -/
def guardedAfter (seen : List GLEvent) : List GLEvent → Bool
  | [] => true
  | .getUniform id :: rest =>
    decide (GLEvent.hasUniform id true ∈ seen) &&
      guardedAfter (seen ++ [.getUniform id]) rest
  | .getAttribute id :: rest =>
    decide (GLEvent.hasAttribute id true ∈ seen) &&
      guardedAfter (seen ++ [.getAttribute id]) rest
  | e :: rest => guardedAfter (seen ++ [e]) rest

/-- Whether every `getUniform(id)` of a run comes after a `hasUniform(id)` that
returned true, and every `getAttribute(id)` after a `hasAttribute(id)` that
returned true. -/
def Run.guarded {α : Type} (x : Run α) : Bool := guardedAfter [] x.events

/-! ### The renderer and its frame (renderer.h, renderer.cpp)

A method of the renderer that runs a frame either returns or is aborted: by a
failed assertion, by a read outside a vector or by a null pointer (undefined
behaviour in C++). The calls issued up to that point are kept. -/

/-- Modelled from the spec: the render context as the renderer uses it
(render-context.h declares none of this): the shader manager that
`getShaderManager()` returns, with the tables of resources.h, and the
enumerators of `UniformID`, `AttributeID` and `ProgramID` that the renderer
names. -/
structure RenderContext where
  resources : ShaderEnvironment
  shaderManager : ShaderManager
  uniforms : UniformIDs
  attributes : AttributeIDs
  program_conservativeInterior : Int

/-- The renderer. `mAntialiasingStrategy = none` is the null pointer, and so is
`none` in a slot of the two caches of buffer textures. `getObjectCount`,
`createAAStrategy` (which returns a new strategy object, or `none` for a null
pointer), `getDirectInteriorProgramName`, `getDirectCurveProgramName` and
`setHintsUniform` (`none` when the method of the subclass does not return) are
the members the subclass provides. -/
structure Renderer (σ : Type) where
  mRenderContext : RenderContext
  mAntialiasingStrategy : Option σ
  mPathColorsBufferTextures : List (Option Nat)
  mPathTransformBufferTextures : List (Option (PathTransformBuffers Nat))
  mMeshBuffers : List PathfinderPackedMeshBuffers
  mMeshes : List PathfinderPackedMeshes
  mGammaCorrectionMode : GammaCorrectionMode
  getObjectCount : Int
  createAAStrategy :
    AntialiasingStrategyName → Int → SubpixelAAType → StemDarkeningMode → Option σ
  getDirectInteriorProgramName : DirectRenderingMode → Int
  getDirectCurveProgramName : Int
  setHintsUniform : PathfinderShaderProgram → Option Unit

/-- The method `Renderer::instanceRangeForObject(objectIndex)`. -/
def instanceRangeForObject (_objectIndex : Int) : Range := ⟨0, 1⟩

/-- The method `Renderer::meshIndexForObject(objectIndex)`. -/
def meshIndexForObject (objectIndex : Int) : Int := objectIndex

/-- The inline `Renderer::getMeshesAttached` of renderer.h. -/
def Renderer.getMeshesAttached {σ : Type} (r : Renderer σ) : Bool :=
  decide (r.mMeshBuffers.length > 0) && decide (r.mMeshes.length > 0)

/-- The element `v[i]` of a vector, for an `int` index: no value for a read
outside `0 .. size-1`. -/
def vectorAt {α : Type} (v : List α) (i : Int) : Option α :=
  if 0 ≤ i then v[i.toNat]? else none

/-- The method `Renderer::pathRangeForObject(objectIndex)`; `none` when
`mMeshBuffers[objectIndex]` is a read outside the vector. -/
def pathRangeForObject {σ : Type} (r : Renderer σ) (objectIndex : Int) : Option Range :=
  if r.mMeshBuffers.length = 0 then
    some ⟨0, 0⟩
  else if 0 ≤ objectIndex then
    (r.mMeshBuffers[objectIndex.toNat]?).map fun meshBuffers =>
      let length : Int := meshBuffers.bQuadVertexPositionPathRanges.length
      ⟨1, length + 1⟩
  else
    none

/-- The method `Renderer::setPathColorsUniform(objectIndex, aProgram,
textureUnit)`: the texture it binds, or `none` when
`mPathColorsBufferTextures[meshIndex]` is a read outside the vector or a null
pointer. `PathfinderBufferTexture::bind` (gl-utils, not among the sources) is
taken to return. -/
def setPathColorsUniform {σ : Type} (r : Renderer σ) (objectIndex : Int) : Option Nat :=
  let meshIndex := meshIndexForObject objectIndex
  (vectorAt r.mPathColorsBufferTextures meshIndex).join

/-- The two calls `mPathTransformBufferTextures[meshIndex]->st->bind(...)` and
`->ext->bind(...)` of `directlyRenderObject`: the pair of textures bound, or
`none` when the slot is outside the vector or a null pointer. -/
def bindPathTransformBufferTextures {σ : Type} (r : Renderer σ) (meshIndex : Int) :
    Option (PathTransformBuffers Nat) :=
  (vectorAt r.mPathTransformBufferTextures meshIndex).join

/-- A value the renderer reads, as a step of a run: no event, and no value for a
read outside a vector, a null pointer or an `int` overflow. -/
def Run.require {α : Type} (value : Option α) : Run α := ⟨[], value⟩

/-- The first part of `Renderer::directlyRenderObject`, from `pathRangeForObject`
to the computation of `bQuadInteriorRange`: every value read and every helper
called, in the order of the source; the run has no value as soon as one of them
has none. The result is the path range, the mesh buffers of the object and the
count the draw call is given, `bQuadInteriorRange.length()`, an `int`. GL
commands that set state, which have no outcome, are named in comments. -/
def directInterior {σ : Type} (r : Renderer σ) (renderingMode : DirectRenderingMode)
    (pass objectIndex : Int) : Run (Range × PathfinderPackedMeshBuffers × Int) := do
  let pathRange ← Run.require (pathRangeForObject r objectIndex)
  let meshIndex := meshIndexForObject objectIndex
  let meshes ← Run.require (vectorAt r.mMeshBuffers meshIndex)
  let _meshData ← Run.require (vectorAt r.mMeshes meshIndex)
  -- Set up implicit cover state: glDepthFunc, glDepthMask, glEnable, glDisable,
  -- glCullFace, glFrontFace, glEnable.
  -- Set up the implicit cover interior VAO.
  let directInteriorProgramName := r.getDirectInteriorProgramName renderingMode
  let directInteriorProgram ← Run.require
    (r.mRenderContext.shaderManager.getProgram r.mRenderContext.resources
      directInteriorProgramName)
  -- glBindVertexArray(mImplicitCoverInteriorVAO); a null program is dereferenced
  -- in initImplicitCoverInteriorVAO.
  let directInteriorProgram ← Run.require directInteriorProgram
  initImplicitCoverInteriorVAO r.mRenderContext.attributes r.mMeshBuffers.length
    (decide (directInteriorProgramName = r.mRenderContext.program_conservativeInterior))
    directInteriorProgram
  -- Draw direct interior parts.
  (if renderingMode = .drm_conservative then
    setTransformAffineUniforms r.mRenderContext.uniforms directInteriorProgram objectIndex
  else
    setTransformUniform r.mRenderContext.uniforms directInteriorProgram pass objectIndex)
  setFramebufferSizeUniform r.mRenderContext.uniforms directInteriorProgram
  Run.require (r.setHintsUniform directInteriorProgram)
  let _ ← Run.require (setPathColorsUniform r objectIndex)
  setEmboldenAmountUniform r.mRenderContext.uniforms objectIndex directInteriorProgram
  let _ ← Run.require (bindPathTransformBufferTextures r meshIndex)
  let bQuadInteriorRange ← Run.require
    (getMeshIndexRange meshes.bQuadVertexInteriorIndexPathRanges pathRange).value
  let count ← Run.require (checkedInt bQuadInteriorRange.length)
  pure (pathRange, meshes, count)

/-- The part of `Renderer::directlyRenderObject` that renders the curves, from
the direct curve state to the arguments of the draw call,
`coverCurveRange.start * 6` and `coverCurveRange.length() * 6`, which are `int`s:
as `directInterior`. -/
def directCurves {σ : Type} (r : Renderer σ) (pass objectIndex : Int) (pathRange : Range)
    (meshes : PathfinderPackedMeshBuffers) : Run (Int × Int) := do
  let meshIndex := meshIndexForObject objectIndex
  -- Set up direct curve state: glDepthMask, glEnable, glBlendEquation,
  -- glBlendFuncSeparate.
  -- Set up the direct curve VAO.
  let directCurveProgramName := r.getDirectCurveProgramName
  let directCurveProgram ← Run.require
    (r.mRenderContext.shaderManager.getProgram r.mRenderContext.resources
      directCurveProgramName)
  -- glBindVertexArray(mImplicitCoverCurveVAO); a null program is dereferenced in
  -- initImplicitCoverCurveVAO.
  let directCurveProgram ← Run.require directCurveProgram
  initImplicitCoverCurveVAO r.mRenderContext.attributes r.mMeshBuffers.length
    directCurveProgram
  -- Draw direct curve parts.
  setTransformUniform r.mRenderContext.uniforms directCurveProgram pass objectIndex
  setFramebufferSizeUniform r.mRenderContext.uniforms directCurveProgram
  Run.require (r.setHintsUniform directCurveProgram)
  let _ ← Run.require (setPathColorsUniform r objectIndex)
  setEmboldenAmountUniform r.mRenderContext.uniforms objectIndex directCurveProgram
  let _ ← Run.require (bindPathTransformBufferTextures r meshIndex)
  let coverCurveRange ← Run.require
    (getMeshIndexRange meshes.bQuadVertexPositionPathRanges pathRange).value
  let first ← Run.require (checkedInt (coverCurveRange.start * 6))
  let length ← Run.require (checkedInt coverCurveRange.length)
  let count ← Run.require (checkedInt (length * 6))
  pure (first, count)

/-- The strategy object and the calls issued so far, in order. -/
structure Frame (σ : Type) where
  strategy : σ
  calls : List Call

/-- Issue one call: it is appended to the calls and acts on the strategy. -/
def Frame.issue {σ : Type} (S : AntialiasingStrategy σ) (c : Call) (f : Frame σ) :
    Frame σ :=
  ⟨S.apply c f.strategy, f.calls ++ [c]⟩

/-- The method `Renderer::directlyRenderObject(pass, objectIndex)`: the frame
when it returns (`ok`), or the frame at the point where it is aborted
(`error`). -/
def directlyRenderObject {σ : Type} (S : AntialiasingStrategy σ) (r : Renderer σ)
    (pass objectIndex : Int) (f : Frame σ) : Except (Frame σ) (Frame σ) :=
  let f := f.issue S (.directlyRenderObject pass objectIndex)
  if r.mMeshBuffers.length = 0 ∨ r.mMeshes.length = 0 then
    .ok f
  else
    let renderingMode := S.getDirectRenderingMode f.strategy
    let instanceRange := instanceRangeForObject objectIndex
    if instanceRange.isEmpty then
      .ok f
    else
      match (directInterior r renderingMode pass objectIndex).value with
      | none => .error f
      | some (pathRange, meshes, _) =>
        let f :=
          if !getPathIDsAreInstanced then f.issue S .glDrawElements
          else f.issue S .glDrawElementsInstanced
        -- glDisable(GL_CULL_FACE)
        -- Render curves, if applicable.
        if renderingMode ≠ .drm_conservative then
          match (directCurves r pass objectIndex pathRange meshes).value with
          | none => .error f
          | some _ =>
            let f :=
              if !getPathIDsAreInstanced then f.issue S .glDrawArrays
              else f.issue S .glDrawArraysInstanced
            -- glBindVertexArray(0)
            -- Finish direct rendering.
            .ok (f.issue S (.finishDirectlyRenderingObject objectIndex))
        else
          -- glBindVertexArray(0)
          -- Finish direct rendering.
          .ok (f.issue S (.finishDirectlyRenderingObject objectIndex))

/-- The body of the object loop of `Renderer::renderAtlas`. -/
def renderObject {σ : Type} (S : AntialiasingStrategy σ) (r : Renderer σ)
    (pass : Int) (f : Frame σ) (objectIndex : Int) : Except (Frame σ) (Frame σ) := do
  let f ←
    (if S.getDirectRenderingMode f.strategy ≠ .drm_none then
      -- Prepare for direct rendering.
      let f := f.issue S (.prepareToRenderObject objectIndex)
      -- Clear.
      let f := f.issue S (.clearForDirectRendering objectIndex)
      -- Perform direct rendering (Loop-Blinn).
      directlyRenderObject S r pass objectIndex f
    else
      .ok f)
  -- Antialias.
  let f := f.issue S (.antialiasObject objectIndex)
  -- Perform post-antialiasing tasks.
  let f := f.issue S (.finishAntialiasingObject objectIndex)
  pure (f.issue S (.resolveAAForObject objectIndex))

/-- The body of the pass loop of `Renderer::renderAtlas`: the object loop
`for (objectIndex = 0; objectIndex < objectCount; objectIndex++)`, then
`resolve(pass)`. -/
def renderPass {σ : Type} (S : AntialiasingStrategy σ) (r : Renderer σ)
    (f : Frame σ) (pass : Int) : Except (Frame σ) (Frame σ) := do
  let f :=
    if S.getDirectRenderingMode f.strategy ≠ .drm_none then
      f.issue S .prepareForDirectRendering
    else f
  let objectCount := r.getObjectCount
  let f ← (List.range objectCount.toNat).foldlM
    (fun (f : Frame σ) (objectIndex : Nat) => renderObject S r pass f (objectIndex : Int)) f
  pure (f.issue S (.resolve pass))

/-- What `renderAtlas` leaves behind: the calls it issued; the renderer when it
ends, or `none` when `assert(mAntialiasingStrategy)` failed; and whether it
returned: it does not when that assertion fails or when `directlyRenderObject`
is aborted, and the calls and the renderer are then those at that point. -/
structure Outcome (σ : Type) where
  calls : List Call
  renderer : Option (Renderer σ)
  returned : Bool

/-- The method `Renderer::renderAtlas()`. -/
def renderAtlas {σ : Type} (S : AntialiasingStrategy σ) (r : Renderer σ) : Outcome σ :=
  if r.mMeshBuffers.length = 0 then
    ⟨[], some r, true⟩
  else
    match r.mAntialiasingStrategy with
    | none => ⟨[.clearDestFramebuffer], none, false⟩
    | some s =>
      let f : Frame σ := ⟨s, [.clearDestFramebuffer]⟩
      let f := f.issue S .prepareForRendering
      let passCount := S.getPassCount f.strategy
      match (List.range passCount.toNat).foldlM
        (fun (f : Frame σ) (pass : Nat) => renderPass S r f (pass : Int)) f with
      | .ok f => ⟨f.calls, some { r with mAntialiasingStrategy := some f.strategy }, true⟩
      | .error f =>
        ⟨f.calls, some { r with mAntialiasingStrategy := some f.strategy }, false⟩

/-- How `attachMeshes` and `setAntialiasingOptions` end: they return, or the
program is aborted (the assertion on the strategy fails, or a null strategy
pointer is dereferenced). Both carry the calls issued on the strategy and the
renderer as it is at that point. -/
inductive Completion (σ : Type) where
  | returned (calls : List Call) (renderer : Renderer σ)
  | aborted (calls : List Call) (renderer : Renderer σ)

/-- The calls issued on the strategy. -/
def Completion.calls {σ : Type} : Completion σ → List Call
  | .returned calls _ => calls
  | .aborted calls _ => calls

/-- The renderer when the method returns or the program is aborted. -/
def Completion.renderer {σ : Type} : Completion σ → Renderer σ
  | .returned _ r => r
  | .aborted _ r => r

/-- Whether the method returned. -/
def Completion.isReturned {σ : Type} : Completion σ → Bool
  | .returned _ _ => true
  | .aborted _ _ => false

/-- The method `Renderer::attachMeshes(meshes)`. -/
def attachMeshes {σ : Type} (S : AntialiasingStrategy σ) (r : Renderer σ)
    (meshes : List PathfinderPackedMeshes) : Completion σ :=
  match r.mAntialiasingStrategy with
  | none => .aborted [] r
  | some s =>
    let r := { r with mMeshes := meshes }
    let r := { r with mMeshBuffers := [] }
    let r := meshes.foldl
      (fun (r : Renderer σ) m =>
        { r with mMeshBuffers := r.mMeshBuffers ++ [PathfinderPackedMeshBuffers.ofMeshes m] })
      r
    let f : Frame σ := ⟨s, []⟩
    let f := f.issue S (.attachMeshes r.mMeshes r.mMeshBuffers)
    .returned f.calls { r with mAntialiasingStrategy := some f.strategy }

/-- The method `Renderer::setAntialiasingOptions(aaType, aaLevel, aaOptions)`. -/
def setAntialiasingOptions {σ : Type} (S : AntialiasingStrategy σ) (r : Renderer σ)
    (aaType : AntialiasingStrategyName) (aaLevel : Int) (aaOptions : AAOptions) :
    Completion σ :=
  let r := { r with mGammaCorrectionMode := aaOptions.gammaCorrection }
  let r := { r with
    mAntialiasingStrategy :=
      r.createAAStrategy aaType aaLevel aaOptions.subpixelAA aaOptions.stemDarkening }
  match r.mAntialiasingStrategy with
  | none => .aborted [] r
  | some s =>
    let f : Frame σ := ⟨s, []⟩
    let f := f.issue S .init
    let f :=
      if r.mMeshes.length ≠ 0 then f.issue S (.attachMeshes r.mMeshes r.mMeshBuffers)
      else f
    let f := f.issue S .setFramebufferSize
    .returned f.calls { r with mAntialiasingStrategy := some f.strategy }

/-- The state of the strategy object after a sequence of calls, from state `s`. -/
def AntialiasingStrategy.replay {σ : Type} (S : AntialiasingStrategy σ) (s : σ)
    (calls : List Call) : σ :=
  calls.foldl (fun s c => S.apply c s) s

/-- The calls of one object when no direct rendering takes place. -/
def objectCallSequence (objectIndex : Nat) : List Call :=
  [.antialiasObject objectIndex, .finishAntialiasingObject objectIndex,
    .resolveAAForObject objectIndex]

/-- The frame call sequence as the specification words it, for `passCount`
passes over `n` objects with no direct rendering: the destination is cleared,
the strategy prepares for rendering, then each pass runs every object in order
and ends with `resolve(pass)`. -/
def frameCallSequence (passCount n : Nat) : List Call :=
  [.clearDestFramebuffer, .prepareForRendering] ++
    (List.range passCount).flatMap (fun pass =>
      (List.range n).flatMap objectCallSequence ++ [.resolve pass])

/-- Whether a call is `resolve(pass)` for some pass. -/
def Call.isResolve : Call → Bool
  | .resolve _ => true
  | _ => false

/-- Whether a call is `antialiasObject(objectIndex)` for some object. -/
def Call.isAntialiasObject : Call → Bool
  | .antialiasObject _ => true
  | _ => false

/-- Whether a call is one of the GL draw calls of `directlyRenderObject`. -/
def Call.isDraw : Call → Bool
  | .glDrawElements => true
  | .glDrawElementsInstanced => true
  | .glDrawArrays => true
  | .glDrawArraysInstanced => true
  | _ => false

/-- Whether a call is a method of the strategy (and not a routine of the
renderer or a GL draw call). -/
def Call.isStrategyCall : Call → Bool
  | .clearDestFramebuffer => false
  | .clearForDirectRendering _ => false
  | .directlyRenderObject _ _ => false
  | .glDrawElements => false
  | .glDrawElementsInstanced => false
  | .glDrawArrays => false
  | .glDrawArraysInstanced => false
  | _ => true

/-- A frame in blocks. `Chained S B l s blocks` says that `blocks` holds one
block of calls for each element of `l`, in order, and that the block of an
element `x` satisfies `B x` in the state in which the strategy is when the
block begins: `s` for the first block, and for a later one the state to which
the calls of the blocks before it have led. -/
def Chained {σ α : Type} (S : AntialiasingStrategy σ) (B : α → σ → List Call → Prop) :
    List α → σ → List (List Call) → Prop
  | [], _, blocks => blocks = []
  | x :: l, s, blocks =>
    ∃ block rest, blocks = block :: rest ∧ B x s block ∧
      Chained S B l (S.replay s block) rest

/-- The calls of one pass, the strategy being in state `s` when the pass begins:
`prepareForDirectRendering` when the direct rendering mode read in `s` is not
`none`, then one block for each of the `n` objects in order, each satisfying
`B pass objectIndex` in the state in which it begins, then `resolve(pass)`. -/
def PassBlock {σ : Type} (S : AntialiasingStrategy σ)
    (B : Nat → Nat → σ → List Call → Prop) (n pass : Nat) (s : σ) (block : List Call) :
    Prop :=
  ∃ objects : List (List Call),
    block = (if S.getDirectRenderingMode s ≠ .drm_none then
        [Call.prepareForDirectRendering] else []) ++ objects.flatten ++ [.resolve pass] ∧
    Chained S (B pass) (List.range n)
      (S.replay s (if S.getDirectRenderingMode s ≠ .drm_none then
        [Call.prepareForDirectRendering] else [])) objects

/-- The calls of a frame of `passCount` passes over `n` objects, from a strategy
in state `s₀`: `clearDestFramebuffer`, `prepareForRendering`, then one block
for each pass in order, as `PassBlock` describes it. -/
def FrameBlocks {σ : Type} (S : AntialiasingStrategy σ)
    (B : Nat → Nat → σ → List Call → Prop) (passCount n : Nat) (s₀ : σ)
    (calls : List Call) : Prop :=
  ∃ passes : List (List Call),
    calls = [.clearDestFramebuffer, .prepareForRendering] ++ passes.flatten ∧
    Chained S (PassBlock S B n) (List.range passCount) (S.prepareForRendering s₀) passes

/-- The calls of one object in one pass as C10 words them, the strategy being in
state `s` when the iteration begins: a block `direct`, then `antialiasObject`,
`finishAntialiasingObject` and `resolveAAForObject` of the object.
`directlyRenderObject(pass, objectIndex)` is among the calls exactly when the
direct rendering mode read in `s` is not `none`: `direct` is then
`prepareToRenderObject`, `clearForDirectRendering`, `directlyRenderObject(pass,
objectIndex)` and after them draw calls and `finishDirectlyRenderingObject`
only, and it is empty otherwise. -/
def DirectRenderingGated {σ : Type} (S : AntialiasingStrategy σ) (pass objectIndex : Nat)
    (s : σ) (block : List Call) : Prop :=
  ∃ direct, block = direct ++ objectCallSequence objectIndex ∧
    (Call.directlyRenderObject pass objectIndex ∈ block ↔
      S.getDirectRenderingMode s ≠ .drm_none) ∧
    (S.getDirectRenderingMode s = .drm_none → direct = []) ∧
    (S.getDirectRenderingMode s ≠ .drm_none →
      ∃ rest, direct = [.prepareToRenderObject objectIndex,
          .clearForDirectRendering objectIndex,
          .directlyRenderObject pass objectIndex] ++ rest ∧
        ∀ c ∈ rest, c.isDraw = true ∨ c = .finishDirectlyRenderingObject objectIndex)

/-- The calls the strategy receives for one object in one pass as the amended
C11 words them, the strategy being in state `s` when the iteration begins:
`antialiasObject`, `finishAntialiasingObject` and `resolveAAForObject` of the
object, consecutively and in this order, at the end of the block; before them
`prepareToRenderObject(objectIndex)`, as the first call of the block, exactly
when the direct rendering mode read in `s` is not `none`; and between them no
call of the strategy other than `finishDirectlyRenderingObject(objectIndex)`. -/
def ObjectProtocol {σ : Type} (S : AntialiasingStrategy σ) (_pass objectIndex : Nat)
    (s : σ) (block : List Call) : Prop :=
  ∃ direct, block = direct ++ [.antialiasObject objectIndex,
      .finishAntialiasingObject objectIndex, .resolveAAForObject objectIndex] ∧
    (Call.prepareToRenderObject objectIndex ∈ block ↔
      S.getDirectRenderingMode s ≠ .drm_none) ∧
    (S.getDirectRenderingMode s = .drm_none → direct = []) ∧
    (S.getDirectRenderingMode s ≠ .drm_none →
      ∃ rest, direct = Call.prepareToRenderObject objectIndex :: rest ∧
        ∀ c ∈ rest, c.isStrategyCall = true →
          c = .finishDirectlyRenderingObject objectIndex)

/-! ### Transforms

`Matrix4` of the kraken-math library is taken as a parameter: a type `M` with
the matrix product and the identity matrix, in exact arithmetic (a monoid;
the product need not commute). `t *= m` is `t = t * m`. -/

/-- The method `Renderer::getModelviewTransform(pathIndex)`. -/
def getModelviewTransform {M : Type} [Monoid M] (_pathIndex : Int) : M := 1

/-- The method `Renderer::computeTransform(pass, objectIndex)`.
`getWorldTransformForPass` is the method of the strategy and `getWorldTransform`
the value of the pure virtual accessor of the renderer. -/
def computeTransform {σ M : Type} [Monoid M] (getWorldTransformForPass : σ → Int → M)
    (getWorldTransform : M) (r : Renderer σ) (pass objectIndex : Int) : M :=
  let transform : M :=
    match r.mAntialiasingStrategy with
    | some s => getWorldTransformForPass s pass
    | none => 1
  let transform := transform * getModelviewTransform objectIndex
  let transform := transform * getWorldTransform
  transform

/-! ### Sequences of calls on a renderer -/

/-- The constructor `Renderer::Renderer(renderContext)`: no strategy, no meshes,
empty caches, gamma correction `gcm_on`. The enumerator `gcm_on` (utils.h, not
among the sources) and the members the subclass provides are parameters. -/
def Renderer.new {σ : Type} (renderContext : RenderContext)
    (gcm_on : GammaCorrectionMode) (getObjectCount : Int)
    (createAAStrategy :
      AntialiasingStrategyName → Int → SubpixelAAType → StemDarkeningMode → Option σ)
    (getDirectInteriorProgramName : DirectRenderingMode → Int)
    (getDirectCurveProgramName : Int)
    (setHintsUniform : PathfinderShaderProgram → Option Unit) :
    Renderer σ where
  mRenderContext := renderContext
  mAntialiasingStrategy := none
  mPathColorsBufferTextures := []
  mPathTransformBufferTextures := []
  mMeshBuffers := []
  mMeshes := []
  mGammaCorrectionMode := gcm_on
  getObjectCount := getObjectCount
  createAAStrategy := createAAStrategy
  getDirectInteriorProgramName := getDirectInteriorProgramName
  getDirectCurveProgramName := getDirectCurveProgramName
  setHintsUniform := setHintsUniform

/-- The method `Renderer::init(aaType, aaLevel, aaOptions)`: it calls
`setAntialiasingOptions`, generates the two vertex arrays, which are no part of
this state, and returns true. -/
def Renderer.init {σ : Type} (S : AntialiasingStrategy σ) (r : Renderer σ)
    (aaType : AntialiasingStrategyName) (aaLevel : Int) (aaOptions : AAOptions) :
    Completion σ :=
  setAntialiasingOptions S r aaType aaLevel aaOptions

/-- A call of one of the four public methods of the renderer, with its
arguments. -/
inductive Operation where
  | init (aaType : AntialiasingStrategyName) (aaLevel : Int) (aaOptions : AAOptions)
  | setAntialiasingOptions (aaType : AntialiasingStrategyName) (aaLevel : Int)
      (aaOptions : AAOptions)
  | attachMeshes (meshes : List PathfinderPackedMeshes)
  | renderAtlas
  deriving DecidableEq, Repr

/-- The renderer after a method that returned; `none` when it was aborted. -/
def Completion.result {σ : Type} : Completion σ → Option (Renderer σ)
  | .returned _ r => some r
  | .aborted _ _ => none

/-- The renderer after one call, or `none` when the call fails at the assertion
on the strategy or at a null strategy pointer. A frame that is aborted during
direct rendering leaves the renderer it had reached: the sequences of calls
none of which fails are among those that are followed to their end here. -/
def Operation.run {σ : Type} (S : AntialiasingStrategy σ) (r : Renderer σ) :
    Operation → Option (Renderer σ)
  | .init aaType aaLevel aaOptions => (r.init S aaType aaLevel aaOptions).result
  | .setAntialiasingOptions aaType aaLevel aaOptions =>
    (pathfinder.setAntialiasingOptions S r aaType aaLevel aaOptions).result
  | .attachMeshes meshes => (pathfinder.attachMeshes S r meshes).result
  | .renderAtlas => (pathfinder.renderAtlas S r).renderer

/-- The renderer after a sequence of calls, or `none` when one of them fails. -/
def runOperations {σ : Type} (S : AntialiasingStrategy σ) (r : Renderer σ) :
    List Operation → Option (Renderer σ)
  | [] => some r
  | op :: ops => (op.run S r).bind fun r => runOperations S r ops

/-! ### Strategies and renderers used as concrete instances -/

/-- A shader environment with one vertex shader, one fragment shader and two
programs, in which the shaders compile and program `i` links when `links i`. -/
def sampleEnvironment (links : Nat → Bool) : ShaderEnvironment where
  vs_count := 1
  fs_count := 1
  program_count := 2
  programVertex := fun _ => 0
  programFragment := fun _ => 0
  compileVertexShader := fun _ => true
  compileFragmentShader := fun _ => true
  linkProgram := fun i _ _ => if links i then some ⟨[(i : Int)], []⟩ else none

/-- Caches used as a concrete instance: the colour cache holds texture 0 in slot
0 and nothing in slot 1, the transform cache holds the textures 1 and 2 in slot
0, and three textures were created. -/
def sampleBufferTextures : BufferTextures (List Nat) :=
  ⟨[some 0, none], [some ⟨1, 2⟩], 3, []⟩

/-- Uniform identifiers used as a concrete instance. -/
def sampleUniformIDs : UniformIDs := ⟨0, 1, 2, 3, 4, 5, 6, 7, 8⟩

/-- Attribute identifiers used as a concrete instance. -/
def sampleAttributeIDs : AttributeIDs := ⟨0, 1, 2⟩

/-- A strategy whose state is the list of the calls it has received. -/
def recordingStrategy (passCount : Int) (mode : DirectRenderingMode) :
    AntialiasingStrategy (List Call) where
  getPassCount := fun _ => passCount
  getDirectRenderingMode := fun _ => mode
  init := fun l => l ++ [.init]
  attachMeshes := fun meshes meshBuffers l => l ++ [.attachMeshes meshes meshBuffers]
  setFramebufferSize := fun l => l ++ [.setFramebufferSize]
  prepareForRendering := fun l => l ++ [.prepareForRendering]
  prepareForDirectRendering := fun l => l ++ [.prepareForDirectRendering]
  prepareToRenderObject := fun i l => l ++ [.prepareToRenderObject i]
  finishDirectlyRenderingObject := fun i l => l ++ [.finishDirectlyRenderingObject i]
  antialiasObject := fun i l => l ++ [.antialiasObject i]
  finishAntialiasingObject := fun i l => l ++ [.finishAntialiasingObject i]
  resolveAAForObject := fun i l => l ++ [.resolveAAForObject i]
  resolve := fun pass l => l ++ [.resolve pass]

/-- A transform used as a concrete instance: a 4 by 4 matrix of rationals. -/
def sampleTransform (k : ℚ) : Matrix (Fin 4) (Fin 4) ℚ :=
  Matrix.of fun i j => k + (i.val : ℚ) + 2 * (j.val : ℚ)

/-- A strategy that counts the calls it receives, with a fixed pass count and
a fixed direct rendering mode. -/
def countingStrategy (passCount : Int) (mode : DirectRenderingMode) :
    AntialiasingStrategy Nat where
  getPassCount := fun _ => passCount
  getDirectRenderingMode := fun _ => mode
  init := fun s => s + 1
  attachMeshes := fun _ _ s => s + 1
  setFramebufferSize := fun s => s + 1
  prepareForRendering := fun s => s + 1
  prepareForDirectRendering := fun s => s + 1
  prepareToRenderObject := fun _ s => s + 1
  finishDirectlyRenderingObject := fun _ s => s + 1
  antialiasObject := fun _ s => s + 1
  finishAntialiasingObject := fun _ s => s + 1
  resolveAAForObject := fun _ s => s + 1
  resolve := fun _ s => s + 1

/-- A mesh with one path. -/
def sampleMesh : PathfinderPackedMeshes := ⟨[⟨0, 4⟩], [⟨0, 6⟩], [⟨0, 1⟩]⟩

/-- The buffers of `sampleMesh`. -/
def sampleMeshBuffers : PathfinderPackedMeshBuffers := ⟨[⟨0, 4⟩], [⟨0, 6⟩]⟩

/-- A program that declares every uniform and every attribute, at the location
equal to the identifier. -/
def sampleProgram : PathfinderShaderProgram := ⟨[0, 1, 2, 3, 4, 5, 6, 7, 8], [0, 1, 2]⟩

/-- A render context with two loaded programs; program 1 is
`program_conservativeInterior`. -/
def sampleRenderContext : RenderContext where
  resources := sampleEnvironment fun _ => true
  shaderManager := ⟨[some sampleProgram, some sampleProgram]⟩
  uniforms := sampleUniformIDs
  attributes := sampleAttributeIDs
  program_conservativeInterior := 1

/-- A renderer with `n` objects, each with `sampleMesh` attached and with its
buffer textures in the two caches, the given strategy object and factory, and
the programs of `sampleRenderContext`. -/
def sampleRendererOf {σ : Type} (strategy : Option σ)
    (createAAStrategy :
      AntialiasingStrategyName → Int → SubpixelAAType → StemDarkeningMode → Option σ)
    (n : Nat) : Renderer σ where
  mRenderContext := sampleRenderContext
  mAntialiasingStrategy := strategy
  mPathColorsBufferTextures := (List.range n).map fun i => some (3 * i)
  mPathTransformBufferTextures :=
    (List.range n).map fun i => some ⟨3 * i + 1, 3 * i + 2⟩
  mMeshBuffers := List.replicate n sampleMeshBuffers
  mMeshes := List.replicate n sampleMesh
  mGammaCorrectionMode := 1
  getObjectCount := n
  createAAStrategy := createAAStrategy
  getDirectInteriorProgramName := fun renderingMode =>
    if renderingMode = .drm_conservative then 1 else 0
  getDirectCurveProgramName := 0
  setHintsUniform := fun _ => some ()

/-- A renderer with `n` objects, each with `sampleMesh` attached, and a strategy
object in state `0`. -/
def sampleRenderer (n : Nat) : Renderer Nat :=
  sampleRendererOf (some 0)
    (fun aaType aaLevel _ _ => some (100 * aaType.toNat + aaLevel.toNat)) n

/-! ## Lemmas on reads -/

theorem Access.value_bind {α β : Type} (x : Access α) (k : α → Access β) :
    (x >>= k).value = x.value.bind (fun a => (k a).value) := by
  show (Access.andThen x k).value = _
  unfold Access.andThen
  cases x.value <;> rfl

theorem Access.value_pure {α : Type} (a : α) : (pure a : Access α).value = some a := rfl

theorem Access.reads_pure {α : Type} (a : α) : (pure a : Access α).reads = [] := rfl

theorem readAt_value_of_lt (v : List Range) (i : Int) (h0 : 0 ≤ i)
    (h : i.toNat < v.length) : (readAt v i).value = some v[i.toNat] := by
  simp [readAt, h0, List.getElem?_eq_getElem h]

theorem readAt_zero_value (v : List Range) (hne : v ≠ []) :
    (readAt v 0).value = some (v.head hne) := by
  cases v with
  | nil => exact absurd rfl hne
  | cons a t => simp [readAt]

theorem readBack_value (v : List Range) (hne : v ≠ []) :
    (readBack v).value = some (v.getLast hne) := by
  have hpos : 0 < v.length := List.length_pos.mpr hne
  have h0 : (0 : Int) ≤ (v.length : Int) - 1 := by omega
  have ht : ((v.length : Int) - 1).toNat = v.length - 1 := by omega
  unfold readBack
  rw [readAt_value_of_lt v _ h0 (by omega)]
  simp [ht, List.getLast_eq_getElem]

theorem geSize_eq_false (v : List Range) (i : Int) (h0 : 0 ≤ i) (h : i < v.length) :
    geSize i v = false := by
  simp [geSize]; omega

theorem geSize_eq_true (v : List Range) (i : Int) (h : (v.length : Int) ≤ i) :
    geSize i v = true := by
  simp [geSize]; omega

theorem Access.inside_pure {α : Type} (n : Nat) (a : α) :
    (pure a : Access α).Inside n := by
  intro _ i hi
  simp [Access.reads_pure] at hi

theorem Access.inside_bind {α β : Type} (n : Nat) (x : Access α) (k : α → Access β)
    (hx : x.Inside n) (hk : ∀ a, (k a).Inside n) : (x >>= k).Inside n := by
  show (Access.andThen x k).Inside n
  unfold Access.andThen
  cases hv : x.value with
  | none => intro h; simp at h
  | some a =>
    intro h i hi
    simp only [List.mem_append] at hi
    rcases hi with hi | hi
    · exact hx (by simp [hv]) i hi
    · exact hk a h i hi

theorem readAt_inside (v : List Range) (i : Int) : (readAt v i).Inside v.length := by
  intro h j hj
  simp only [readAt, List.mem_singleton] at hj h
  subst hj
  by_cases h0 : 0 ≤ j
  · simp only [h0, if_true] at h
    have := List.getElem?_eq_some_iff.mp (Option.eq_some_of_isSome h)
    obtain ⟨hlt, -⟩ := this
    omega
  · simp [h0] at h

/-- Whenever the resolver returns a range, every read it made was inside the
table. -/
theorem getMeshIndexRange_inside (T : List Range) (R : Range) :
    (getMeshIndexRange T R).Inside T.length := by
  unfold getMeshIndexRange readBack
  split
  · exact Access.inside_pure _ _
  · refine Access.inside_bind _ _ _ (readAt_inside T _) (fun lastIndexRange => ?_)
    refine Access.inside_bind _ _ _ (readAt_inside T _) (fun first => ?_)
    dsimp only
    repeat' first
      | exact Access.inside_pure _ _
      | exact readAt_inside T _
      | refine Access.inside_bind _ _ _ ?_ (fun _ => ?_)
      | split

/-! ## Values of the resolver and of the strategy's index arithmetic -/

theorem getMeshIndexRange_value_asc (T : List Range) (R : Range) (hne : T ≠ [])
    (hasc : ¬ (T.head hne).start > (T.getLast hne).start)
    (h1 : 1 ≤ R.start) (h2 : R.start ≤ R.«end»)
    (h3 : R.start - 1 < (T.length : Int)) :
    (getMeshIndexRange T R).value =
      some ⟨T[(R.start - 1).toNat].start,
        if h : R.«end» - 1 < (T.length : Int) then T[(R.«end» - 1).toNat].start
        else (T.getLast hne).«end»⟩ := by
  have hlen : T.length ≠ 0 := fun h => hne (List.length_eq_zero.mp h)
  have hs0 : (0 : Int) ≤ R.start - 1 := by omega
  have hsl : (R.start - 1).toNat < T.length := by omega
  unfold getMeshIndexRange
  rw [if_neg hlen]
  simp only [Access.value_bind, readBack_value T hne, readAt_zero_value T hne,
    Option.some_bind, decide_eq_false hasc, geSize_eq_false T _ hs0 h3]
  by_cases he : R.«end» - 1 < (T.length : Int)
  · have he0 : (0 : Int) ≤ R.«end» - 1 := by omega
    have hel : (R.«end» - 1).toNat < T.length := by omega
    simp [Access.value_bind, Access.value_pure, readAt_value_of_lt T _ hs0 hsl,
      readAt_value_of_lt T _ he0 hel, geSize_eq_false T _ he0 he, he]
  · have hge : (T.length : Int) ≤ R.«end» - 1 := by omega
    simp [Access.value_bind, Access.value_pure, readAt_value_of_lt T _ hs0 hsl,
      geSize_eq_true T _ hge, he]

theorem getMeshIndexRange_value_desc (T : List Range) (R : Range) (hne : T ≠ [])
    (hdesc : (T.head hne).start > (T.getLast hne).start)
    (h1 : 1 ≤ R.start) (h2 : R.start < R.«end»)
    (h3 : R.«end» ≤ (T.length : Int) + 1) :
    (getMeshIndexRange T R).value =
      some ⟨T[(R.«end» - 2).toNat].start, T[(R.start - 1).toNat].«end»⟩ := by
  have hlen : T.length ≠ 0 := fun h => hne (List.length_eq_zero.mp h)
  have hs0 : (0 : Int) ≤ R.start - 1 := by omega
  have hs3 : R.start - 1 < (T.length : Int) := by omega
  have hsl : (R.start - 1).toNat < T.length := by omega
  have he0 : (0 : Int) ≤ R.«end» - 2 := by omega
  have hel : (R.«end» - 2).toNat < T.length := by omega
  have hee : R.«end» - 1 - 1 = R.«end» - 2 := by omega
  unfold getMeshIndexRange
  rw [if_neg hlen]
  simp only [Access.value_bind, readBack_value T hne, readAt_zero_value T hne,
    Option.some_bind, decide_eq_true hdesc, geSize_eq_false T _ hs0 hs3, hee]
  simp [Access.value_bind, Access.value_pure, readAt_value_of_lt T _ hs0 hsl,
    readAt_value_of_lt T _ he0 hel, hee]

theorem calculateStartFromIndexRanges_value (T : List Range) (R : Range)
    (hne : T ≠ []) (h1 : 1 ≤ R.start) (h3 : R.start - 1 < (T.length : Int)) :
    (calculateStartFromIndexRanges R T).value = some T[(R.start - 1).toNat].start := by
  have hlen : T.length ≠ 0 := fun h => hne (List.length_eq_zero.mp h)
  have hs0 : (0 : Int) ≤ R.start - 1 := by omega
  have hsl : (R.start - 1).toNat < T.length := by omega
  unfold calculateStartFromIndexRanges
  rw [if_neg hlen]
  simp [Access.value_bind, Access.value_pure, readAt_value_of_lt T _ hs0 hsl]

theorem calculateCountFromIndexRanges_value (T : List Range) (R : Range)
    (hne : T ≠ []) (h1 : 1 ≤ R.start) (h2 : R.start ≤ R.«end»)
    (h3 : R.start - 1 < (T.length : Int)) :
    (calculateCountFromIndexRanges R T).value =
      checkedInt ((if h : R.«end» - 1 < (T.length : Int) then T[(R.«end» - 1).toNat].start
        else (T.getLast hne).«end») - T[(R.start - 1).toNat].start) := by
  have hlen : T.length ≠ 0 := fun h => hne (List.length_eq_zero.mp h)
  have hs0 : (0 : Int) ≤ R.start - 1 := by omega
  have hsl : (R.start - 1).toNat < T.length := by omega
  unfold calculateCountFromIndexRanges
  rw [if_neg hlen]
  by_cases he : R.«end» - 1 < (T.length : Int)
  · have he0 : (0 : Int) ≤ R.«end» - 1 := by omega
    have hel : (R.«end» - 1).toNat < T.length := by omega
    simp [Access.value_bind, Access.value_pure, readAt_value_of_lt T _ hs0 hsl,
      readAt_value_of_lt T _ he0 hel, geSize_eq_false T _ he0 he, he, checkedSub]
  · have hge : (T.length : Int) ≤ R.«end» - 1 := by omega
    simp [Access.value_bind, Access.value_pure, readAt_value_of_lt T _ hs0 hsl,
      readBack_value T hne, geSize_eq_true T _ hge, he, checkedSub]

theorem checkedInt_of_bounds (x : Int) (h1 : INT_MIN ≤ x) (h2 : x ≤ INT_MAX) :
    checkedInt x = some x := by
  simp [checkedInt, h1, h2]

/-- On a table detected as ascending, the path range `(x, y)` with `1 ≤ x` and
`1 ≤ y` resolves to the pair of the bounds of `x` and of `y`. -/
theorem getMeshIndexRange_value_asc_bounds (T : List Range) (x y : Int) (hne : T ≠ [])
    (hasc : ¬ (T.head hne).start > (T.getLast hne).start)
    (hx : 1 ≤ x) (hy : 1 ≤ y) :
    (getMeshIndexRange T ⟨x, y⟩).value =
      some ⟨ascendingBound T x, ascendingBound T y⟩ := by
  have hlen : T.length ≠ 0 := fun h => hne (List.length_eq_zero.mp h)
  have hlast : T.getLast?.getD ⟨0, 0⟩ = T.getLast hne := by
    rw [List.getLast?_eq_getLast _ hne]
    rfl
  have hb : ∀ k : Int, 1 ≤ k → k - 1 < (T.length : Int) →
      (readAt T (k - 1)).value = some (T.getD (k - 1).toNat ⟨0, 0⟩) := by
    intro k hk hlt
    have h0 : (0 : Int) ≤ k - 1 := by omega
    have hl : (k - 1).toNat < T.length := by omega
    rw [readAt_value_of_lt T _ h0 hl, List.getD_eq_getElem T _ hl]
  unfold getMeshIndexRange
  rw [if_neg hlen]
  simp only [Access.value_bind, readBack_value T hne, readAt_zero_value T hne,
    Option.some_bind, decide_eq_false hasc]
  by_cases h1 : x - 1 < (T.length : Int) <;> by_cases h2 : y - 1 < (T.length : Int)
  · simp [Access.value_bind, Access.value_pure, hb x hx h1, hb y hy h2,
      geSize_eq_false T _ (by omega) h1, geSize_eq_false T _ (by omega) h2,
      ascendingBound, h1, h2]
  · simp [Access.value_bind, Access.value_pure, hb x hx h1,
      geSize_eq_false T _ (by omega) h1, geSize_eq_true T _ (by omega : (T.length : Int) ≤ y - 1),
      ascendingBound, h1, h2, hlast]
  · simp [Access.value_bind, Access.value_pure, hb y hy h2,
      geSize_eq_true T _ (by omega : (T.length : Int) ≤ x - 1), geSize_eq_false T _ (by omega) h2,
      ascendingBound, h1, h2, hlast]
  · simp [Access.value_bind, Access.value_pure,
      geSize_eq_true T _ (by omega : (T.length : Int) ≤ x - 1),
      geSize_eq_true T _ (by omega : (T.length : Int) ≤ y - 1),
      ascendingBound, h1, h2, hlast]

theorem head_start_le_getLast_start (T : List Range) (hne : T ≠ [])
    (hmono : T.Pairwise (fun a b => a.start ≤ b.start)) :
    (T.head hne).start ≤ (T.getLast hne).start := by
  have hpos : 0 < T.length := List.length_pos.mpr hne
  rw [List.head_eq_getElem, List.getLast_eq_getElem]
  by_cases h : T.length - 1 = 0
  · simp [h]
  · exact List.pairwise_iff_getElem.mp hmono 0 (T.length - 1) hpos (by omega) (by omega)

theorem getElem_start_le_getLast_start (T : List Range) (hne : T ≠ [])
    (hmono : T.Pairwise (fun a b => a.start ≤ b.start)) (i : Nat) (hi : i < T.length) :
    T[i].start ≤ (T.getLast hne).start := by
  rw [List.getLast_eq_getElem]
  by_cases h : i = T.length - 1
  · subst h
    exact le_refl _
  · exact List.pairwise_iff_getElem.mp hmono i (T.length - 1) hi (by omega) (by omega)

theorem getElem_start_mono (T : List Range)
    (hmono : T.Pairwise (fun a b => a.start ≤ b.start)) (i j : Nat) (hi : i < T.length)
    (hj : j < T.length) (hij : i ≤ j) : T[i].start ≤ T[j].start := by
  by_cases h : i = j
  · subst h
    exact le_refl _
  · exact List.pairwise_iff_getElem.mp hmono i j hi hj (by omega)

/-! ## Contiguous tables -/

theorem asc_chain_sum (L : List Range) (hne : L ≠ [])
    (hc : L.Chain' (fun a b => a.«end» = b.start)) :
    (L.map Range.length).sum = (L.getLast hne).«end» - (L.head hne).start := by
  induction L with
  | nil => exact absurd rfl hne
  | cons a t ih =>
    cases t with
    | nil => simp [Range.length]
    | cons b u =>
      have hcb := List.chain'_cons.mp hc
      have := ih (by simp) hcb.2
      simp only [List.map_cons, List.sum_cons, List.head_cons,
        List.getLast_cons (List.cons_ne_nil b u)] at this ⊢
      rw [this]
      simp only [Range.length]
      have := hcb.1
      omega

theorem desc_chain_sum (L : List Range) (hne : L ≠ [])
    (hc : L.Chain' (fun a b => a.start = b.«end»)) :
    (L.map Range.length).sum = (L.head hne).«end» - (L.getLast hne).start := by
  induction L with
  | nil => exact absurd rfl hne
  | cons a t ih =>
    cases t with
    | nil => simp [Range.length]
    | cons b u =>
      have hcb := List.chain'_cons.mp hc
      have := ih (by simp) hcb.2
      simp only [List.map_cons, List.sum_cons, List.head_cons,
        List.getLast_cons (List.cons_ne_nil b u)] at this ⊢
      rw [this]
      simp only [Range.length]
      have := hcb.1
      omega

theorem sum_length_nonneg (L : List Range) (hvalid : ∀ r ∈ L, r.start ≤ r.«end») :
    0 ≤ (L.map Range.length).sum := by
  induction L with
  | nil => simp
  | cons a t ih =>
    have ha := hvalid a (by simp)
    have := ih (fun r hr => hvalid r (by simp [hr]))
    simp only [List.map_cons, List.sum_cons, Range.length] at this ⊢
    omega

theorem asc_chain_head_le_last (L : List Range) (hne : L ≠ [])
    (hc : L.Chain' (fun a b => a.«end» = b.start))
    (hvalid : ∀ r ∈ L, r.start ≤ r.«end») :
    (L.head hne).start ≤ (L.getLast hne).start := by
  induction L with
  | nil => exact absurd rfl hne
  | cons a t ih =>
    cases t with
    | nil => simp
    | cons b u =>
      have hcb := List.chain'_cons.mp hc
      have := ih (by simp) hcb.2 (fun r hr => hvalid r (by simp [hr]))
      have ha := hvalid a (by simp)
      simp only [List.head_cons, List.getLast_cons (List.cons_ne_nil b u)] at this ⊢
      have := hcb.1
      omega

theorem asc_chain_union (L : List Range) (hne : L ≠ [])
    (hc : L.Chain' (fun a b => a.«end» = b.start))
    (hvalid : ∀ r ∈ L, r.start ≤ r.«end») (x : Int) :
    ((L.head hne).start ≤ x ∧ x < (L.getLast hne).«end») ↔ ∃ r ∈ L, r.contains x := by
  induction L with
  | nil => exact absurd rfl hne
  | cons a t ih =>
    cases t with
    | nil => simp [Range.contains]
    | cons b u =>
      have hcb := List.chain'_cons.mp hc
      have hv : ∀ r ∈ b :: u, r.start ≤ r.«end» := fun r hr => hvalid r (by simp [hr])
      have hi := ih (by simp) hcb.2 hv
      have ha := hvalid a (by simp)
      have hsum := asc_chain_sum (b :: u) (by simp) hcb.2
      have hnn := sum_length_nonneg (b :: u) hv
      have hab := hcb.1
      simp only [List.head_cons, List.getLast_cons (List.cons_ne_nil b u)] at hi hsum ⊢
      constructor
      · rintro ⟨h1, h2⟩
        by_cases hx : x < a.«end»
        · exact ⟨a, by simp, h1, hx⟩
        · obtain ⟨r, hr, hrx⟩ := hi.mp ⟨by omega, h2⟩
          exact ⟨r, List.mem_cons_of_mem a hr, hrx⟩
      · rintro ⟨r, hr, hrx⟩
        rcases List.mem_cons.mp hr with rfl | hr'
        · exact ⟨hrx.1, by have := hrx.2; omega⟩
        · have := hi.mpr ⟨r, hr', hrx⟩
          exact ⟨by omega, this.2⟩

theorem desc_chain_union (L : List Range) (hne : L ≠ [])
    (hc : L.Chain' (fun a b => a.start = b.«end»))
    (hvalid : ∀ r ∈ L, r.start ≤ r.«end») (x : Int) :
    ((L.getLast hne).start ≤ x ∧ x < (L.head hne).«end») ↔ ∃ r ∈ L, r.contains x := by
  induction L with
  | nil => exact absurd rfl hne
  | cons a t ih =>
    cases t with
    | nil => simp [Range.contains]
    | cons b u =>
      have hcb := List.chain'_cons.mp hc
      have hv : ∀ r ∈ b :: u, r.start ≤ r.«end» := fun r hr => hvalid r (by simp [hr])
      have hi := ih (by simp) hcb.2 hv
      have ha := hvalid a (by simp)
      have hsum := desc_chain_sum (b :: u) (by simp) hcb.2
      have hnn := sum_length_nonneg (b :: u) hv
      have hab := hcb.1
      simp only [List.head_cons, List.getLast_cons (List.cons_ne_nil b u)] at hi hsum ⊢
      constructor
      · rintro ⟨h1, h2⟩
        by_cases hx : a.start ≤ x
        · exact ⟨a, by simp, hx, h2⟩
        · obtain ⟨r, hr, hrx⟩ := hi.mp ⟨h1, by omega⟩
          exact ⟨r, List.mem_cons_of_mem a hr, hrx⟩
      · rintro ⟨r, hr, hrx⟩
        rcases List.mem_cons.mp hr with rfl | hr'
        · exact ⟨by have := hrx.1; omega, hrx.2⟩
        · have := hi.mpr ⟨r, hr', hrx⟩
          exact ⟨this.1, by omega⟩

theorem addressedEntries_length (T : List Range) (R : Range)
    (h1 : 1 ≤ R.start) (h2 : R.start < R.«end»)
    (h3 : R.«end» ≤ (T.length : Int) + 1) :
    (addressedEntries T R).length = (R.«end» - 1).toNat - (R.start - 1).toNat := by
  simp only [addressedEntries, List.length_take, List.length_drop]
  omega

theorem addressedEntries_head_getLast (T : List Range) (R : Range)
    (h1 : 1 ≤ R.start) (h2 : R.start < R.«end»)
    (h3 : R.«end» ≤ (T.length : Int) + 1) (hsub : addressedEntries T R ≠ []) :
    (addressedEntries T R).head hsub = T[(R.start - 1).toNat] ∧
    (addressedEntries T R).getLast hsub = T[(R.«end» - 2).toNat] := by
  have hlen := addressedEntries_length T R h1 h2 h3
  constructor
  · rw [List.head_eq_getElem]
    simp [addressedEntries, List.getElem_take, List.getElem_drop]
  · rw [List.getLast_eq_getElem]
    have hi : (R.start - 1).toNat + ((addressedEntries T R).length - 1) =
        (R.«end» - 2).toNat := by
      rw [hlen]
      omega
    simp only [addressedEntries, List.getElem_take, List.getElem_drop]
    simp only [addressedEntries] at hi
    simp only [hi]

theorem addressedEntries_ne_nil (T : List Range) (R : Range)
    (h1 : 1 ≤ R.start) (h2 : R.start < R.«end»)
    (h3 : R.«end» ≤ (T.length : Int) + 1) : addressedEntries T R ≠ [] := by
  intro h
  have := addressedEntries_length T R h1 h2 h3
  rw [h] at this
  simp at this
  omega

theorem mem_of_mem_addressedEntries (T : List Range) (R : Range) (r : Range)
    (h : r ∈ addressedEntries T R) : r ∈ T :=
  List.mem_of_mem_drop (List.mem_of_mem_take h)

theorem asc_chain_getElem (T : List Range)
    (hc : T.Chain' (fun a b => a.«end» = b.start)) (i : Nat) (hi : i + 1 < T.length) :
    T[i].«end» = T[i + 1].start := by
  have := List.chain'_iff_get.mp hc i (by omega)
  simpa using this

/-- On a contiguous ascending table of valid ranges, a non-empty path range
inside the table resolves to the range from the start of its first entry to the
end of its last entry. -/
theorem getMeshIndexRange_value_asc_contiguous (T : List Range) (R : Range) (hne : T ≠ [])
    (hvalid : ∀ r ∈ T, r.start ≤ r.«end»)
    (hc : T.Chain' (fun a b => a.«end» = b.start))
    (h1 : 1 ≤ R.start) (h2 : R.start < R.«end»)
    (h3 : R.«end» ≤ (T.length : Int) + 1) :
    (getMeshIndexRange T R).value =
      some ⟨T[(R.start - 1).toNat].start, T[(R.«end» - 2).toNat].«end»⟩ := by
  have hasc : ¬ (T.head hne).start > (T.getLast hne).start :=
    not_lt.mpr (asc_chain_head_le_last T hne hc hvalid)
  rw [getMeshIndexRange_value_asc T R hne hasc h1 (by omega) (by omega)]
  by_cases he : R.«end» - 1 < (T.length : Int)
  · have hi : (R.«end» - 1).toNat = (R.«end» - 2).toNat + 1 := by omega
    have := asc_chain_getElem T hc (R.«end» - 2).toNat (by omega)
    simp only [he, dite_true, hi]
    rw [this]
  · have hi : T.length - 1 = (R.«end» - 2).toNat := by omega
    simp only [he, dite_false, List.getLast_eq_getElem, hi]

/-! ## The mesh index resolver: claims -/

/-- C1. Ascending law: on a non-empty table whose first start is not greater
than its last start, a path range with `1 ≤ start ≤ end` and `start - 1 < |T|`
resolves to `(T[start-1].start, T[end-1].start)` when `end - 1 < |T|` and to
`(T[start-1].start, T.last.end)` otherwise, and every read is inside the
table. -/
theorem getMeshIndexRange_ascending (T : List Range) (R : Range) (hne : T ≠ [])
    (hasc : ¬ (T.head hne).start > (T.getLast hne).start)
    (h1 : 1 ≤ R.start) (h2 : R.start ≤ R.«end»)
    (h3 : R.start - 1 < (T.length : Int)) :
    (getMeshIndexRange T R).value =
      some ⟨T[(R.start - 1).toNat].start,
        if h : R.«end» - 1 < (T.length : Int) then T[(R.«end» - 1).toNat].start
        else (T.getLast hne).«end»⟩ ∧
    ∀ i ∈ (getMeshIndexRange T R).reads, 0 ≤ i ∧ i < (T.length : Int) :=
  have hv := getMeshIndexRange_value_asc T R hne hasc h1 h2 h3
  ⟨hv, getMeshIndexRange_inside T R (by rw [hv]; rfl)⟩

/-- C1, at the table `[(0,2),(2,5),(5,9)]` and the path range `(1,3)`: the
resolver returns `(0,5)`. -/
theorem getMeshIndexRange_ascending_witness :
    (getMeshIndexRange [⟨0, 2⟩, ⟨2, 5⟩, ⟨5, 9⟩] ⟨1, 3⟩).value = some ⟨0, 5⟩ :=
  (getMeshIndexRange_ascending [⟨0, 2⟩, ⟨2, 5⟩, ⟨5, 9⟩] ⟨1, 3⟩ (by decide) (by decide)
    (by decide) (by decide) (by decide)).1

/-- C2. On an empty table the resolver returns `(0,0)` for every path range and
reads no table entry. -/
theorem getMeshIndexRange_empty (R : Range) :
    getMeshIndexRange [] R = ⟨[], some ⟨0, 0⟩⟩ := rfl

/-- C3, at the descending table `[(5,9),(0,5)]` and the path range `(1,4)`,
whose end exceeds the table size: the resolver reads the entries 1, 0, 0 and
then the entry 2, which is outside the table of two entries, and returns no
range. -/
theorem getMeshIndexRange_descending_reads_outside :
    getMeshIndexRange [⟨5, 9⟩, ⟨0, 5⟩] ⟨1, 4⟩ = ⟨[1, 0, 0, 2], none⟩ := by
  decide

/-- C4, at the descending table `[(10,12),(0,5)]` of valid, non-overlapping
ranges and the empty path range `(2,2)`: the resolver returns `(10,5)`, whose
start is greater than its end. -/
theorem getMeshIndexRange_descending_empty_inverted :
    (getMeshIndexRange [⟨10, 12⟩, ⟨0, 5⟩] ⟨2, 2⟩).value = some ⟨10, 5⟩ ∧
      ¬ ((10 : Int) ≤ 5) := by
  decide

/-- C5. Descending law: on a table whose first start is greater than its last
start, a path range with `1 ≤ start < end ≤ |T| + 1` resolves to
`(T[end-2].start, T[start-1].end)`, and every read is inside the table. -/
theorem getMeshIndexRange_descending (T : List Range) (R : Range) (hne : T ≠ [])
    (hdesc : (T.head hne).start > (T.getLast hne).start)
    (h1 : 1 ≤ R.start) (h2 : R.start < R.«end»)
    (h3 : R.«end» ≤ (T.length : Int) + 1) :
    (getMeshIndexRange T R).value =
      some ⟨T[(R.«end» - 2).toNat].start, T[(R.start - 1).toNat].«end»⟩ ∧
    ∀ i ∈ (getMeshIndexRange T R).reads, 0 ≤ i ∧ i < (T.length : Int) :=
  have hv := getMeshIndexRange_value_desc T R hne hdesc h1 h2 h3
  ⟨hv, getMeshIndexRange_inside T R (by rw [hv]; rfl)⟩

/-- C5, at the table `[(5,9),(2,5),(0,2)]` and the path range `(1,3)`: the
resolver returns `(2,9)`. -/
theorem getMeshIndexRange_descending_witness :
    (getMeshIndexRange [⟨5, 9⟩, ⟨2, 5⟩, ⟨0, 2⟩] ⟨1, 3⟩).value = some ⟨2, 9⟩ :=
  (getMeshIndexRange_descending [⟨5, 9⟩, ⟨2, 5⟩, ⟨0, 2⟩] ⟨1, 3⟩ (by decide) (by decide)
    (by decide) (by decide) (by decide)).1

/-- C6 fails at the descending table `[(5,9),(0,5)]` and the path range
`(1,3)`: the strategy computes the start 5 and the count 0, the resolver
returns `(0,9)`, of start 0 and length 9. -/
theorem calculateFromIndexRanges_descending_disagree :
    (([⟨5, 9⟩, ⟨0, 5⟩] : List Range).head (by decide)).start >
      (([⟨5, 9⟩, ⟨0, 5⟩] : List Range).getLast (by decide)).start ∧
    (calculateStartFromIndexRanges ⟨1, 3⟩ [⟨5, 9⟩, ⟨0, 5⟩]).value = some 5 ∧
    (calculateCountFromIndexRanges ⟨1, 3⟩ [⟨5, 9⟩, ⟨0, 5⟩]).value = some 0 ∧
    (getMeshIndexRange [⟨5, 9⟩, ⟨0, 5⟩] ⟨1, 3⟩).value = some ⟨0, 9⟩ ∧
    ¬ ((calculateCountFromIndexRanges ⟨1, 3⟩ [⟨5, 9⟩, ⟨0, 5⟩]).value =
          (getMeshIndexRange [⟨5, 9⟩, ⟨0, 5⟩] ⟨1, 3⟩).value.map Range.length ∧
        (calculateStartFromIndexRanges ⟨1, 3⟩ [⟨5, 9⟩, ⟨0, 5⟩]).value =
          (getMeshIndexRange [⟨5, 9⟩, ⟨0, 5⟩] ⟨1, 3⟩).value.map Range.start) := by
  decide

/-- C6, amended. The bounding-box queries do not detect the direction of the
table: on every non-empty table and every path range with
`1 ≤ start < end ≤ |T| + 1`, `calculateStartFromIndexRanges` returns
`T[start-1].start` and `calculateCountFromIndexRanges` returns the `int`
difference `E - T[start-1].start` (no value when it overflows), where `E` is
`T[end-1].start` when `end - 1 < |T|` and `T.last.end` otherwise; when the table
is not descending these are the start of the range the resolver returns and its
length, computed in `int`. -/
theorem calculateFromIndexRanges_ascending_formula (T : List Range) (R : Range)
    (hne : T ≠ []) (h1 : 1 ≤ R.start) (h2 : R.start < R.«end»)
    (h3 : R.«end» ≤ (T.length : Int) + 1) :
    (calculateStartFromIndexRanges R T).value = some T[(R.start - 1).toNat].start ∧
    (calculateCountFromIndexRanges R T).value =
      checkedInt ((if h : R.«end» - 1 < (T.length : Int) then T[(R.«end» - 1).toNat].start
        else (T.getLast hne).«end») - T[(R.start - 1).toNat].start) ∧
    (¬ (T.head hne).start > (T.getLast hne).start →
      (calculateStartFromIndexRanges R T).value =
        (getMeshIndexRange T R).value.map Range.start ∧
      (calculateCountFromIndexRanges R T).value =
        ((getMeshIndexRange T R).value.map Range.length).bind checkedInt) := by
  have hs3 : R.start - 1 < (T.length : Int) := by omega
  have hle : R.start ≤ R.«end» := by omega
  refine ⟨calculateStartFromIndexRanges_value T R hne h1 hs3,
    calculateCountFromIndexRanges_value T R hne h1 hle hs3, fun hasc => ?_⟩
  rw [getMeshIndexRange_value_asc T R hne hasc h1 hle hs3,
    calculateStartFromIndexRanges_value T R hne h1 hs3,
    calculateCountFromIndexRanges_value T R hne h1 hle hs3]
  exact ⟨rfl, rfl⟩

/-- C6, amended, at the descending table `[(5,9),(2,5),(0,2)]` and the path
range `(1,3)`: the start is 5 and the count is `0 - 5`. -/
theorem calculateFromIndexRanges_ascending_formula_witness :
    (calculateStartFromIndexRanges ⟨1, 3⟩ [⟨5, 9⟩, ⟨2, 5⟩, ⟨0, 2⟩]).value = some 5 ∧
    (calculateCountFromIndexRanges ⟨1, 3⟩ [⟨5, 9⟩, ⟨2, 5⟩, ⟨0, 2⟩]).value = some (-5) :=
  have h := calculateFromIndexRanges_ascending_formula [⟨5, 9⟩, ⟨2, 5⟩, ⟨0, 2⟩] ⟨1, 3⟩
    (by decide) (by decide) (by decide) (by decide)
  ⟨h.1, h.2.1⟩

/-! ## Lemmas on frames -/

@[simp] theorem Frame.issue_calls {σ : Type} (S : AntialiasingStrategy σ) (c : Call)
    (f : Frame σ) : (f.issue S c).calls = f.calls ++ [c] := rfl

@[simp] theorem Frame.issue_strategy {σ : Type} (S : AntialiasingStrategy σ) (c : Call)
    (f : Frame σ) : (f.issue S c).strategy = S.apply c f.strategy := rfl

/-- A loop whose body appends `g x` to the calls appends the `g x` in order. -/
theorem foldl_calls {σ α : Type} (step : Frame σ → α → Frame σ) (g : α → List Call)
    (h : ∀ f x, (step f x).calls = f.calls ++ g x) (l : List α) (f : Frame σ) :
    (l.foldl step f).calls = f.calls ++ l.flatMap g := by
  induction l generalizing f with
  | nil => simp
  | cons x t ih => simp [List.foldl_cons, ih, h, List.flatMap_cons, List.append_assoc]

theorem countP_flatMap_const {α β : Type} (p : β → Bool) (g : α → List β) (c : Nat)
    (l : List α) (h : ∀ x, List.countP p (g x) = c) :
    List.countP p (l.flatMap g) = l.length * c := by
  induction l with
  | nil => simp
  | cons x t ih =>
    simp [List.flatMap_cons, List.countP_append, ih, h, Nat.succ_mul, Nat.add_comm]

theorem AntialiasingStrategy.replay_append {σ : Type} (S : AntialiasingStrategy σ)
    (s : σ) (a b : List Call) : S.replay s (a ++ b) = S.replay (S.replay s a) b := by
  simp [AntialiasingStrategy.replay, List.foldl_append]

theorem AntialiasingStrategy.replay_nil {σ : Type} (S : AntialiasingStrategy σ) (s : σ) :
    S.replay s [] = s := rfl

theorem AntialiasingStrategy.replay_cons {σ : Type} (S : AntialiasingStrategy σ) (s : σ)
    (c : Call) (l : List Call) : S.replay s (c :: l) = S.replay (S.apply c s) l := rfl

/-- A loop all of whose iterations return is the loop of their results. -/
theorem foldlM_ok {σ α : Type} (t : Frame σ → α → Except (Frame σ) (Frame σ))
    (g : Frame σ → α → Frame σ) (h : ∀ f x, t f x = .ok (g f x)) (l : List α)
    (f : Frame σ) : l.foldlM t f = .ok (l.foldl g f) := by
  induction l generalizing f with
  | nil => rfl
  | cons x l ih =>
    rw [List.foldlM_cons, h f x, List.foldl_cons]
    exact ih (g f x)

/-! ## The frame without direct rendering -/

theorem renderObject_of_none {σ : Type} (S : AntialiasingStrategy σ)
    (r : Renderer σ) (hmode : ∀ s, S.getDirectRenderingMode s = .drm_none)
    (pass : Int) (f : Frame σ) (objectIndex : Int) :
    renderObject S r pass f objectIndex =
      .ok (((f.issue S (.antialiasObject objectIndex)).issue S
        (.finishAntialiasingObject objectIndex)).issue S
          (.resolveAAForObject objectIndex)) := by
  simp only [renderObject, hmode, ne_eq, not_true_eq_false, if_false]
  rfl

theorem renderObject_calls_of_none {σ : Type} (S : AntialiasingStrategy σ)
    (f : Frame σ) (objectIndex : Nat) :
    (((f.issue S (.antialiasObject (objectIndex : Int))).issue S
        (.finishAntialiasingObject (objectIndex : Int))).issue S
          (.resolveAAForObject (objectIndex : Int))).calls =
      f.calls ++ objectCallSequence objectIndex := by
  simp [objectCallSequence]

theorem renderPass_of_none {σ : Type} (S : AntialiasingStrategy σ)
    (r : Renderer σ) (hmode : ∀ s, S.getDirectRenderingMode s = .drm_none)
    (f : Frame σ) (pass : Nat) :
    ∃ f', renderPass S r f (pass : Int) = .ok f' ∧
      f'.calls = f.calls ++ ((List.range r.getObjectCount.toNat).flatMap
        objectCallSequence ++ [.resolve pass]) := by
  have hfold := foldlM_ok
    (fun (f : Frame σ) (objectIndex : Nat) =>
      renderObject S r (pass : Int) f (objectIndex : Int))
    (fun (f : Frame σ) (objectIndex : Nat) =>
      ((f.issue S (.antialiasObject (objectIndex : Int))).issue S
        (.finishAntialiasingObject (objectIndex : Int))).issue S
          (.resolveAAForObject (objectIndex : Int)))
    (fun f x => renderObject_of_none S r hmode (pass : Int) f (x : Int))
    (List.range r.getObjectCount.toNat) f
  refine ⟨((List.range r.getObjectCount.toNat).foldl
    (fun (f : Frame σ) (objectIndex : Nat) =>
      ((f.issue S (.antialiasObject (objectIndex : Int))).issue S
        (.finishAntialiasingObject (objectIndex : Int))).issue S
          (.resolveAAForObject (objectIndex : Int))) f).issue S (.resolve pass), ?_, ?_⟩
  · simp only [renderPass, hmode, ne_eq, not_true_eq_false, if_false]
    rw [hfold]
    rfl
  · rw [Frame.issue_calls, foldl_calls _ objectCallSequence
      (fun f x => renderObject_calls_of_none S f x)]
    simp [List.append_assoc]

/-- A loop of passes each of which returns and appends `g pass` returns, and
appends the `g pass` in order. -/
theorem foldlM_calls {σ α : Type} (t : Frame σ → α → Except (Frame σ) (Frame σ))
    (g : α → List Call)
    (h : ∀ f x, ∃ f', t f x = .ok f' ∧ f'.calls = f.calls ++ g x) (l : List α)
    (f : Frame σ) : ∃ f', l.foldlM t f = .ok f' ∧ f'.calls = f.calls ++ l.flatMap g := by
  induction l generalizing f with
  | nil => exact ⟨f, rfl, by simp⟩
  | cons x l ih =>
    obtain ⟨f₁, h₁, hc₁⟩ := h f x
    obtain ⟨f₂, h₂, hc₂⟩ := ih f₁
    refine ⟨f₂, ?_, ?_⟩
    · rw [List.foldlM_cons, h₁]
      exact h₂
    · rw [hc₂, hc₁, List.flatMap_cons, List.append_assoc]

/-- Without direct rendering `renderAtlas` returns, and its calls are the frame
call sequence. -/
theorem renderAtlas_of_none {σ : Type} (S : AntialiasingStrategy σ)
    (r : Renderer σ) (s : σ) (hmesh : r.mMeshBuffers ≠ [])
    (hs : r.mAntialiasingStrategy = some s)
    (hmode : ∀ s, S.getDirectRenderingMode s = .drm_none) :
    (renderAtlas S r).calls =
      frameCallSequence (S.getPassCount (S.prepareForRendering s)).toNat
        r.getObjectCount.toNat ∧
    (renderAtlas S r).returned = true ∧
    (renderAtlas S r).renderer.isSome = true := by
  have hlen : r.mMeshBuffers.length ≠ 0 := fun h => hmesh (List.length_eq_zero.mp h)
  obtain ⟨f', hf', hc'⟩ := foldlM_calls
    (fun (f : Frame σ) (pass : Nat) => renderPass S r f (pass : Int))
    (fun pass : Nat =>
      (List.range r.getObjectCount.toNat).flatMap objectCallSequence ++ [.resolve pass])
    (fun f x => renderPass_of_none S r hmode f x)
    (List.range (S.getPassCount (S.prepareForRendering s)).toNat)
    ((⟨s, [.clearDestFramebuffer]⟩ : Frame σ).issue S .prepareForRendering)
  have hT : renderAtlas S r =
      ⟨f'.calls, some { r with mAntialiasingStrategy := some f'.strategy }, true⟩ := by
    unfold renderAtlas
    rw [if_neg hlen, hs]
    show (match (List.range (S.getPassCount (S.prepareForRendering s)).toNat).foldlM
        (fun (f : Frame σ) (pass : Nat) => renderPass S r f (pass : Int))
        ((⟨s, [.clearDestFramebuffer]⟩ : Frame σ).issue S .prepareForRendering) with
      | .ok f => (⟨f.calls, some { r with mAntialiasingStrategy := some f.strategy }, true⟩ :
          Outcome σ)
      | .error f => ⟨f.calls, some { r with mAntialiasingStrategy := some f.strategy },
          false⟩) = _
    rw [hf']
  rw [hT]
  refine ⟨?_, rfl, rfl⟩
  show f'.calls = _
  rw [hc']
  simp [frameCallSequence]

theorem renderAtlas_calls_of_none {σ : Type} (S : AntialiasingStrategy σ)
    (r : Renderer σ) (s : σ) (hmesh : r.mMeshBuffers ≠ [])
    (hs : r.mAntialiasingStrategy = some s)
    (hmode : ∀ s, S.getDirectRenderingMode s = .drm_none) :
    (renderAtlas S r).calls =
      frameCallSequence (S.getPassCount (S.prepareForRendering s)).toNat
        r.getObjectCount.toNat :=
  (renderAtlas_of_none S r s hmesh hs hmode).1

theorem frameCallSequence_counts (passCount n : Nat) :
    (frameCallSequence passCount n).count .clearDestFramebuffer = 1 ∧
    (frameCallSequence passCount n).countP Call.isResolve = passCount ∧
    (frameCallSequence passCount n).countP Call.isAntialiasObject = passCount * n := by
  have hobj : ∀ p : Call → Bool, ∀ c : Nat,
      (∀ i, List.countP p (objectCallSequence i) = c) →
      List.countP p ((List.range n).flatMap objectCallSequence) = n * c := by
    intro p c h
    simpa using countP_flatMap_const p objectCallSequence c (List.range n) h
  have h1 : ∀ pass : Nat, List.countP (fun c => c == Call.clearDestFramebuffer)
      ((List.range n).flatMap objectCallSequence ++ [Call.resolve pass]) = 0 := by
    intro pass
    rw [List.countP_append, hobj _ 0 (fun i => by simp [objectCallSequence, List.countP_cons])]
    simp [List.countP_cons]
  have h2 : ∀ pass : Nat, List.countP Call.isResolve
      ((List.range n).flatMap objectCallSequence ++ [Call.resolve pass]) = 1 := by
    intro pass
    rw [List.countP_append, hobj _ 0 (fun i => by
      simp [objectCallSequence, List.countP_cons, Call.isResolve])]
    simp [List.countP_cons, Call.isResolve]
  have h3 : ∀ pass : Nat, List.countP Call.isAntialiasObject
      ((List.range n).flatMap objectCallSequence ++ [Call.resolve pass]) = n := by
    intro pass
    rw [List.countP_append, hobj _ 1 (fun i => by
      simp [objectCallSequence, List.countP_cons, Call.isAntialiasObject])]
    simp [List.countP_cons, Call.isAntialiasObject]
  refine ⟨?_, ?_, ?_⟩
  · unfold frameCallSequence List.count
    rw [List.countP_append, countP_flatMap_const _ _ 0 _ h1]
    simp [List.countP_cons]
  · unfold frameCallSequence
    rw [List.countP_append, countP_flatMap_const _ _ 1 _ h2]
    simp [List.countP_cons, Call.isResolve]
  · unfold frameCallSequence
    rw [List.countP_append, countP_flatMap_const _ _ n _ h3]
    simp [List.countP_cons, Call.isAntialiasObject]

/-! ## Direct rendering of one object -/

/-- The instance range of an object is never empty, so that the test
`instanceRange.isEmpty()` of `directlyRenderObject` never succeeds. -/
theorem instanceRangeForObject_not_empty (objectIndex : Int) :
    (instanceRangeForObject objectIndex).isEmpty = false := by
  simp [instanceRangeForObject, Range.isEmpty]

/-- When `directlyRenderObject` returns, it has issued
`directlyRenderObject(pass, objectIndex)` and after it draw calls and
`finishDirectlyRenderingObject` only, and the strategy is in the state to which
these calls lead. -/
theorem directlyRenderObject_ok {σ : Type} (S : AntialiasingStrategy σ)
    (r : Renderer σ) (pass objectIndex : Int) (f f' : Frame σ)
    (h : directlyRenderObject S r pass objectIndex f = .ok f') :
    ∃ rest, f' = ⟨S.replay f.strategy (Call.directlyRenderObject pass objectIndex :: rest),
        f.calls ++ Call.directlyRenderObject pass objectIndex :: rest⟩ ∧
      ∀ c ∈ rest, c.isDraw = true ∨ c = .finishDirectlyRenderingObject objectIndex := by
  unfold directlyRenderObject at h
  simp only [getPathIDsAreInstanced] at h
  split at h
  · cases h
    exact ⟨[], rfl, by simp⟩
  · split at h
    · cases h
      exact ⟨[], rfl, by simp⟩
    · split at h
      · cases h
      · split at h
        · split at h
          · cases h
          · cases h
            exact ⟨[.glDrawElements, .glDrawArrays,
              .finishDirectlyRenderingObject objectIndex],
              by simp [Frame.issue, AntialiasingStrategy.replay],
              by simp [Call.isDraw]⟩
        · cases h
          exact ⟨[.glDrawElements, .finishDirectlyRenderingObject objectIndex],
            by simp [Frame.issue, AntialiasingStrategy.replay],
            by simp [Call.isDraw]⟩

/-- When the body of the object loop returns, it has issued a block of calls as
`DirectRenderingGated` describes it, and the strategy is in the state to which
the block leads. -/
theorem renderObject_ok {σ : Type} (S : AntialiasingStrategy σ)
    (r : Renderer σ) (pass objectIndex : Nat) (f f' : Frame σ)
    (h : renderObject S r (pass : Int) f (objectIndex : Int) = .ok f') :
    ∃ block, DirectRenderingGated S pass objectIndex f.strategy block ∧
      f' = ⟨S.replay f.strategy block, f.calls ++ block⟩ := by
  by_cases hm : S.getDirectRenderingMode f.strategy = .drm_none
  · rw [show renderObject S r (pass : Int) f (objectIndex : Int) =
        .ok (((f.issue S (.antialiasObject objectIndex)).issue S
          (.finishAntialiasingObject objectIndex)).issue S
            (.resolveAAForObject objectIndex)) by
      simp only [renderObject, hm, ne_eq, not_true_eq_false, if_false]
      rfl] at h
    cases h
    refine ⟨objectCallSequence objectIndex, ⟨[], rfl, ?_, fun _ => rfl,
      fun h => absurd hm h⟩, ?_⟩
    · simp [hm, objectCallSequence]
    · simp [Frame.issue, AntialiasingStrategy.replay, objectCallSequence]
  · cases hd : directlyRenderObject S r (pass : Int) (objectIndex : Int)
        ((f.issue S (.prepareToRenderObject objectIndex)).issue S
          (.clearForDirectRendering objectIndex)) with
    | error e =>
      have : renderObject S r (pass : Int) f (objectIndex : Int) = .error e := by
        simp only [renderObject, hm, ne_eq, not_false_eq_true, if_true, hd]
        rfl
      rw [this] at h
      cases h
    | ok f₁ =>
      have hr : renderObject S r (pass : Int) f (objectIndex : Int) =
          .ok (((f₁.issue S (.antialiasObject objectIndex)).issue S
            (.finishAntialiasingObject objectIndex)).issue S
              (.resolveAAForObject objectIndex)) := by
        simp only [renderObject, hm, ne_eq, not_false_eq_true, if_true, hd]
        rfl
      rw [hr] at h
      cases h
      obtain ⟨rest, hf₁, hrest⟩ := directlyRenderObject_ok S r _ _ _ _ hd
      subst hf₁
      refine ⟨[.prepareToRenderObject objectIndex, .clearForDirectRendering objectIndex,
          .directlyRenderObject pass objectIndex] ++ rest ++ objectCallSequence objectIndex,
        ⟨[.prepareToRenderObject objectIndex, .clearForDirectRendering objectIndex,
          .directlyRenderObject pass objectIndex] ++ rest, rfl, ?_, fun h => absurd h hm,
          fun _ => ⟨rest, rfl, hrest⟩⟩, ?_⟩
      · simp [hm]
      · simp [Frame.issue, AntialiasingStrategy.replay, objectCallSequence,
          List.foldl_append]

/-! ## Frames in blocks -/

theorem chained_mono {σ α : Type} (S : AntialiasingStrategy σ)
    {B B' : α → σ → List Call → Prop} (hB : ∀ x s block, B x s block → B' x s block)
    (l : List α) (s : σ) (blocks : List (List Call)) (h : Chained S B l s blocks) :
    Chained S B' l s blocks := by
  induction l generalizing s blocks with
  | nil => exact h
  | cons x l ih =>
    obtain ⟨block, rest, h1, h2, h3⟩ := h
    exact ⟨block, rest, h1, hB x s block h2, ih _ _ h3⟩

theorem passBlock_mono {σ : Type} (S : AntialiasingStrategy σ)
    {B B' : Nat → Nat → σ → List Call → Prop}
    (hB : ∀ pass i s block, B pass i s block → B' pass i s block)
    (n pass : Nat) (s : σ) (block : List Call) (h : PassBlock S B n pass s block) :
    PassBlock S B' n pass s block := by
  obtain ⟨objects, h1, h2⟩ := h
  exact ⟨objects, h1, chained_mono S (hB pass) _ _ _ h2⟩

theorem frameBlocks_mono {σ : Type} (S : AntialiasingStrategy σ)
    {B B' : Nat → Nat → σ → List Call → Prop}
    (hB : ∀ pass i s block, B pass i s block → B' pass i s block)
    (passCount n : Nat) (s₀ : σ) (calls : List Call)
    (h : FrameBlocks S B passCount n s₀ calls) : FrameBlocks S B' passCount n s₀ calls := by
  obtain ⟨passes, h1, h2⟩ := h
  exact ⟨passes, h1, chained_mono S (passBlock_mono S hB n) _ _ _ h2⟩

/-- A loop that returns, each iteration of which issues a block satisfying `B`,
has issued one block for each iteration, chained from the state in which the
loop began. -/
theorem foldlM_chained {σ α : Type} (S : AntialiasingStrategy σ)
    (t : Frame σ → α → Except (Frame σ) (Frame σ)) (B : α → σ → List Call → Prop)
    (ht : ∀ f x f', t f x = .ok f' →
      ∃ block, B x f.strategy block ∧ f' = ⟨S.replay f.strategy block, f.calls ++ block⟩)
    (l : List α) (f f' : Frame σ) (h : l.foldlM t f = .ok f') :
    ∃ blocks, Chained S B l f.strategy blocks ∧
      f' = ⟨S.replay f.strategy blocks.flatten, f.calls ++ blocks.flatten⟩ := by
  induction l generalizing f with
  | nil =>
    cases h
    exact ⟨[], rfl, by simp [AntialiasingStrategy.replay]⟩
  | cons x l ih =>
    rw [List.foldlM_cons] at h
    cases hx : t f x with
    | error e =>
      rw [hx] at h
      cases h
    | ok f₁ =>
      rw [hx] at h
      obtain ⟨block, hB, hf₁⟩ := ht f x f₁ hx
      obtain ⟨blocks, hchain, hf'⟩ := ih f₁ h
      subst hf₁
      refine ⟨block :: blocks, ⟨block, blocks, rfl, hB, hchain⟩, ?_⟩
      rw [hf']
      simp [S.replay_append, List.append_assoc]

/-- When the body of the pass loop returns, it has issued the calls of a pass. -/
theorem renderPass_ok {σ : Type} (S : AntialiasingStrategy σ)
    (r : Renderer σ) (pass : Nat) (f f' : Frame σ)
    (h : renderPass S r f (pass : Int) = .ok f') :
    ∃ block, PassBlock S (DirectRenderingGated S) r.getObjectCount.toNat pass
        f.strategy block ∧
      f' = ⟨S.replay f.strategy block, f.calls ++ block⟩ := by
  -- the frame when the object loop begins
  have hstart : (if S.getDirectRenderingMode f.strategy ≠ .drm_none then
        f.issue S .prepareForDirectRendering else f) =
      ⟨S.replay f.strategy (if S.getDirectRenderingMode f.strategy ≠ .drm_none then
          [Call.prepareForDirectRendering] else []),
        f.calls ++ (if S.getDirectRenderingMode f.strategy ≠ .drm_none then
          [Call.prepareForDirectRendering] else [])⟩ := by
    split <;> simp [Frame.issue, AntialiasingStrategy.replay]
  cases ho : (List.range r.getObjectCount.toNat).foldlM
      (fun (f : Frame σ) (objectIndex : Nat) =>
        renderObject S r (pass : Int) f (objectIndex : Int))
      (if S.getDirectRenderingMode f.strategy ≠ .drm_none then
        f.issue S .prepareForDirectRendering else f) with
  | error e =>
    have : renderPass S r f (pass : Int) = .error e := by
      simp only [renderPass, ho]
      rfl
    rw [this] at h
    cases h
  | ok f₁ =>
    have hr : renderPass S r f (pass : Int) = .ok (f₁.issue S (.resolve pass)) := by
      simp only [renderPass, ho]
      rfl
    rw [hr] at h
    cases h
    obtain ⟨objects, hchain, hf₁⟩ := foldlM_chained S
      (fun (f : Frame σ) (objectIndex : Nat) =>
        renderObject S r (pass : Int) f (objectIndex : Int))
      (DirectRenderingGated S pass)
      (fun f x f' hx => renderObject_ok S r pass x f f' hx) _ _ _ ho
    rw [hstart] at hchain hf₁
    subst hf₁
    refine ⟨_, ⟨objects, rfl, hchain⟩, ?_⟩
    simp [Frame.issue, AntialiasingStrategy.replay, List.foldl_append, List.append_assoc]

/-- The method `renderAtlas` with mesh buffers attached and a strategy set. -/
theorem renderAtlas_of_strategy {σ : Type} (S : AntialiasingStrategy σ)
    (r : Renderer σ) (s₀ : σ) (hmesh : r.mMeshBuffers ≠ [])
    (hs : r.mAntialiasingStrategy = some s₀) :
    renderAtlas S r =
      match (List.range (S.getPassCount (S.prepareForRendering s₀)).toNat).foldlM
        (fun (f : Frame σ) (pass : Nat) => renderPass S r f (pass : Int))
        ((⟨s₀, [.clearDestFramebuffer]⟩ : Frame σ).issue S .prepareForRendering) with
      | .ok f => ⟨f.calls, some { r with mAntialiasingStrategy := some f.strategy }, true⟩
      | .error f =>
        ⟨f.calls, some { r with mAntialiasingStrategy := some f.strategy }, false⟩ := by
  have hlen : r.mMeshBuffers.length ≠ 0 := fun h => hmesh (List.length_eq_zero.mp h)
  unfold renderAtlas
  rw [if_neg hlen, hs]
  rfl

/-- When `renderAtlas` returns, with mesh buffers attached and a strategy set,
its calls are `clearDestFramebuffer`, `prepareForRendering` and the calls of
the passes in order, each pass holding the blocks of the objects in order. -/
theorem renderAtlas_blocks {σ : Type} (S : AntialiasingStrategy σ)
    (r : Renderer σ) (s₀ : σ) (hmesh : r.mMeshBuffers ≠ [])
    (hs : r.mAntialiasingStrategy = some s₀)
    (hreturned : (renderAtlas S r).returned = true) :
    FrameBlocks S (DirectRenderingGated S)
      (S.getPassCount (S.prepareForRendering s₀)).toNat r.getObjectCount.toNat s₀
      (renderAtlas S r).calls := by
  rw [renderAtlas_of_strategy S r s₀ hmesh hs] at hreturned ⊢
  cases hp : (List.range (S.getPassCount (S.prepareForRendering s₀)).toNat).foldlM
      (fun (f : Frame σ) (pass : Nat) => renderPass S r f (pass : Int))
      ((⟨s₀, [.clearDestFramebuffer]⟩ : Frame σ).issue S .prepareForRendering) with
  | error e =>
    rw [hp] at hreturned
    exact absurd hreturned (by simp)
  | ok f' =>
    obtain ⟨passes, hchain, hf'⟩ := foldlM_chained S
      (fun (f : Frame σ) (pass : Nat) => renderPass S r f (pass : Int))
      (PassBlock S (DirectRenderingGated S) r.getObjectCount.toNat)
      (fun f x f' hx => renderPass_ok S r x f f' hx) _ _ _ hp
    refine ⟨passes, ?_, hchain⟩
    show f'.calls = _
    rw [hf']
    rfl

/-! ## Frames that are aborted -/

/-- When `directlyRenderObject` is aborted, it has issued
`directlyRenderObject(pass, objectIndex)` and after it draw calls only. -/
theorem directlyRenderObject_error {σ : Type} (S : AntialiasingStrategy σ)
    (r : Renderer σ) (pass objectIndex : Int) (f e : Frame σ)
    (h : directlyRenderObject S r pass objectIndex f = .error e) :
    ∃ rest, e = ⟨S.replay f.strategy (Call.directlyRenderObject pass objectIndex :: rest),
        f.calls ++ Call.directlyRenderObject pass objectIndex :: rest⟩ ∧
      ∀ c ∈ rest, c.isDraw = true := by
  unfold directlyRenderObject at h
  simp only [getPathIDsAreInstanced] at h
  split at h
  · cases h
  · split at h
    · cases h
    · split at h
      · cases h
        exact ⟨[], rfl, by simp⟩
      · split at h
        · split at h
          · cases h
            exact ⟨[.glDrawElements], by simp [Frame.issue, AntialiasingStrategy.replay],
              by simp [Call.isDraw]⟩
          · cases h
        · cases h

/-- When the body of the object loop is aborted, the calls it has issued are
the beginning of a block as `DirectRenderingGated` describes it. -/
theorem renderObject_error {σ : Type} (S : AntialiasingStrategy σ)
    (r : Renderer σ) (pass objectIndex : Nat) (f e : Frame σ)
    (h : renderObject S r (pass : Int) f (objectIndex : Int) = .error e) :
    ∃ issued rest, DirectRenderingGated S pass objectIndex f.strategy (issued ++ rest) ∧
      e = ⟨S.replay f.strategy issued, f.calls ++ issued⟩ := by
  by_cases hm : S.getDirectRenderingMode f.strategy = .drm_none
  · rw [show renderObject S r (pass : Int) f (objectIndex : Int) =
        .ok (((f.issue S (.antialiasObject objectIndex)).issue S
          (.finishAntialiasingObject objectIndex)).issue S
            (.resolveAAForObject objectIndex)) by
      simp only [renderObject, hm, ne_eq, not_true_eq_false, if_false]
      rfl] at h
    cases h
  · cases hd : directlyRenderObject S r (pass : Int) (objectIndex : Int)
        ((f.issue S (.prepareToRenderObject objectIndex)).issue S
          (.clearForDirectRendering objectIndex)) with
    | ok f₁ =>
      have hr : renderObject S r (pass : Int) f (objectIndex : Int) =
          .ok (((f₁.issue S (.antialiasObject objectIndex)).issue S
            (.finishAntialiasingObject objectIndex)).issue S
              (.resolveAAForObject objectIndex)) := by
        simp only [renderObject, hm, ne_eq, not_false_eq_true, if_true, hd]
        rfl
      rw [hr] at h
      cases h
    | error e₁ =>
      have hr : renderObject S r (pass : Int) f (objectIndex : Int) = .error e₁ := by
        simp only [renderObject, hm, ne_eq, not_false_eq_true, if_true, hd]
        rfl
      rw [hr] at h
      cases h
      obtain ⟨draws, he, hdraws⟩ := directlyRenderObject_error S r _ _ _ _ hd
      subst he
      refine ⟨[.prepareToRenderObject objectIndex, .clearForDirectRendering objectIndex,
          .directlyRenderObject pass objectIndex] ++ draws, objectCallSequence objectIndex,
        ⟨[.prepareToRenderObject objectIndex, .clearForDirectRendering objectIndex,
          .directlyRenderObject pass objectIndex] ++ draws, rfl, ?_, fun h => absurd h hm,
          fun _ => ⟨draws, rfl, fun c hc => Or.inl (hdraws c hc)⟩⟩, ?_⟩
      · simp [hm]
      · simp [Frame.issue, AntialiasingStrategy.replay]

/-- In every state of the strategy there is a block of calls of an object as
`DirectRenderingGated` describes it. -/
theorem directRenderingGated_exists {σ : Type} (S : AntialiasingStrategy σ)
    (pass objectIndex : Nat) (s : σ) :
    ∃ block, DirectRenderingGated S pass objectIndex s block := by
  by_cases hm : S.getDirectRenderingMode s = .drm_none
  · refine ⟨objectCallSequence objectIndex, [], rfl, ?_, fun _ => rfl,
      fun h => absurd hm h⟩
    simp [hm, objectCallSequence]
  · refine ⟨[.prepareToRenderObject objectIndex, .clearForDirectRendering objectIndex,
        .directlyRenderObject pass objectIndex] ++ objectCallSequence objectIndex,
      [.prepareToRenderObject objectIndex, .clearForDirectRendering objectIndex,
        .directlyRenderObject pass objectIndex], rfl, ?_, fun h => absurd h hm,
      fun _ => ⟨[], rfl, by simp⟩⟩
    simp [hm]

theorem chained_exists {σ α : Type} (S : AntialiasingStrategy σ)
    (B : α → σ → List Call → Prop) (hB : ∀ x s, ∃ block, B x s block)
    (l : List α) (s : σ) : ∃ blocks, Chained S B l s blocks := by
  induction l generalizing s with
  | nil => exact ⟨[], rfl⟩
  | cons x l ih =>
    obtain ⟨block, hblock⟩ := hB x s
    obtain ⟨rest, hrest⟩ := ih (S.replay s block)
    exact ⟨block :: rest, block, rest, rfl, hblock, hrest⟩

theorem passBlock_exists {σ : Type} (S : AntialiasingStrategy σ)
    (B : Nat → Nat → σ → List Call → Prop) (hB : ∀ pass i s, ∃ block, B pass i s block)
    (n pass : Nat) (s : σ) : ∃ block, PassBlock S B n pass s block := by
  obtain ⟨objects, hobjects⟩ := chained_exists S (B pass) (hB pass) (List.range n)
    (S.replay s (if S.getDirectRenderingMode s ≠ .drm_none then
      [Call.prepareForDirectRendering] else []))
  exact ⟨_, objects, rfl, hobjects⟩

/-- A loop that is aborted, each iteration of which issues a block satisfying
`B` when it returns and the beginning of one when it is aborted, has issued the
beginning of a sequence of blocks, one for each iteration. -/
theorem foldlM_chained_error {σ α : Type} (S : AntialiasingStrategy σ)
    (t : Frame σ → α → Except (Frame σ) (Frame σ)) (B : α → σ → List Call → Prop)
    (hB : ∀ x s, ∃ block, B x s block)
    (hok : ∀ f x f', t f x = .ok f' →
      ∃ block, B x f.strategy block ∧ f' = ⟨S.replay f.strategy block, f.calls ++ block⟩)
    (herror : ∀ f x e, t f x = .error e →
      ∃ issued rest, B x f.strategy (issued ++ rest) ∧
        e = ⟨S.replay f.strategy issued, f.calls ++ issued⟩)
    (l : List α) (f e : Frame σ) (h : l.foldlM t f = .error e) :
    ∃ issued rest blocks, Chained S B l f.strategy blocks ∧
      blocks.flatten = issued ++ rest ∧
      e = ⟨S.replay f.strategy issued, f.calls ++ issued⟩ := by
  induction l generalizing f with
  | nil => cases h
  | cons x l ih =>
    rw [List.foldlM_cons] at h
    cases hx : t f x with
    | error e₁ =>
      obtain ⟨issued, rest, hblock, he⟩ := herror f x e₁ hx
      rw [hx] at h
      cases h
      obtain ⟨blocks, hblocks⟩ := chained_exists S B hB l
        (S.replay f.strategy (issued ++ rest))
      exact ⟨issued, rest ++ blocks.flatten, (issued ++ rest) :: blocks,
        ⟨_, _, rfl, hblock, hblocks⟩, by simp, he⟩
    | ok f₁ =>
      rw [hx] at h
      obtain ⟨block, hblock, hf₁⟩ := hok f x f₁ hx
      obtain ⟨issued, rest, blocks, hchain, hflat, he⟩ := ih f₁ h
      subst hf₁
      refine ⟨block ++ issued, rest, block :: blocks, ⟨_, _, rfl, hblock, hchain⟩, ?_, ?_⟩
      · simp [hflat]
      · rw [he]
        simp [S.replay_append, List.append_assoc]

/-- When the body of the pass loop is aborted, the calls it has issued are the
beginning of the calls of a pass. -/
theorem renderPass_error {σ : Type} (S : AntialiasingStrategy σ)
    (r : Renderer σ) (pass : Nat) (f e : Frame σ)
    (h : renderPass S r f (pass : Int) = .error e) :
    ∃ issued rest,
      PassBlock S (DirectRenderingGated S) r.getObjectCount.toNat pass f.strategy
        (issued ++ rest) ∧
      e = ⟨S.replay f.strategy issued, f.calls ++ issued⟩ := by
  have hstart : (if S.getDirectRenderingMode f.strategy ≠ .drm_none then
        f.issue S .prepareForDirectRendering else f) =
      ⟨S.replay f.strategy (if S.getDirectRenderingMode f.strategy ≠ .drm_none then
          [Call.prepareForDirectRendering] else []),
        f.calls ++ (if S.getDirectRenderingMode f.strategy ≠ .drm_none then
          [Call.prepareForDirectRendering] else [])⟩ := by
    split <;> simp [Frame.issue, AntialiasingStrategy.replay]
  cases ho : (List.range r.getObjectCount.toNat).foldlM
      (fun (f : Frame σ) (objectIndex : Nat) =>
        renderObject S r (pass : Int) f (objectIndex : Int))
      (if S.getDirectRenderingMode f.strategy ≠ .drm_none then
        f.issue S .prepareForDirectRendering else f) with
  | ok f₁ =>
    have hr : renderPass S r f (pass : Int) = .ok (f₁.issue S (.resolve pass)) := by
      simp only [renderPass, ho]
      rfl
    rw [hr] at h
    cases h
  | error e₁ =>
    have hr : renderPass S r f (pass : Int) = .error e₁ := by
      simp only [renderPass, ho]
      rfl
    rw [hr] at h
    cases h
    obtain ⟨issued, rest, objects, hchain, hflat, he⟩ := foldlM_chained_error S
      (fun (f : Frame σ) (objectIndex : Nat) =>
        renderObject S r (pass : Int) f (objectIndex : Int))
      (DirectRenderingGated S pass)
      (directRenderingGated_exists S pass)
      (fun f x f' hx => renderObject_ok S r pass x f f' hx)
      (fun f x e hx => renderObject_error S r pass x f e hx) _ _ _ ho
    rw [hstart] at hchain he
    refine ⟨(if S.getDirectRenderingMode f.strategy ≠ .drm_none then
        [Call.prepareForDirectRendering] else []) ++ issued, rest ++ [.resolve pass],
      ⟨objects, ?_, hchain⟩, ?_⟩
    · rw [hflat]
      simp [List.append_assoc]
    · rw [he]
      simp [S.replay_append, List.append_assoc]

/-- With mesh buffers attached and a strategy set, the calls of `renderAtlas`
are the calls of a frame in blocks: all of them when it returns, and the
beginning of them when it is aborted. -/
theorem renderAtlas_blocks_beginning {σ : Type} (S : AntialiasingStrategy σ)
    (r : Renderer σ) (s₀ : σ) (hmesh : r.mMeshBuffers ≠ [])
    (hs : r.mAntialiasingStrategy = some s₀) :
    ∃ rest, FrameBlocks S (DirectRenderingGated S)
        (S.getPassCount (S.prepareForRendering s₀)).toNat r.getObjectCount.toNat s₀
        ((renderAtlas S r).calls ++ rest) ∧
      ((renderAtlas S r).returned = true → rest = []) := by
  cases hp : (List.range (S.getPassCount (S.prepareForRendering s₀)).toNat).foldlM
      (fun (f : Frame σ) (pass : Nat) => renderPass S r f (pass : Int))
      ((⟨s₀, [.clearDestFramebuffer]⟩ : Frame σ).issue S .prepareForRendering) with
  | ok f' =>
    have hreturned : (renderAtlas S r).returned = true := by
      rw [renderAtlas_of_strategy S r s₀ hmesh hs, hp]
    refine ⟨[], ?_, fun _ => rfl⟩
    rw [List.append_nil]
    exact renderAtlas_blocks S r s₀ hmesh hs hreturned
  | error e =>
    obtain ⟨issued, rest, passes, hchain, hflat, he⟩ := foldlM_chained_error S
      (fun (f : Frame σ) (pass : Nat) => renderPass S r f (pass : Int))
      (PassBlock S (DirectRenderingGated S) r.getObjectCount.toNat)
      (passBlock_exists S (DirectRenderingGated S) (directRenderingGated_exists S)
        r.getObjectCount.toNat)
      (fun f x f' hx => renderPass_ok S r x f f' hx)
      (fun f x e hx => renderPass_error S r x f e hx) _ _ _ hp
    have hcalls : (renderAtlas S r).calls = e.calls ∧ (renderAtlas S r).returned = false := by
      rw [renderAtlas_of_strategy S r s₀ hmesh hs, hp]
      exact ⟨rfl, rfl⟩
    refine ⟨rest, ⟨passes, ?_, hchain⟩, fun h => ?_⟩
    · rw [hcalls.1, he, hflat]
      simp [Frame.issue, List.append_assoc]
    · rw [hcalls.2] at h
      cases h

/-- A block of calls that satisfies `DirectRenderingGated` satisfies
`ObjectProtocol`. -/
theorem objectProtocol_of_directRenderingGated {σ : Type} (S : AntialiasingStrategy σ)
    (pass objectIndex : Nat) (s : σ) (block : List Call)
    (h : DirectRenderingGated S pass objectIndex s block) :
    ObjectProtocol S pass objectIndex s block := by
  obtain ⟨direct, hblock, -, hnone, hsome⟩ := h
  refine ⟨direct, hblock, ?_, hnone, ?_⟩
  · by_cases hm : S.getDirectRenderingMode s = .drm_none
    · rw [hblock, hnone hm]
      simp [hm, objectCallSequence]
    · obtain ⟨rest, hd, -⟩ := hsome hm
      rw [hblock, hd]
      simp [hm]
  · intro hm
    obtain ⟨rest, hd, hrest⟩ := hsome hm
    refine ⟨[.clearForDirectRendering objectIndex,
      .directlyRenderObject pass objectIndex] ++ rest, by rw [hd]; rfl, ?_⟩
    intro c hc hstrategy
    simp only [List.cons_append, List.nil_append, List.mem_cons] at hc
    rcases hc with rfl | rfl | hc
    · exact absurd hstrategy (by simp [Call.isStrategyCall])
    · exact absurd hstrategy (by simp [Call.isStrategyCall])
    · rcases hrest c hc with hdraw | rfl
      · cases c <;> simp_all [Call.isDraw, Call.isStrategyCall]
      · rfl

/-- A frame is aborted where `directlyRenderObject` reads outside the vectors of
the renderer: with three objects over two meshes, `mMeshBuffers[2]` is such a
read, and `renderAtlas` stops after `directlyRenderObject(0, 2)` has begun. -/
theorem renderAtlas_aborted_outside_mesh_buffers :
    renderAtlas (countingStrategy 1 .drm_conservative)
        { sampleRenderer 2 with getObjectCount := 3 } =
      ⟨[.clearDestFramebuffer, .prepareForRendering, .prepareForDirectRendering,
        .prepareToRenderObject 0, .clearForDirectRendering 0,
        .directlyRenderObject 0 0, .glDrawElements, .finishDirectlyRenderingObject 0,
        .antialiasObject 0, .finishAntialiasingObject 0, .resolveAAForObject 0,
        .prepareToRenderObject 1, .clearForDirectRendering 1,
        .directlyRenderObject 0 1, .glDrawElements, .finishDirectlyRenderingObject 1,
        .antialiasObject 1, .finishAntialiasingObject 1, .resolveAAForObject 1,
        .prepareToRenderObject 2, .clearForDirectRendering 2,
        .directlyRenderObject 0 2],
        some { sampleRenderer 2 with
          getObjectCount := 3
          mAntialiasingStrategy := some 13 }, false⟩ := by
  rfl

/-! ## Attaching meshes and replacing the strategy -/

theorem foldl_push_mesh_buffers {σ : Type} (ms : List PathfinderPackedMeshes)
    (r : Renderer σ) :
    ms.foldl
      (fun (r : Renderer σ) m =>
        { r with mMeshBuffers := r.mMeshBuffers ++ [PathfinderPackedMeshBuffers.ofMeshes m] })
      r =
    { r with mMeshBuffers :=
        r.mMeshBuffers ++ ms.map PathfinderPackedMeshBuffers.ofMeshes } := by
  induction ms generalizing r with
  | nil => simp
  | cons m t ih => simp [List.foldl_cons, ih, List.append_assoc]

theorem attachMeshes_of_strategy {σ : Type} (S : AntialiasingStrategy σ)
    (r : Renderer σ) (s : σ) (ms : List PathfinderPackedMeshes)
    (hs : r.mAntialiasingStrategy = some s) :
    attachMeshes S r ms =
      .returned [.attachMeshes ms (ms.map PathfinderPackedMeshBuffers.ofMeshes)]
        { r with
          mMeshes := ms
          mMeshBuffers := ms.map PathfinderPackedMeshBuffers.ofMeshes
          mAntialiasingStrategy :=
            some (S.attachMeshes ms (ms.map PathfinderPackedMeshBuffers.ofMeshes) s) } := by
  unfold attachMeshes
  rw [hs]
  simp [foldl_push_mesh_buffers, Frame.issue, AntialiasingStrategy.apply]

theorem setAntialiasingOptions_of_strategy {σ : Type} (S : AntialiasingStrategy σ)
    (r : Renderer σ) (aaType : AntialiasingStrategyName) (aaLevel : Int)
    (aaOptions : AAOptions) (s : σ)
    (hnew : r.createAAStrategy aaType aaLevel aaOptions.subpixelAA
      aaOptions.stemDarkening = some s) :
    setAntialiasingOptions S r aaType aaLevel aaOptions =
      .returned
        ([.init] ++ (if r.mMeshes.length ≠ 0 then
            [Call.attachMeshes r.mMeshes r.mMeshBuffers] else []) ++ [.setFramebufferSize])
        { r with
          mGammaCorrectionMode := aaOptions.gammaCorrection
          mAntialiasingStrategy := some (S.replay s
            ([.init] ++ (if r.mMeshes.length ≠ 0 then
              [Call.attachMeshes r.mMeshes r.mMeshBuffers] else []) ++
              [.setFramebufferSize])) } := by
  unfold setAntialiasingOptions
  simp only [hnew]
  by_cases hm : r.mMeshes.length = 0
  · simp [hm, Frame.issue, AntialiasingStrategy.replay]
  · simp [hm, Frame.issue, AntialiasingStrategy.replay]

theorem frameCallSequence_no_direct (passCount n : Nat) :
    ∀ c ∈ frameCallSequence passCount n, c.isDirectRendering = false := by
  intro c hc
  simp only [frameCallSequence, objectCallSequence, List.mem_append, List.mem_flatMap,
    List.mem_cons, List.mem_singleton, List.not_mem_nil, or_false] at hc
  rcases hc with (rfl | rfl) | ⟨p, -, ⟨i, -, rfl | rfl | rfl⟩ | rfl⟩ <;> rfl

/-! ## Shader programs and uniform helpers -/

theorem Run.bind_def {α β : Type} (x : Run α) (k : α → Run β) :
    x >>= k = Run.andThen x k := rfl

theorem Run.pure_def {α : Type} (a : α) : (pure a : Run α) = Run.ret a := rfl

theorem getUniform_of_hasUniform (p : PathfinderShaderProgram) (id : Int)
    (h : p.hasUniform id = true) : ∃ location, p.getUniform id = some location := by
  unfold PathfinderShaderProgram.hasUniform at h
  unfold PathfinderShaderProgram.getUniform
  split at h
  · exact absurd h (by decide)
  · rename_i hr
    rw [if_neg hr]
    have hd := of_decide_eq_true h
    exact ⟨_, if_pos hd⟩

theorem getUniform_of_not_hasUniform (p : PathfinderShaderProgram) (id : Int)
    (h : p.hasUniform id = false) : p.getUniform id = none := by
  unfold PathfinderShaderProgram.hasUniform at h
  unfold PathfinderShaderProgram.getUniform
  split at h
  · rename_i hr
    rw [if_pos hr]
  · rename_i hr
    rw [if_neg hr]
    have hd := of_decide_eq_false h
    exact if_neg hd

theorem getAttribute_of_hasAttribute (p : PathfinderShaderProgram) (id : Int)
    (h : p.hasAttribute id = true) : ∃ location, p.getAttribute id = some location := by
  unfold PathfinderShaderProgram.hasAttribute at h
  unfold PathfinderShaderProgram.getAttribute
  split at h
  · exact absurd h (by decide)
  · rename_i hr
    rw [if_neg hr]
    have hd := of_decide_eq_true h
    exact ⟨_, if_pos hd⟩

theorem setFramebufferSizeUniform_run (ids : UniformIDs) (p : PathfinderShaderProgram) :
    (setFramebufferSizeUniform ids p).value = some () ∧
    (setFramebufferSizeUniform ids p).guarded = true ∧
    (p.hasUniform ids.uniform_uFramebufferSize = false →
      (setFramebufferSizeUniform ids p).commands = []) := by
  cases h : p.hasUniform ids.uniform_uFramebufferSize
  · simp [setFramebufferSizeUniform, queryHasUniform, Run.bind_def, Run.pure_def,
      Run.andThen, Run.ret, Run.guarded, guardedAfter, Run.commands, h]
  · obtain ⟨l, hl⟩ := getUniform_of_hasUniform p _ h
    simp [setFramebufferSizeUniform, queryHasUniform, lookupUniform, glCall, Run.bind_def,
      Run.pure_def, Run.andThen, Run.ret, Run.guarded, guardedAfter, Run.commands, h, hl]

theorem setTransformAndTexScaleUniformsForDest_run (ids : UniformIDs) (p : PathfinderShaderProgram) :
    (setTransformAndTexScaleUniformsForDest ids p).value = some () ∧
    (setTransformAndTexScaleUniformsForDest ids p).guarded = true ∧
    (p.hasUniform ids.uniform_uTexScale = false → p.hasUniform ids.uniform_uTransform = false →
      (setTransformAndTexScaleUniformsForDest ids p).commands = []) := by
  cases h₁ : p.hasUniform ids.uniform_uTexScale <;> cases h₂ : p.hasUniform ids.uniform_uTransform
  · simp [setTransformAndTexScaleUniformsForDest, queryHasUniform, lookupUniform, glCall, computeTransformCall, Run.bind_def,
      Run.pure_def, Run.andThen, Run.ret, Run.guarded, guardedAfter, Run.commands, h₁, h₂]
  · obtain ⟨l₂, hl₂⟩ := getUniform_of_hasUniform p _ h₂
    simp [setTransformAndTexScaleUniformsForDest, queryHasUniform, lookupUniform, glCall, computeTransformCall, Run.bind_def,
      Run.pure_def, Run.andThen, Run.ret, Run.guarded, guardedAfter, Run.commands, h₁, h₂, hl₂]
  · obtain ⟨l₁, hl₁⟩ := getUniform_of_hasUniform p _ h₁
    simp [setTransformAndTexScaleUniformsForDest, queryHasUniform, lookupUniform, glCall, computeTransformCall, Run.bind_def,
      Run.pure_def, Run.andThen, Run.ret, Run.guarded, guardedAfter, Run.commands, h₁, h₂, hl₁]
  · obtain ⟨l₁, hl₁⟩ := getUniform_of_hasUniform p _ h₁
    obtain ⟨l₂, hl₂⟩ := getUniform_of_hasUniform p _ h₂
    simp [setTransformAndTexScaleUniformsForDest, queryHasUniform, lookupUniform, glCall, computeTransformCall, Run.bind_def,
      Run.pure_def, Run.andThen, Run.ret, Run.guarded, guardedAfter, Run.commands, h₁, h₂, hl₁, hl₂]

theorem setTransformSTAndTexScaleUniformsForDest_run (ids : UniformIDs) (p : PathfinderShaderProgram) :
    (setTransformSTAndTexScaleUniformsForDest ids p).value = some () ∧
    (setTransformSTAndTexScaleUniformsForDest ids p).guarded = true ∧
    (p.hasUniform ids.uniform_uTransformST = false → p.hasUniform ids.uniform_uTexScale = false →
      (setTransformSTAndTexScaleUniformsForDest ids p).commands = []) := by
  cases h₁ : p.hasUniform ids.uniform_uTransformST <;> cases h₂ : p.hasUniform ids.uniform_uTexScale
  · simp [setTransformSTAndTexScaleUniformsForDest, queryHasUniform, lookupUniform, glCall, computeTransformCall, Run.bind_def,
      Run.pure_def, Run.andThen, Run.ret, Run.guarded, guardedAfter, Run.commands, h₁, h₂]
  · obtain ⟨l₂, hl₂⟩ := getUniform_of_hasUniform p _ h₂
    simp [setTransformSTAndTexScaleUniformsForDest, queryHasUniform, lookupUniform, glCall, computeTransformCall, Run.bind_def,
      Run.pure_def, Run.andThen, Run.ret, Run.guarded, guardedAfter, Run.commands, h₁, h₂, hl₂]
  · obtain ⟨l₁, hl₁⟩ := getUniform_of_hasUniform p _ h₁
    simp [setTransformSTAndTexScaleUniformsForDest, queryHasUniform, lookupUniform, glCall, computeTransformCall, Run.bind_def,
      Run.pure_def, Run.andThen, Run.ret, Run.guarded, guardedAfter, Run.commands, h₁, h₂, hl₁]
  · obtain ⟨l₁, hl₁⟩ := getUniform_of_hasUniform p _ h₁
    obtain ⟨l₂, hl₂⟩ := getUniform_of_hasUniform p _ h₂
    simp [setTransformSTAndTexScaleUniformsForDest, queryHasUniform, lookupUniform, glCall, computeTransformCall, Run.bind_def,
      Run.pure_def, Run.andThen, Run.ret, Run.guarded, guardedAfter, Run.commands, h₁, h₂, hl₁, hl₂]

theorem setTransformUniform_run (ids : UniformIDs) (p : PathfinderShaderProgram)
    (pass objectIndex : Int) :
    (setTransformUniform ids p pass objectIndex).value = some () ∧
    (setTransformUniform ids p pass objectIndex).guarded = true ∧
    (p.hasUniform ids.uniform_uTransform = false →
      (setTransformUniform ids p pass objectIndex).commands = []) := by
  cases h : p.hasUniform ids.uniform_uTransform
  · simp [setTransformUniform, queryHasUniform, lookupUniform, glCall, computeTransformCall, Run.bind_def,
      Run.pure_def, Run.andThen, Run.ret, Run.guarded, guardedAfter, Run.commands, h]
  · obtain ⟨l, hl⟩ := getUniform_of_hasUniform p _ h
    simp [setTransformUniform, queryHasUniform, lookupUniform, glCall, computeTransformCall, Run.bind_def,
      Run.pure_def, Run.andThen, Run.ret, Run.guarded, guardedAfter, Run.commands, h, hl]

theorem setTransformSTUniform_run (ids : UniformIDs) (p : PathfinderShaderProgram)
    (objectIndex : Int) :
    (setTransformSTUniform ids p objectIndex).value = some () ∧
    (setTransformSTUniform ids p objectIndex).guarded = true ∧
    (p.hasUniform ids.uniform_uTransformST = false →
      (setTransformSTUniform ids p objectIndex).commands = []) := by
  cases h : p.hasUniform ids.uniform_uTransformST
  · simp [setTransformSTUniform, queryHasUniform, lookupUniform, glCall, computeTransformCall, Run.bind_def,
      Run.pure_def, Run.andThen, Run.ret, Run.guarded, guardedAfter, Run.commands, h]
  · obtain ⟨l, hl⟩ := getUniform_of_hasUniform p _ h
    simp [setTransformSTUniform, queryHasUniform, lookupUniform, glCall, computeTransformCall, Run.bind_def,
      Run.pure_def, Run.andThen, Run.ret, Run.guarded, guardedAfter, Run.commands, h, hl]

theorem setTransformAffineUniforms_run (ids : UniformIDs) (p : PathfinderShaderProgram)
    (objectIndex : Int) :
    (setTransformAffineUniforms ids p objectIndex).value = some () ∧
    (setTransformAffineUniforms ids p objectIndex).guarded = true ∧
    (p.hasUniform ids.uniform_uTransformST = false → p.hasUniform ids.uniform_uTransformExt = false →
      (setTransformAffineUniforms ids p objectIndex).commands = []) := by
  cases h₁ : p.hasUniform ids.uniform_uTransformST <;> cases h₂ : p.hasUniform ids.uniform_uTransformExt
  · simp [setTransformAffineUniforms, queryHasUniform, lookupUniform, glCall, computeTransformCall, Run.bind_def,
      Run.pure_def, Run.andThen, Run.ret, Run.guarded, guardedAfter, Run.commands, h₁, h₂]
  · obtain ⟨l₂, hl₂⟩ := getUniform_of_hasUniform p _ h₂
    simp [setTransformAffineUniforms, queryHasUniform, lookupUniform, glCall, computeTransformCall, Run.bind_def,
      Run.pure_def, Run.andThen, Run.ret, Run.guarded, guardedAfter, Run.commands, h₁, h₂, hl₂]
  · obtain ⟨l₁, hl₁⟩ := getUniform_of_hasUniform p _ h₁
    simp [setTransformAffineUniforms, queryHasUniform, lookupUniform, glCall, computeTransformCall, Run.bind_def,
      Run.pure_def, Run.andThen, Run.ret, Run.guarded, guardedAfter, Run.commands, h₁, h₂, hl₁]
  · obtain ⟨l₁, hl₁⟩ := getUniform_of_hasUniform p _ h₁
    obtain ⟨l₂, hl₂⟩ := getUniform_of_hasUniform p _ h₂
    simp [setTransformAffineUniforms, queryHasUniform, lookupUniform, glCall, computeTransformCall, Run.bind_def,
      Run.pure_def, Run.andThen, Run.ret, Run.guarded, guardedAfter, Run.commands, h₁, h₂, hl₁, hl₂]

theorem setEmboldenAmountUniform_run (ids : UniformIDs) (p : PathfinderShaderProgram)
    (objectIndex : Int) :
    (setEmboldenAmountUniform ids objectIndex p).value = some () ∧
    (setEmboldenAmountUniform ids objectIndex p).guarded = true ∧
    (p.hasUniform ids.uniform_uEmboldenAmount = false →
      (setEmboldenAmountUniform ids objectIndex p).commands = []) := by
  cases h : p.hasUniform ids.uniform_uEmboldenAmount
  · simp [setEmboldenAmountUniform, queryHasUniform, lookupUniform, glCall, computeTransformCall, Run.bind_def,
      Run.pure_def, Run.andThen, Run.ret, Run.guarded, guardedAfter, Run.commands, h]
  · obtain ⟨l, hl⟩ := getUniform_of_hasUniform p _ h
    simp [setEmboldenAmountUniform, queryHasUniform, lookupUniform, glCall, computeTransformCall, Run.bind_def,
      Run.pure_def, Run.andThen, Run.ret, Run.guarded, guardedAfter, Run.commands, h, hl]

theorem bindGammaLUT_run (ids : UniformIDs) (p : PathfinderShaderProgram)
    (textureUnit : Int) :
    (bindGammaLUT ids textureUnit p).value = some () ∧
    (bindGammaLUT ids textureUnit p).guarded = true ∧
    (p.hasUniform ids.uniform_uGammaLUT = false → p.hasUniform ids.uniform_uBGColor = false →
      (bindGammaLUT ids textureUnit p).commands = []) := by
  cases h₁ : p.hasUniform ids.uniform_uGammaLUT <;> cases h₂ : p.hasUniform ids.uniform_uBGColor
  · simp [bindGammaLUT, queryHasUniform, lookupUniform, glCall, computeTransformCall, Run.bind_def,
      Run.pure_def, Run.andThen, Run.ret, Run.guarded, guardedAfter, Run.commands, h₁, h₂]
  · obtain ⟨l₂, hl₂⟩ := getUniform_of_hasUniform p _ h₂
    simp [bindGammaLUT, queryHasUniform, lookupUniform, glCall, computeTransformCall, Run.bind_def,
      Run.pure_def, Run.andThen, Run.ret, Run.guarded, guardedAfter, Run.commands, h₁, h₂, hl₂]
  · obtain ⟨l₁, hl₁⟩ := getUniform_of_hasUniform p _ h₁
    simp [bindGammaLUT, queryHasUniform, lookupUniform, glCall, computeTransformCall, Run.bind_def,
      Run.pure_def, Run.andThen, Run.ret, Run.guarded, guardedAfter, Run.commands, h₁, h₂, hl₁]
  · obtain ⟨l₁, hl₁⟩ := getUniform_of_hasUniform p _ h₁
    obtain ⟨l₂, hl₂⟩ := getUniform_of_hasUniform p _ h₂
    simp [bindGammaLUT, queryHasUniform, lookupUniform, glCall, computeTransformCall, Run.bind_def,
      Run.pure_def, Run.andThen, Run.ret, Run.guarded, guardedAfter, Run.commands, h₁, h₂, hl₁, hl₂]

/-- A program that declares `uBGColor`: `bindGammaLUT` issues `glUniform3f` on
its location, and nothing else when the program does not declare `uGammaLUT`. -/
theorem bindGammaLUT_uBGColor (ids : UniformIDs) (p : PathfinderShaderProgram)
    (textureUnit : Int) (h₂ : p.hasUniform ids.uniform_uBGColor = true) :
    ∃ location, p.getUniform ids.uniform_uBGColor = some location ∧
      GLCommand.glUniform3f location ∈ (bindGammaLUT ids textureUnit p).commands ∧
      (p.hasUniform ids.uniform_uGammaLUT = false →
        (bindGammaLUT ids textureUnit p).commands = [.glUniform3f location]) := by
  obtain ⟨l₂, hl₂⟩ := getUniform_of_hasUniform p _ h₂
  refine ⟨l₂, hl₂, ?_, ?_⟩
  · cases h₁ : p.hasUniform ids.uniform_uGammaLUT
    · simp [bindGammaLUT, queryHasUniform, lookupUniform, glCall, Run.bind_def,
        Run.pure_def, Run.andThen, Run.ret, Run.commands, h₁, h₂, hl₂]
    · obtain ⟨l₁, hl₁⟩ := getUniform_of_hasUniform p _ h₁
      simp [bindGammaLUT, queryHasUniform, lookupUniform, glCall, Run.bind_def,
        Run.pure_def, Run.andThen, Run.ret, Run.commands, h₁, h₂, hl₁, hl₂]
  · intro h₁
    simp [bindGammaLUT, queryHasUniform, lookupUniform, glCall, Run.bind_def,
      Run.pure_def, Run.andThen, Run.ret, Run.commands, h₁, h₂, hl₂]

theorem bindAreaLUT_run (ids : UniformIDs) (p : PathfinderShaderProgram)
    (textureUnit : Int) :
    (bindAreaLUT ids textureUnit p).value = some () ∧
    (bindAreaLUT ids textureUnit p).guarded = true ∧
    (p.hasUniform ids.uniform_uAreaLUT = false →
      (bindAreaLUT ids textureUnit p).commands = []) := by
  cases h : p.hasUniform ids.uniform_uAreaLUT
  · simp [bindAreaLUT, queryHasUniform, lookupUniform, glCall, computeTransformCall, Run.bind_def,
      Run.pure_def, Run.andThen, Run.ret, Run.guarded, guardedAfter, Run.commands, h]
  · obtain ⟨l, hl⟩ := getUniform_of_hasUniform p _ h
    simp [bindAreaLUT, queryHasUniform, lookupUniform, glCall, computeTransformCall, Run.bind_def,
      Run.pure_def, Run.andThen, Run.ret, Run.guarded, guardedAfter, Run.commands, h, hl]

theorem initImplicitCoverCurveVAO_value (attrs : AttributeIDs) (meshBuffersCount : Nat)
    (p : PathfinderShaderProgram)
    (h₁ : p.hasAttribute attrs.attribute_aPosition = true)
    (h₂ : p.hasAttribute attrs.attribute_aVertexID = true)
    (h₃ : p.hasAttribute attrs.attribute_aPathID = true) :
    (initImplicitCoverCurveVAO attrs meshBuffersCount p).value = some () := by
  obtain ⟨l₁, hl₁⟩ := getAttribute_of_hasAttribute p _ h₁
  obtain ⟨l₂, hl₂⟩ := getAttribute_of_hasAttribute p _ h₂
  obtain ⟨l₃, hl₃⟩ := getAttribute_of_hasAttribute p _ h₃
  unfold initImplicitCoverCurveVAO
  split
  · rfl
  · simp [lookupAttribute, glCall, Run.bind_def, Run.pure_def, Run.andThen, Run.ret,
      getPathIDsAreInstanced, hl₁, hl₂, hl₃]

theorem initImplicitCoverInteriorVAO_value (attrs : AttributeIDs) (meshBuffersCount : Nat)
    (isConservativeInterior : Bool) (p : PathfinderShaderProgram)
    (h₁ : p.hasAttribute attrs.attribute_aPosition = true)
    (h₂ : isConservativeInterior = true → p.hasAttribute attrs.attribute_aVertexID = true)
    (h₃ : p.hasAttribute attrs.attribute_aPathID = true) :
    (initImplicitCoverInteriorVAO attrs meshBuffersCount isConservativeInterior p).value =
      some () := by
  obtain ⟨l₁, hl₁⟩ := getAttribute_of_hasAttribute p _ h₁
  obtain ⟨l₃, hl₃⟩ := getAttribute_of_hasAttribute p _ h₃
  unfold initImplicitCoverInteriorVAO
  split
  · rfl
  · cases isConservativeInterior
    · simp [lookupAttribute, glCall, Run.bind_def, Run.pure_def, Run.andThen, Run.ret,
        getPathIDsAreInstanced, hl₁, hl₃]
    · obtain ⟨l₂, hl₂⟩ := getAttribute_of_hasAttribute p _ (h₂ rfl)
      simp [lookupAttribute, glCall, Run.bind_def, Run.pure_def, Run.andThen, Run.ret,
        getPathIDsAreInstanced, hl₁, hl₂, hl₃]

/-! ## The shader manager -/

theorem forWhileSucceeded_succ {α : Type} (n : Nat) (body : Nat → α → Bool × α)
    (state : Bool × α) :
    forWhileSucceeded (n + 1) body state =
      if (forWhileSucceeded n body state).1 then
        body n (forWhileSucceeded n body state).2
      else forWhileSucceeded n body state := by
  simp [forWhileSucceeded, List.range_succ, List.foldl_append]

/-- A loop whose iteration `i` keeps an invariant of the state and sets the flag
to `ok i`: the flag after the loop says that it was set before and that every
iteration succeeded. -/
theorem forWhileSucceeded_flag {α : Type} (body : Nat → α → Bool × α) (ok : Nat → Bool)
    (Inv : α → Prop) (N : Nat)
    (hstep : ∀ i < N, ∀ a, Inv a → Inv (body i a).2 ∧ (body i a).1 = ok i)
    (b : Bool) (a : α) (ha : Inv a) (n : Nat) (hn : n ≤ N) :
    Inv (forWhileSucceeded n body (b, a)).2 ∧
      ((forWhileSucceeded n body (b, a)).1 = true ↔ b = true ∧ ∀ i < n, ok i = true) := by
  induction n with
  | zero => simp [forWhileSucceeded, ha]
  | succ n ih =>
    obtain ⟨hinv, hflag⟩ := ih (by omega)
    rw [forWhileSucceeded_succ]
    by_cases h : (forWhileSucceeded n body (b, a)).1 = true
    · obtain ⟨h1, h2⟩ := hstep n (by omega) _ hinv
      rw [if_pos h]
      refine ⟨h1, ?_⟩
      rw [h2]
      obtain ⟨hb, hall⟩ := hflag.1 h
      constructor
      · intro hok
        refine ⟨hb, fun i hi => ?_⟩
        rcases Nat.lt_succ_iff_lt_or_eq.1 hi with hlt | heq
        · exact hall i hlt
        · rw [heq]; exact hok
      · intro hall2
        exact hall2.2 n (by omega)
    · rw [if_neg h]
      refine ⟨hinv, ?_⟩
      constructor
      · intro h3; exact absurd h3 h
      · intro hall2
        exact absurd (hflag.2 ⟨hall2.1, fun i hi => hall2.2 i (by omega)⟩) h

theorem loadShader_eq_zero (compiles : Bool) (i : Nat) :
    loadShader compiles (i + 1) = 0 ↔ compiles = false := by
  cases compiles <;> simp [loadShader]

/-- The flag with which the program loop of `ShaderManager::init` starts: every
vertex shader and every fragment shader compiles. -/
theorem loadAllShaders_flag (env : ShaderEnvironment) :
    (loadAllShaders env).1 = true ↔
      (∀ i < env.vs_count, env.compileVertexShader i = true) ∧
        ∀ i < env.fs_count, env.compileFragmentShader i = true := by
  have hv := forWhileSucceeded_flag
    (fun i (vertexShaders : List Nat) =>
      ((if (vertexShaders.set i (loadShader (env.compileVertexShader i) (i + 1))).getD i 0 = 0
          then false else true),
        vertexShaders.set i (loadShader (env.compileVertexShader i) (i + 1))))
    env.compileVertexShader (fun l => l.length = env.vs_count) env.vs_count
    (by
      intro i hi a ha
      refine ⟨by simp [ha], ?_⟩
      have hia : i < a.length := by omega
      cases h : env.compileVertexShader i <;>
        simp [List.getD_eq_getElem?_getD, hia, loadShader, h])
    true (List.replicate env.vs_count 0) (by simp) env.vs_count (le_refl _)
  have hf := fun b => forWhileSucceeded_flag
    (fun i (fragmentShaders : List Nat) =>
      ((if (fragmentShaders.set i
            (loadShader (env.compileFragmentShader i) (i + 1))).getD i 0 = 0
          then false else true),
        fragmentShaders.set i (loadShader (env.compileFragmentShader i) (i + 1))))
    env.compileFragmentShader (fun l => l.length = env.fs_count) env.fs_count
    (by
      intro i hi a ha
      refine ⟨by simp [ha], ?_⟩
      have hia : i < a.length := by omega
      cases h : env.compileFragmentShader i <;>
        simp [List.getD_eq_getElem?_getD, hia, loadShader, h])
    b (List.replicate env.fs_count 0) (by simp) env.fs_count (le_refl _)
  unfold loadAllShaders
  dsimp only
  rw [(hf _).2, hv.2]
  simp

theorem ShaderManager.init_eq (env : ShaderEnvironment) (m : ShaderManager) :
    m.init env =
      ((forWhileSucceeded env.program_count
          (fun i (mPrograms : List (Option PathfinderShaderProgram)) =>
            match loadProgram env i with
            | some program => (true, mPrograms.set i (some program))
            | none => (false, mPrograms))
          ((loadAllShaders env).1, m.mPrograms)).1,
        ⟨(forWhileSucceeded env.program_count
          (fun i (mPrograms : List (Option PathfinderShaderProgram)) =>
            match loadProgram env i with
            | some program => (true, mPrograms.set i (some program))
            | none => (false, mPrograms))
          ((loadAllShaders env).1, m.mPrograms)).2⟩) := rfl

/-- The program loop of `ShaderManager::init` after `n` iterations, from a table
of `N` null pointers: the flag says that it was set before and that the first
`n` programs link, and slot `i` holds a program exactly when iteration `i` ran
with the flag set and its program linked. -/
theorem programLoop_spec (env : ShaderEnvironment) (b : Bool) (N n : Nat) (hn : n ≤ N) :
    (forWhileSucceeded n
        (fun i (mPrograms : List (Option PathfinderShaderProgram)) =>
          match loadProgram env i with
          | some program => (true, mPrograms.set i (some program))
          | none => (false, mPrograms))
        (b, List.replicate N none)).2.length = N ∧
      ((forWhileSucceeded n
        (fun i (mPrograms : List (Option PathfinderShaderProgram)) =>
          match loadProgram env i with
          | some program => (true, mPrograms.set i (some program))
          | none => (false, mPrograms))
        (b, List.replicate N none)).1 = true ↔
          b = true ∧ ∀ i < n, (loadProgram env i).isSome = true) ∧
      ∀ i < N, ∀ program,
        (forWhileSucceeded n
          (fun i (mPrograms : List (Option PathfinderShaderProgram)) =>
            match loadProgram env i with
            | some program => (true, mPrograms.set i (some program))
            | none => (false, mPrograms))
          (b, List.replicate N none)).2.getD i none = some program ↔
            b = true ∧ i < n ∧ (∀ j < i, (loadProgram env j).isSome = true) ∧
              loadProgram env i = some program := by
  induction n with
  | zero =>
    refine ⟨by simp [forWhileSucceeded], by simp [forWhileSucceeded], ?_⟩
    intro i hi program
    simp [forWhileSucceeded, List.getD_eq_getElem?_getD, hi]
  | succ n ih =>
    obtain ⟨hlen, hflag, htable⟩ := ih (by omega)
    rw [forWhileSucceeded_succ]
    by_cases h : (forWhileSucceeded n
        (fun i (mPrograms : List (Option PathfinderShaderProgram)) =>
          match loadProgram env i with
          | some program => (true, mPrograms.set i (some program))
          | none => (false, mPrograms))
        (b, List.replicate N none)).1 = true
    · rw [if_pos h]
      obtain ⟨hb, hall⟩ := hflag.1 h
      cases hp : loadProgram env n with
      | none =>
        dsimp only
        refine ⟨hlen, ?_, ?_⟩
        · constructor
          · intro h3; exact absurd h3 (by simp)
          · intro h3
            have := h3.2 n (by omega)
            rw [hp] at this
            exact absurd this (by simp)
        · intro i hi program
          rw [htable i hi program]
          constructor
          · rintro ⟨h1, h2, h3, h4⟩
            exact ⟨h1, by omega, h3, h4⟩
          · rintro ⟨h1, h2, h3, h4⟩
            refine ⟨h1, ?_, h3, h4⟩
            rcases Nat.lt_succ_iff_lt_or_eq.1 h2 with hlt | heq
            · exact hlt
            · rw [heq, hp] at h4
              exact absurd h4 (by simp)
      | some q =>
        dsimp only
        refine ⟨by simp [hlen], ?_, ?_⟩
        · constructor
          · intro _
            refine ⟨hb, fun i hi => ?_⟩
            rcases Nat.lt_succ_iff_lt_or_eq.1 hi with hlt | heq
            · exact hall i hlt
            · rw [heq, hp]; rfl
          · intro _; rfl
        · intro i hi program
          by_cases hin : n = i
          · subst hin
            have hnl : n < (forWhileSucceeded n
                (fun i (mPrograms : List (Option PathfinderShaderProgram)) =>
                  match loadProgram env i with
                  | some program => (true, mPrograms.set i (some program))
                  | none => (false, mPrograms))
                (b, List.replicate N none)).2.length := by omega
            rw [List.getD_eq_getElem?_getD, List.getElem?_set_self hnl]
            simp only [Option.getD_some, hp, Option.some.injEq]
            constructor
            · intro h3
              exact ⟨hb, by omega, fun j hj => hall j hj, h3⟩
            · intro h3; exact h3.2.2.2
          · rw [List.getD_eq_getElem?_getD, List.getElem?_set_ne hin,
              ← List.getD_eq_getElem?_getD, htable i hi program]
            constructor
            · rintro ⟨h1, h2, h3, h4⟩
              exact ⟨h1, by omega, h3, h4⟩
            · rintro ⟨h1, h2, h3, h4⟩
              exact ⟨h1, by omega, h3, h4⟩
    · rw [if_neg h]
      refine ⟨hlen, ?_, ?_⟩
      · constructor
        · intro h3; exact absurd h3 h
        · intro h3
          exact absurd (hflag.2 ⟨h3.1, fun i hi => h3.2 i (by omega)⟩) h
      · intro i hi program
        rw [htable i hi program]
        constructor
        · rintro ⟨h1, h2, h3, h4⟩
          exact ⟨h1, by omega, h3, h4⟩
        · rintro ⟨h1, h2, h3, h4⟩
          refine ⟨h1, ?_, h3, h4⟩
          by_contra hlt
          have hni : n ≤ i := by omega
          apply h
          apply hflag.2
          refine ⟨h1, fun j hj => ?_⟩
          rcases Nat.lt_or_ge j i with hji | hji
          · exact h3 j hji
          · have : j = i := by omega
            rw [this, h4]; rfl

/-! ## The buffer-texture caches -/

theorem resize_length {β : Type} (v : List (Option β)) (n : Nat) :
    (resize v n).length = n := by
  simp [resize]; omega

theorem resize_getD {β : Type} (v : List (Option β)) (n i : Nat) (hi : i < n) :
    (resize v n).getD i none = v.getD i none := by
  simp only [resize, List.getD_eq_getElem?_getD]
  by_cases h : i < v.length
  · rw [List.getElem?_append_left (by simp; omega), List.getElem?_take_of_lt hi]
  · rw [List.getElem?_append_right (by simp; omega),
      List.getElem?_eq_none (l := v) (not_lt.1 h)]
    rw [List.getElem?_replicate]
    split <;> rfl

theorem getD_set_self {β : Type} (v : List (Option β)) (i : Nat) (x : Option β)
    (hi : i < v.length) : (v.set i x).getD i none = x := by
  simp [List.getD_eq_getElem?_getD, hi]

theorem getD_set_ne {β : Type} (v : List (Option β)) (i j : Nat) (x : Option β)
    (hij : i ≠ j) : (v.set i x).getD j none = v.getD j none := by
  simp [List.getD_eq_getElem?_getD, List.getElem?_set_ne hij]

/-- The loop of `uploadPathColors` after `k` iterations. -/
theorem uploadPathColors_loop {δ : Type} (f : Int → δ) (s₀ : BufferTextures δ) (k : Nat)
    (hk : k ≤ s₀.mPathColorsBufferTextures.length) :
    ((List.range k).foldl (uploadPathColorsOfObject f) s₀).mPathColorsBufferTextures.length =
        s₀.mPathColorsBufferTextures.length ∧
      (∀ i, k ≤ i →
        ((List.range k).foldl (uploadPathColorsOfObject f)
          s₀).mPathColorsBufferTextures.getD i none =
            s₀.mPathColorsBufferTextures.getD i none) ∧
      (∀ i, i < k → ∀ t, s₀.mPathColorsBufferTextures.getD i none = some t →
        ((List.range k).foldl (uploadPathColorsOfObject f)
          s₀).mPathColorsBufferTextures.getD i none = some t) ∧
      (∀ i, i < k → s₀.mPathColorsBufferTextures.getD i none = none →
        ∃ t, ((List.range k).foldl (uploadPathColorsOfObject f)
          s₀).mPathColorsBufferTextures.getD i none = some t ∧ s₀.created ≤ t ∧
            t < ((List.range k).foldl (uploadPathColorsOfObject f) s₀).created) ∧
      ((List.range k).foldl (uploadPathColorsOfObject f) s₀).created =
        s₀.created + (List.range k).countP
          (fun i => (s₀.mPathColorsBufferTextures.getD i none).isNone) ∧
      ((List.range k).foldl (uploadPathColorsOfObject f) s₀).uploads =
        s₀.uploads ++ (List.range k).map (fun i =>
          ((((List.range k).foldl (uploadPathColorsOfObject f)
            s₀).mPathColorsBufferTextures.getD i none).getD 0, f i)) ∧
      ((List.range k).foldl (uploadPathColorsOfObject f) s₀).mPathTransformBufferTextures =
        s₀.mPathTransformBufferTextures := by
  induction k with
  | zero => simp
  | succ k ih =>
    obtain ⟨hlen, hrest, hkept, hnew, hcreated, huploads, hother⟩ := ih (by omega)
    rw [List.range_succ, List.foldl_append, List.foldl_cons, List.foldl_nil]
    generalize (List.range k).foldl (uploadPathColorsOfObject f) s₀ = s at *
    have hk2 : k < s.mPathColorsBufferTextures.length := by omega
    have hmono : s₀.created ≤ s.created := by omega
    cases hslot : s₀.mPathColorsBufferTextures.getD k none with
    | none =>
      have hs : s.mPathColorsBufferTextures.getD k none = none := by
        rw [hrest k (le_refl _), hslot]
      have hstep : uploadPathColorsOfObject f s k =
          { s with
            mPathColorsBufferTextures := s.mPathColorsBufferTextures.set k (some s.created)
            created := s.created + 1
            uploads := s.uploads ++ [(s.created, f k)] } := by
        simp only [uploadPathColorsOfObject, hs, makeBufferTexture, upload]
      rw [hstep]
      refine ⟨by simp [hlen], ?_, ?_, ?_, ?_, ?_, hother⟩
      · intro i hi
        show (s.mPathColorsBufferTextures.set k (some s.created)).getD i none = _
        rw [getD_set_ne _ _ _ _ (by omega), hrest i (by omega)]
      · intro i hi t ht
        show (s.mPathColorsBufferTextures.set k (some s.created)).getD i none = _
        have hik : k ≠ i := by
          intro h; rw [← h, hslot] at ht; exact absurd ht (by simp)
        rw [getD_set_ne _ _ _ _ hik]
        exact hkept i (by omega) t ht
      · intro i hi hnone
        show ∃ t, (s.mPathColorsBufferTextures.set k (some s.created)).getD i none = some t ∧
          s₀.created ≤ t ∧ t < s.created + 1
        by_cases hik : k = i
        · subst hik
          exact ⟨s.created, getD_set_self _ _ _ hk2, hmono, by omega⟩
        · obtain ⟨t, h1, h2, h3⟩ := hnew i (by omega) hnone
          exact ⟨t, by rw [getD_set_ne _ _ _ _ hik, h1], h2, by omega⟩
      · show s.created + 1 = _
        rw [List.countP_append, hcreated]
        simp [-List.getD_eq_getElem?_getD, List.countP_cons, hslot]
        omega
      · show s.uploads ++ [(s.created, f k)] = _
        rw [huploads, List.map_append, List.append_assoc]
        congr 1
        congr 1
        · apply List.map_congr_left
          intro i hi
          have hik : k ≠ i := by
            have := List.mem_range.1 hi
            omega
          show _ = (((s.mPathColorsBufferTextures.set k (some s.created)).getD i none).getD 0, f i)
          rw [getD_set_ne _ _ _ _ hik]
        · show _ = [(((s.mPathColorsBufferTextures.set k (some s.created)).getD k none).getD 0,
            f k)]
          rw [getD_set_self _ _ _ hk2]
          rfl
    | some t =>
      have hs : s.mPathColorsBufferTextures.getD k none = some t := by
        rw [hrest k (le_refl _), hslot]
      have hstep : uploadPathColorsOfObject f s k =
          { s with uploads := s.uploads ++ [(t, f k)] } := by
        simp only [uploadPathColorsOfObject, hs, upload]
      rw [hstep]
      refine ⟨hlen, ?_, ?_, ?_, ?_, ?_, hother⟩
      · intro i hi
        exact hrest i (by omega)
      · intro i hi u hu
        show s.mPathColorsBufferTextures.getD i none = some u
        by_cases hik : i = k
        · rw [hik, hs, ← hslot, ← hik, hu]
        · exact hkept i (by omega) u hu
      · intro i hi hnone
        have hik : i ≠ k := by
          intro h; rw [h, hslot] at hnone; exact absurd hnone (by simp)
        exact hnew i (by omega) hnone
      · show s.created = _
        rw [List.countP_append, hcreated]
        simp [-List.getD_eq_getElem?_getD, List.countP_cons, hslot]
      · show s.uploads ++ [(t, f k)] = _
        rw [huploads, List.map_append, List.append_assoc]
        congr 1
        congr 1
        show _ = [((s.mPathColorsBufferTextures.getD k none).getD 0, f k)]
        rw [hs]
        rfl


/-- The loop of `uploadPathTransforms` after `k` iterations. -/
theorem uploadPathTransforms_loop {δ : Type} (f : Int → PathTransformBuffers δ)
    (s₀ : BufferTextures δ) (k : Nat)
    (hk : k ≤ s₀.mPathTransformBufferTextures.length) :
    ((List.range k).foldl (uploadPathTransformsOfObject f)
        s₀).mPathTransformBufferTextures.length =
        s₀.mPathTransformBufferTextures.length ∧
      (∀ i, k ≤ i →
        ((List.range k).foldl (uploadPathTransformsOfObject f)
          s₀).mPathTransformBufferTextures.getD i none =
            s₀.mPathTransformBufferTextures.getD i none) ∧
      (∀ i, i < k → ∀ t, s₀.mPathTransformBufferTextures.getD i none = some t →
        ((List.range k).foldl (uploadPathTransformsOfObject f)
          s₀).mPathTransformBufferTextures.getD i none = some t) ∧
      (∀ i, i < k → s₀.mPathTransformBufferTextures.getD i none = none →
        ∃ t, ((List.range k).foldl (uploadPathTransformsOfObject f)
          s₀).mPathTransformBufferTextures.getD i none = some t ∧ s₀.created ≤ t.st ∧
            t.st ≠ t.ext ∧ s₀.created ≤ t.ext ∧
            t.st < ((List.range k).foldl (uploadPathTransformsOfObject f) s₀).created ∧
            t.ext < ((List.range k).foldl (uploadPathTransformsOfObject f) s₀).created) ∧
      ((List.range k).foldl (uploadPathTransformsOfObject f) s₀).created =
        s₀.created + 2 * (List.range k).countP
          (fun i => (s₀.mPathTransformBufferTextures.getD i none).isNone) ∧
      ((List.range k).foldl (uploadPathTransformsOfObject f) s₀).uploads =
        s₀.uploads ++ (List.range k).flatMap (fun i =>
          [(((((List.range k).foldl (uploadPathTransformsOfObject f)
              s₀).mPathTransformBufferTextures.getD i none).getD ⟨0, 0⟩).st, (f i).st),
            (((((List.range k).foldl (uploadPathTransformsOfObject f)
              s₀).mPathTransformBufferTextures.getD i none).getD ⟨0, 0⟩).ext, (f i).ext)]) ∧
      ((List.range k).foldl (uploadPathTransformsOfObject f) s₀).mPathColorsBufferTextures =
        s₀.mPathColorsBufferTextures := by
  induction k with
  | zero => simp
  | succ k ih =>
    obtain ⟨hlen, hrest, hkept, hnew, hcreated, huploads, hother⟩ := ih (by omega)
    rw [List.range_succ, List.foldl_append, List.foldl_cons, List.foldl_nil]
    generalize (List.range k).foldl (uploadPathTransformsOfObject f) s₀ = s at *
    have hk2 : k < s.mPathTransformBufferTextures.length := by omega
    have hmono : s₀.created ≤ s.created := by omega
    cases hslot : s₀.mPathTransformBufferTextures.getD k none with
    | none =>
      have hs : s.mPathTransformBufferTextures.getD k none = none := by
        rw [hrest k (le_refl _), hslot]
      have hstep : uploadPathTransformsOfObject f s k =
          { s with
            mPathTransformBufferTextures :=
              s.mPathTransformBufferTextures.set k (some ⟨s.created, s.created + 1⟩)
            created := s.created + 1 + 1
            uploads := s.uploads ++ [(s.created, (f k).st)] ++
              [(s.created + 1, (f k).ext)] } := by
        simp only [uploadPathTransformsOfObject, hs, makeBufferTexture, upload]
      rw [hstep]
      refine ⟨by simp [hlen], ?_, ?_, ?_, ?_, ?_, hother⟩
      · intro i hi
        show (s.mPathTransformBufferTextures.set k _).getD i none = _
        rw [getD_set_ne _ _ _ _ (by omega), hrest i (by omega)]
      · intro i hi t ht
        show (s.mPathTransformBufferTextures.set k _).getD i none = _
        have hik : k ≠ i := by
          intro h; rw [← h, hslot] at ht; exact absurd ht (by simp)
        rw [getD_set_ne _ _ _ _ hik]
        exact hkept i (by omega) t ht
      · intro i hi hnone
        show ∃ t, (s.mPathTransformBufferTextures.set k _).getD i none = some t ∧
          s₀.created ≤ t.st ∧ t.st ≠ t.ext ∧ s₀.created ≤ t.ext ∧
            t.st < s.created + 1 + 1 ∧ t.ext < s.created + 1 + 1
        by_cases hik : k = i
        · subst hik
          refine ⟨⟨s.created, s.created + 1⟩, getD_set_self _ _ _ hk2, ?_, ?_, ?_, ?_, ?_⟩ <;>
            simp <;> omega
        · obtain ⟨t, h1, h2, h3, h4, h5, h6⟩ := hnew i (by omega) hnone
          exact ⟨t, by rw [getD_set_ne _ _ _ _ hik, h1], h2, h3, h4, by omega, by omega⟩
      · show s.created + 1 + 1 = _
        rw [List.countP_append, hcreated]
        simp [-List.getD_eq_getElem?_getD, List.countP_cons, hslot]
        omega
      · show s.uploads ++ [(s.created, (f k).st)] ++ [(s.created + 1, (f k).ext)] = _
        rw [huploads, List.flatMap_append, List.append_assoc, List.append_assoc]
        congr 1
        congr 1
        · apply List.flatMap_congr
          intro i hi
          have hik : k ≠ i := by
            have := List.mem_range.1 hi
            omega
          dsimp only
          rw [getD_set_ne _ _ _ _ hik]
        · simp only [List.flatMap_cons, List.flatMap_nil, List.append_nil]
          rw [getD_set_self _ _ _ hk2]
          rfl
    | some t =>
      have hs : s.mPathTransformBufferTextures.getD k none = some t := by
        rw [hrest k (le_refl _), hslot]
      have hstep : uploadPathTransformsOfObject f s k =
          { s with uploads := s.uploads ++ [(t.st, (f k).st)] ++ [(t.ext, (f k).ext)] } := by
        simp only [uploadPathTransformsOfObject, hs, upload]
      rw [hstep]
      refine ⟨hlen, ?_, ?_, ?_, ?_, ?_, hother⟩
      · intro i hi
        exact hrest i (by omega)
      · intro i hi u hu
        show s.mPathTransformBufferTextures.getD i none = some u
        by_cases hik : i = k
        · rw [hik, hs, ← hslot, ← hik, hu]
        · exact hkept i (by omega) u hu
      · intro i hi hnone
        have hik : i ≠ k := by
          intro h; rw [h, hslot] at hnone; exact absurd hnone (by simp)
        exact hnew i (by omega) hnone
      · show s.created = _
        rw [List.countP_append, hcreated]
        simp [-List.getD_eq_getElem?_getD, List.countP_cons, hslot]
      · show s.uploads ++ [(t.st, (f k).st)] ++ [(t.ext, (f k).ext)] = _
        rw [huploads, List.flatMap_append, List.append_assoc, List.append_assoc]
        congr 1
        congr 1
        simp only [List.flatMap_cons, List.flatMap_nil, List.append_nil]
        rw [hs]
        rfl

theorem uploadPathColors_of_nonneg {δ : Type} (f : Int → δ) (n : Int)
    (s : BufferTextures δ) (hn : 0 ≤ n) :
    uploadPathColors f n s =
      some ((List.range n.toNat).foldl (uploadPathColorsOfObject f)
        { s with
          mPathColorsBufferTextures := resize s.mPathColorsBufferTextures n.toNat }) := by
  unfold uploadPathColors
  rw [if_neg (not_lt.2 hn)]

theorem uploadPathTransforms_of_nonneg {δ : Type} (f : Int → PathTransformBuffers δ)
    (n : Int) (s : BufferTextures δ) (hn : 0 ≤ n) :
    uploadPathTransforms f n s =
      some ((List.range n.toNat).foldl (uploadPathTransformsOfObject f)
        { s with
          mPathTransformBufferTextures :=
            resize s.mPathTransformBufferTextures n.toNat }) := by
  unfold uploadPathTransforms
  rw [if_neg (not_lt.2 hn)]

/-! ## Sequences of calls on a renderer -/

/-- The meshes and the mesh buffers have the same length, and there are mesh
buffers only when a strategy is set. -/
theorem run_operation_invariant {σ : Type} (S : AntialiasingStrategy σ)
    (r r' : Renderer σ) (op : Operation)
    (hinv : r.mMeshBuffers.length = r.mMeshes.length ∧
      (r.mMeshBuffers ≠ [] → r.mAntialiasingStrategy.isSome = true))
    (hrun : op.run S r = some r') :
    r'.mMeshBuffers.length = r'.mMeshes.length ∧
      (r'.mMeshBuffers ≠ [] → r'.mAntialiasingStrategy.isSome = true) := by
  have hset : ∀ aaType aaLevel aaOptions,
      (setAntialiasingOptions S r aaType aaLevel aaOptions).result = some r' →
        r'.mMeshBuffers.length = r'.mMeshes.length ∧
          (r'.mMeshBuffers ≠ [] → r'.mAntialiasingStrategy.isSome = true) := by
    intro aaType aaLevel aaOptions h
    cases hnew : r.createAAStrategy aaType aaLevel aaOptions.subpixelAA
        aaOptions.stemDarkening with
    | none =>
      unfold setAntialiasingOptions at h
      simp only [hnew] at h
      exact absurd h (by simp [Completion.result])
    | some s =>
      rw [setAntialiasingOptions_of_strategy S r aaType aaLevel aaOptions s hnew] at h
      simp only [Completion.result, Option.some.injEq] at h
      subst h
      exact ⟨hinv.1, fun _ => rfl⟩
  cases op with
  | init aaType aaLevel aaOptions => exact hset aaType aaLevel aaOptions hrun
  | setAntialiasingOptions aaType aaLevel aaOptions =>
    exact hset aaType aaLevel aaOptions hrun
  | attachMeshes meshes =>
    have h : (attachMeshes S r meshes).result = some r' := hrun
    cases hs : r.mAntialiasingStrategy with
    | none =>
      unfold attachMeshes at h
      simp only [hs] at h
      exact absurd h (by simp [Completion.result])
    | some s =>
      rw [attachMeshes_of_strategy S r s meshes hs] at h
      simp only [Completion.result, Option.some.injEq] at h
      subst h
      exact ⟨by simp, fun _ => rfl⟩
  | renderAtlas =>
    have h : (renderAtlas S r).renderer = some r' := hrun
    unfold renderAtlas at h
    by_cases h0 : r.mMeshBuffers.length = 0
    · rw [if_pos h0] at h
      simp only [Option.some.injEq] at h
      subst h
      exact hinv
    · rw [if_neg h0] at h
      cases hs : r.mAntialiasingStrategy with
      | none =>
        simp only [hs] at h
        exact absurd h (by simp)
      | some s =>
        simp only [hs] at h
        split at h <;>
        · simp only [Option.some.injEq] at h
          subst h
          exact ⟨hinv.1, fun _ => rfl⟩

theorem runOperations_invariant {σ : Type} (S : AntialiasingStrategy σ)
    (ops : List Operation) (r r' : Renderer σ)
    (hinv : r.mMeshBuffers.length = r.mMeshes.length ∧
      (r.mMeshBuffers ≠ [] → r.mAntialiasingStrategy.isSome = true))
    (hrun : runOperations S r ops = some r') :
    r'.mMeshBuffers.length = r'.mMeshes.length ∧
      (r'.mMeshBuffers ≠ [] → r'.mAntialiasingStrategy.isSome = true) := by
  induction ops generalizing r with
  | nil =>
    simp only [runOperations, Option.some.injEq] at hrun
    subst hrun
    exact hinv
  | cons op ops ih =>
    simp only [runOperations] at hrun
    cases hop : op.run S r with
    | none =>
      rw [hop] at hrun
      exact absurd hrun (by simp)
    | some r₁ =>
      rw [hop] at hrun
      exact ih r₁ (run_operation_invariant S r r₁ op hinv hop) hrun

/-- With mesh buffers only when a strategy is set, `renderAtlas` does not fail. -/
theorem renderAtlas_renderer_isSome {σ : Type} (S : AntialiasingStrategy σ)
    (r : Renderer σ)
    (h : r.mMeshBuffers ≠ [] → r.mAntialiasingStrategy.isSome = true) :
    (renderAtlas S r).renderer.isSome = true := by
  unfold renderAtlas
  by_cases h0 : r.mMeshBuffers.length = 0
  · rw [if_pos h0]; rfl
  · rw [if_neg h0]
    have hne : r.mMeshBuffers ≠ [] := fun hnil => h0 (by rw [hnil]; rfl)
    obtain ⟨s, hs⟩ := Option.isSome_iff_exists.1 (h hne)
    simp only [hs]
    split <;> rfl

theorem runOperations_append {σ : Type} (S : AntialiasingStrategy σ) (r : Renderer σ)
    (ops ops' : List Operation) :
    runOperations S r (ops ++ ops') =
      (runOperations S r ops).bind fun r => runOperations S r ops' := by
  induction ops generalizing r with
  | nil => rfl
  | cons op ops ih =>
    simp only [List.cons_append, runOperations]
    cases op.run S r with
    | none => rfl
    | some r₁ => exact ih r₁

/-! ## The renderer: claims -/
/-- C7. With no mesh buffers attached, `renderAtlas` issues no call at all (no
framebuffer clear, no strategy call, no draw call) and returns with the
renderer unchanged, whether or not a strategy is set. -/
theorem renderAtlas_no_mesh_buffers {σ : Type} (S : AntialiasingStrategy σ)
    (r : Renderer σ) (h : r.mMeshBuffers = []) :
    renderAtlas S r = ⟨[], some r, true⟩ := by
  simp [renderAtlas, h]

/-- C7, at a renderer with no mesh buffers and no strategy. -/
theorem renderAtlas_no_mesh_buffers_witness :
    renderAtlas (countingStrategy 1 .drm_conservative)
        { sampleRenderer 0 with
          mAntialiasingStrategy := none } =
      ⟨[], some { sampleRenderer 0 with
          mAntialiasingStrategy := none }, true⟩ :=
  renderAtlas_no_mesh_buffers _ _ rfl

/-- C8. Frame call sequence: with mesh buffers attached and a strategy whose
direct rendering mode is `none`, `renderAtlas` returns and the calls it issues
are exactly `clearDestFramebuffer`, `prepareForRendering`, then for each pass in
order the calls `antialiasObject`, `finishAntialiasingObject`,
`resolveAAForObject` of every object in order followed by `resolve(pass)`, where
the pass count is read from the strategy after `prepareForRendering`. The
destination is cleared once, `resolve` is called `passCount` times and
`antialiasObject` `passCount * n` times. -/
theorem renderAtlas_frame_call_sequence {σ : Type} (S : AntialiasingStrategy σ)
    (r : Renderer σ) (s : σ) (hmesh : r.mMeshBuffers ≠ [])
    (hs : r.mAntialiasingStrategy = some s)
    (hmode : ∀ s, S.getDirectRenderingMode s = .drm_none) :
    (renderAtlas S r).renderer.isSome = true ∧
    (renderAtlas S r).calls =
      frameCallSequence (S.getPassCount (S.prepareForRendering s)).toNat
        r.getObjectCount.toNat ∧
    (renderAtlas S r).calls.count .clearDestFramebuffer = 1 ∧
    (renderAtlas S r).calls.countP Call.isResolve =
      (S.getPassCount (S.prepareForRendering s)).toNat ∧
    (renderAtlas S r).calls.countP Call.isAntialiasObject =
      (S.getPassCount (S.prepareForRendering s)).toNat * r.getObjectCount.toNat ∧
    (renderAtlas S r).returned = true := by
  obtain ⟨hcalls, hreturned, hsome⟩ := renderAtlas_of_none S r s hmesh hs hmode
  refine ⟨hsome, hcalls, ?_⟩
  rw [hcalls]
  obtain ⟨h1, h2, h3⟩ := frameCallSequence_counts
    (S.getPassCount (S.prepareForRendering s)).toNat r.getObjectCount.toNat
  exact ⟨h1, h2, h3, hreturned⟩

/-- C8, at two passes over two objects. -/
theorem renderAtlas_frame_call_sequence_witness :
    (renderAtlas (countingStrategy 2 .drm_none)
        (sampleRenderer 2)).calls =
      [.clearDestFramebuffer, .prepareForRendering,
        .antialiasObject 0, .finishAntialiasingObject 0, .resolveAAForObject 0,
        .antialiasObject 1, .finishAntialiasingObject 1, .resolveAAForObject 1,
        .resolve 0,
        .antialiasObject 0, .finishAntialiasingObject 0, .resolveAAForObject 0,
        .antialiasObject 1, .finishAntialiasingObject 1, .resolveAAForObject 1,
        .resolve 1] :=
  (renderAtlas_frame_call_sequence (countingStrategy 2 .drm_none)
    (sampleRenderer 2) 0 (by decide) rfl
    (fun _ => rfl)).2.1.trans (by decide)

/-- C10. Direct rendering is gated by the strategy's mode. With mesh buffers
attached and a strategy set, the calls of `renderAtlas` are
`clearDestFramebuffer`, `prepareForRendering` and then nothing but the calls of
the passes in order, those of a pass being `prepareForDirectRendering` when the
mode is not `none`, one block for each object in order, and `resolve(pass)`. The
block of an object is a block `direct` followed by `antialiasObject`,
`finishAntialiasingObject`, `resolveAAForObject` of that object.
`directlyRenderObject(pass, objectIndex)` is in the block exactly when the mode
of the strategy, in the state in which it is when the block begins, is not
`none`; `direct` is then `prepareToRenderObject`, `clearForDirectRendering`,
`directlyRenderObject` and the draw and finishing calls of the latter, and it is
empty otherwise: the direct rendering precedes the antialiasing of the same
object in the same pass, and no call of the frame lies outside these blocks.
When `renderAtlas` returns these are all its calls (`rest` is empty); when it is
aborted inside `directlyRenderObject`, its calls are the beginning of such a
sequence, `rest` being the calls it did not get to. -/
theorem renderAtlas_direct_rendering_gated {σ : Type} (S : AntialiasingStrategy σ)
    (r : Renderer σ) (s₀ : σ) (hmesh : r.mMeshBuffers ≠ [])
    (hs : r.mAntialiasingStrategy = some s₀) :
    ∃ rest, FrameBlocks S (DirectRenderingGated S)
        (S.getPassCount (S.prepareForRendering s₀)).toNat r.getObjectCount.toNat s₀
        ((renderAtlas S r).calls ++ rest) ∧
      ((renderAtlas S r).returned = true → rest = []) :=
  renderAtlas_blocks_beginning S r s₀ hmesh hs

/-- C10, at a frame of one pass over two objects under a strategy whose direct
rendering mode is `conservative`: `renderAtlas` returns, and its calls are those
of a frame in blocks. -/
theorem renderAtlas_direct_rendering_gated_witness :
    (renderAtlas (countingStrategy 1 .drm_conservative) (sampleRenderer 2)).calls =
      [.clearDestFramebuffer, .prepareForRendering, .prepareForDirectRendering,
        .prepareToRenderObject 0, .clearForDirectRendering 0,
        .directlyRenderObject 0 0, .glDrawElements, .finishDirectlyRenderingObject 0,
        .antialiasObject 0, .finishAntialiasingObject 0, .resolveAAForObject 0,
        .prepareToRenderObject 1, .clearForDirectRendering 1,
        .directlyRenderObject 0 1, .glDrawElements, .finishDirectlyRenderingObject 1,
        .antialiasObject 1, .finishAntialiasingObject 1, .resolveAAForObject 1,
        .resolve 0] ∧
    FrameBlocks (countingStrategy 1 .drm_conservative)
      (DirectRenderingGated (countingStrategy 1 .drm_conservative)) 1 2 0
      (renderAtlas (countingStrategy 1 .drm_conservative) (sampleRenderer 2)).calls :=
  ⟨by decide,
    match renderAtlas_direct_rendering_gated (countingStrategy 1 .drm_conservative)
      (sampleRenderer 2) 0 (by decide) rfl with
    | ⟨rest, hblocks, hrest⟩ => by
      rw [hrest (by decide), List.append_nil] at hblocks
      exact hblocks⟩

/-- C11 fails under a strategy whose direct rendering mode is `none`: in a frame
of one pass over one object the strategy receives `antialiasObject(0)`,
`finishAntialiasingObject(0)` and `resolveAAForObject(0)`, and no
`prepareToRenderObject(0)`. -/
theorem renderAtlas_none_no_prepareToRenderObject :
    (renderAtlas (countingStrategy 1 .drm_none)
        (sampleRenderer 1)).calls =
      [.clearDestFramebuffer, .prepareForRendering,
        .antialiasObject 0, .finishAntialiasingObject 0, .resolveAAForObject 0,
        .resolve 0] ∧
    Call.prepareToRenderObject 0 ∉
      (renderAtlas (countingStrategy 1 .drm_none)
        (sampleRenderer 1)).calls := by
  decide

/-- C11, amended. With mesh buffers attached and a strategy set, the calls of
`renderAtlas` are `clearDestFramebuffer`, `prepareForRendering` and then
nothing but the calls of the passes in order, those of a pass being
`prepareForDirectRendering` when the mode is not `none`, one block for each
object in order, and `resolve(pass)`. The block of an object ends with
`antialiasObject`, `finishAntialiasingObject`, `resolveAAForObject` of that
object, consecutively and in this order. `prepareToRenderObject(objectIndex)`
is in the block exactly when the mode of the strategy, in the state in which it
is when the block begins, is not `none`: it is then the first call of the block,
and the only call the strategy receives between it and `antialiasObject` is
`finishDirectlyRenderingObject(objectIndex)`; with the mode `none` the block is
the three antialiasing calls alone. When `renderAtlas` returns these are all its
calls (`rest` is empty); when it is aborted inside `directlyRenderObject`, its
calls are the beginning of such a sequence, `rest` being the calls it did not
get to. -/
theorem renderAtlas_object_protocol {σ : Type} (S : AntialiasingStrategy σ)
    (r : Renderer σ) (s₀ : σ) (hmesh : r.mMeshBuffers ≠ [])
    (hs : r.mAntialiasingStrategy = some s₀) :
    ∃ rest, FrameBlocks S (ObjectProtocol S)
        (S.getPassCount (S.prepareForRendering s₀)).toNat r.getObjectCount.toNat s₀
        ((renderAtlas S r).calls ++ rest) ∧
      ((renderAtlas S r).returned = true → rest = []) :=
  match renderAtlas_blocks_beginning S r s₀ hmesh hs with
  | ⟨rest, hblocks, hrest⟩ =>
    ⟨rest, frameBlocks_mono S (objectProtocol_of_directRenderingGated S) _ _ _ _ hblocks,
      hrest⟩

/-- C11, amended, at a frame of one pass over two objects under a strategy whose
direct rendering mode is neither `none` nor `conservative`: `renderAtlas`
returns, and its calls are those of a frame in blocks. -/
theorem renderAtlas_object_protocol_witness :
    (renderAtlas (countingStrategy 1 .drm_other) (sampleRenderer 2)).calls =
      [.clearDestFramebuffer, .prepareForRendering, .prepareForDirectRendering,
        .prepareToRenderObject 0, .clearForDirectRendering 0,
        .directlyRenderObject 0 0, .glDrawElements, .glDrawArrays,
        .finishDirectlyRenderingObject 0,
        .antialiasObject 0, .finishAntialiasingObject 0, .resolveAAForObject 0,
        .prepareToRenderObject 1, .clearForDirectRendering 1,
        .directlyRenderObject 0 1, .glDrawElements, .glDrawArrays,
        .finishDirectlyRenderingObject 1,
        .antialiasObject 1, .finishAntialiasingObject 1, .resolveAAForObject 1,
        .resolve 0] ∧
    FrameBlocks (countingStrategy 1 .drm_other)
      (ObjectProtocol (countingStrategy 1 .drm_other)) 1 2 0
      (renderAtlas (countingStrategy 1 .drm_other) (sampleRenderer 2)).calls :=
  ⟨by decide,
    match renderAtlas_object_protocol (countingStrategy 1 .drm_other)
      (sampleRenderer 2) 0 (by decide) rfl with
    | ⟨rest, hblocks, hrest⟩ => by
      rw [hrest (by decide), List.append_nil] at hblocks
      exact hblocks⟩

/-- C12. `attachMeshes` requires an active strategy: with no strategy set the
program is aborted by the assertion before anything else happens, with no call
issued and the renderer, its `mMeshes` and `mMeshBuffers` included, exactly as it
was; with a strategy set `attachMeshes` returns. -/
theorem attachMeshes_requires_strategy {σ : Type} (S : AntialiasingStrategy σ)
    (r : Renderer σ) (ms : List PathfinderPackedMeshes) :
    (r.mAntialiasingStrategy = none → attachMeshes S r ms = .aborted [] r) ∧
    (∀ s, r.mAntialiasingStrategy = some s → (attachMeshes S r ms).isReturned = true) := by
  constructor
  · intro h
    unfold attachMeshes
    rw [h]
  · intro s h
    rw [attachMeshes_of_strategy S r s ms h]
    rfl

/-- C12, at a renderer without a strategy and at one with a strategy. -/
theorem attachMeshes_requires_strategy_witness :
    attachMeshes (countingStrategy 1 .drm_none)
        { sampleRenderer 1 with
          mAntialiasingStrategy := none } [sampleMesh, sampleMesh] =
      .aborted [] { sampleRenderer 1 with
          mAntialiasingStrategy := none } ∧
    (attachMeshes (countingStrategy 1 .drm_none)
        (sampleRenderer 1)
        [sampleMesh, sampleMesh]).isReturned = true :=
  ⟨(attachMeshes_requires_strategy _ _ _).1 rfl,
    (attachMeshes_requires_strategy _ _ _).2 0 rfl⟩

/-- C13. With a strategy set, `attachMeshes(ms)` returns with `mMeshes` equal to
`ms` and `mMeshBuffers` the list of the buffers built from `ms[0]`, `ms[1]`, ...
(as many entries as `ms`, none of the previous attachment); the strategy has
received `attachMeshes` exactly once, with the renderer holding the new meshes
and buffers, and no other call; and `getMeshesAttached()` is true exactly when
`ms` is not empty. -/
theorem attachMeshes_replaces_meshes {σ : Type} (S : AntialiasingStrategy σ)
    (r : Renderer σ) (s : σ) (ms : List PathfinderPackedMeshes)
    (hs : r.mAntialiasingStrategy = some s) :
    (attachMeshes S r ms).isReturned = true ∧
    (attachMeshes S r ms).renderer.mMeshes = ms ∧
    (attachMeshes S r ms).renderer.mMeshBuffers =
      ms.map PathfinderPackedMeshBuffers.ofMeshes ∧
    (attachMeshes S r ms).renderer.mMeshBuffers.length = ms.length ∧
    (∀ i : Nat, (attachMeshes S r ms).renderer.mMeshBuffers[i]? =
      ms[i]?.map PathfinderPackedMeshBuffers.ofMeshes) ∧
    (attachMeshes S r ms).calls =
      [.attachMeshes ms (ms.map PathfinderPackedMeshBuffers.ofMeshes)] ∧
    (attachMeshes S r ms).renderer.mAntialiasingStrategy =
      some (S.attachMeshes ms (ms.map PathfinderPackedMeshBuffers.ofMeshes) s) ∧
    ((attachMeshes S r ms).renderer.getMeshesAttached = true ↔ ms ≠ []) := by
  rw [attachMeshes_of_strategy S r s ms hs]
  refine ⟨rfl, rfl, rfl, by simp [Completion.renderer], ?_, rfl, rfl, ?_⟩
  · intro i
    simp [Completion.renderer, List.getElem?_map]
  · cases ms <;> simp [Completion.renderer, Renderer.getMeshesAttached]

/-- C13, at a renderer holding one mesh to which two meshes are attached. -/
theorem attachMeshes_replaces_meshes_witness :
    (attachMeshes (countingStrategy 1 .drm_none)
        (sampleRenderer 1)
        [sampleMesh, sampleMesh]).renderer.mMeshBuffers =
      [sampleMeshBuffers, sampleMeshBuffers] ∧
    (attachMeshes (countingStrategy 1 .drm_none)
        (sampleRenderer 1)
        [sampleMesh, sampleMesh]).calls =
      [.attachMeshes [sampleMesh, sampleMesh] [sampleMeshBuffers, sampleMeshBuffers]] :=
  have h := attachMeshes_replaces_meshes (countingStrategy 1 .drm_none)
    (sampleRenderer 1) 0 [sampleMesh, sampleMesh] rfl
  ⟨h.2.2.1, h.2.2.2.2.2.1⟩

/-- C14. `setAntialiasingOptions` leaves `mMeshes` and `mMeshBuffers` as they
were, whatever its arguments and whether or not the factory returns a strategy;
`getMeshesAttached()` has the same value after the call as before it, so it is
true after the call if it was true before. -/
theorem setAntialiasingOptions_keeps_meshes {σ : Type} (S : AntialiasingStrategy σ)
    (r : Renderer σ) (aaType : AntialiasingStrategyName) (aaLevel : Int)
    (aaOptions : AAOptions) :
    (setAntialiasingOptions S r aaType aaLevel aaOptions).renderer.mMeshes = r.mMeshes ∧
    (setAntialiasingOptions S r aaType aaLevel aaOptions).renderer.mMeshBuffers =
      r.mMeshBuffers ∧
    (setAntialiasingOptions S r aaType aaLevel aaOptions).renderer.getMeshesAttached =
      r.getMeshesAttached ∧
    (r.getMeshesAttached = true →
      (setAntialiasingOptions S r aaType aaLevel aaOptions).renderer.getMeshesAttached =
        true) := by
  have h : (setAntialiasingOptions S r aaType aaLevel aaOptions).renderer.mMeshes =
        r.mMeshes ∧
      (setAntialiasingOptions S r aaType aaLevel aaOptions).renderer.mMeshBuffers =
        r.mMeshBuffers := by
    cases hnew : r.createAAStrategy aaType aaLevel aaOptions.subpixelAA
        aaOptions.stemDarkening with
    | none =>
      unfold setAntialiasingOptions
      simp only [hnew]
      exact ⟨rfl, rfl⟩
    | some s =>
      rw [setAntialiasingOptions_of_strategy S r aaType aaLevel aaOptions s hnew]
      exact ⟨rfl, rfl⟩
  have hatt : (setAntialiasingOptions S r aaType aaLevel
      aaOptions).renderer.getMeshesAttached = r.getMeshesAttached := by
    unfold Renderer.getMeshesAttached
    rw [h.1, h.2]
  exact ⟨h.1, h.2, hatt, fun hb => hatt.trans hb⟩

/-- C14, at a renderer with two meshes attached. -/
theorem setAntialiasingOptions_keeps_meshes_witness :
    (setAntialiasingOptions (countingStrategy 1 .drm_none)
      (sampleRenderer 2) 3 4
      ⟨0, 0, 0⟩).renderer.getMeshesAttached = true :=
  (setAntialiasingOptions_keeps_meshes (countingStrategy 1 .drm_none)
    (sampleRenderer 2) 3 4 ⟨0, 0, 0⟩).2.2.2 (by decide)

/-- C15. Strategy replacement protocol. When the factory returns the strategy
object `s`, `setAntialiasingOptions` returns; the calls it issues are `init`,
then `attachMeshes` exactly when `mMeshes` is not empty, then
`setFramebufferSize`; the active strategy afterwards is `s` after these calls,
so they were issued on the new object; the previous strategy has no part in the
result; and the gamma correction mode is `aaOptions.gammaCorrection`. -/
theorem setAntialiasingOptions_protocol {σ : Type} (S : AntialiasingStrategy σ)
    (r : Renderer σ) (aaType : AntialiasingStrategyName) (aaLevel : Int)
    (aaOptions : AAOptions) (s : σ)
    (hnew : r.createAAStrategy aaType aaLevel aaOptions.subpixelAA
      aaOptions.stemDarkening = some s) :
    (setAntialiasingOptions S r aaType aaLevel aaOptions).isReturned = true ∧
    (setAntialiasingOptions S r aaType aaLevel aaOptions).calls =
      [.init] ++ (if r.mMeshes ≠ [] then
          [Call.attachMeshes r.mMeshes r.mMeshBuffers] else []) ++ [.setFramebufferSize] ∧
    (setAntialiasingOptions S r aaType aaLevel aaOptions).renderer.mAntialiasingStrategy =
      some (S.setFramebufferSize
        (if r.mMeshes ≠ [] then S.attachMeshes r.mMeshes r.mMeshBuffers (S.init s)
          else S.init s)) ∧
    (setAntialiasingOptions S r aaType aaLevel aaOptions).renderer.mGammaCorrectionMode =
      aaOptions.gammaCorrection ∧
    (∀ previous : Option σ,
      setAntialiasingOptions S { r with mAntialiasingStrategy := previous }
        aaType aaLevel aaOptions =
      setAntialiasingOptions S r aaType aaLevel aaOptions) := by
  have hne : r.mMeshes ≠ [] ↔ r.mMeshes.length ≠ 0 := by
    simp [List.length_eq_zero]
  refine ⟨?_, ?_, ?_, ?_, ?_⟩
  · rw [setAntialiasingOptions_of_strategy S r aaType aaLevel aaOptions s hnew]
    rfl
  · rw [setAntialiasingOptions_of_strategy S r aaType aaLevel aaOptions s hnew]
    by_cases hm : r.mMeshes.length = 0
    · simp [Completion.calls, hm, List.length_eq_zero.mp hm]
    · have : r.mMeshes ≠ [] := hne.mpr hm
      simp [Completion.calls, hm, this]
  · rw [setAntialiasingOptions_of_strategy S r aaType aaLevel aaOptions s hnew]
    by_cases hm : r.mMeshes.length = 0
    · simp [Completion.renderer, hm, List.length_eq_zero.mp hm,
        AntialiasingStrategy.replay, AntialiasingStrategy.apply]
    · have : r.mMeshes ≠ [] := hne.mpr hm
      simp [Completion.renderer, hm, this, AntialiasingStrategy.replay,
        AntialiasingStrategy.apply]
  · rw [setAntialiasingOptions_of_strategy S r aaType aaLevel aaOptions s hnew]
    rfl
  · intro previous
    rfl

/-- C15, at a renderer with two meshes attached and a strategy in state 0,
replaced by the strategy object the factory returns for `(3, 4)`. -/
theorem setAntialiasingOptions_protocol_witness :
    (setAntialiasingOptions (countingStrategy 1 .drm_none)
      (sampleRenderer 2) 3 4 ⟨7, 0, 0⟩).calls =
      [.init,
        .attachMeshes [sampleMesh, sampleMesh] [sampleMeshBuffers, sampleMeshBuffers],
        .setFramebufferSize] ∧
    (setAntialiasingOptions (countingStrategy 1 .drm_none)
      (sampleRenderer 2) 3 4
      ⟨7, 0, 0⟩).renderer.mAntialiasingStrategy = some 307 ∧
    (setAntialiasingOptions (countingStrategy 1 .drm_none)
      (sampleRenderer 2) 3 4
      ⟨7, 0, 0⟩).renderer.mGammaCorrectionMode = 7 :=
  have h := setAntialiasingOptions_protocol (countingStrategy 1 .drm_none)
    (sampleRenderer 2) 3 4 ⟨7, 0, 0⟩ 304 rfl
  ⟨h.2.1, h.2.2.1, h.2.2.2.1⟩

/-- C16. `computeTransform(pass, objectIndex)` is the product
`getWorldTransformForPass(pass) * getModelviewTransform(objectIndex) *
getWorldTransform()`, in this order, in exact arithmetic, where the first factor
is the identity when no strategy is set. As `getModelviewTransform` is the
identity, the product is `getWorldTransformForPass(pass) * getWorldTransform()`
with a strategy and `getWorldTransform()` without. -/
theorem computeTransform_composition {σ M : Type} [Monoid M]
    (getWorldTransformForPass : σ → Int → M) (getWorldTransform : M) (r : Renderer σ)
    (s : σ) (pass objectIndex : Int) :
    computeTransform getWorldTransformForPass getWorldTransform r pass objectIndex =
      (match r.mAntialiasingStrategy with
        | some s => getWorldTransformForPass s pass
        | none => 1) * getModelviewTransform objectIndex * getWorldTransform ∧
    computeTransform getWorldTransformForPass getWorldTransform
        { r with mAntialiasingStrategy := some s } pass objectIndex =
      getWorldTransformForPass s pass * getModelviewTransform objectIndex *
        getWorldTransform ∧
    computeTransform getWorldTransformForPass getWorldTransform
        { r with mAntialiasingStrategy := none } pass objectIndex =
      1 * getModelviewTransform objectIndex * getWorldTransform ∧
    computeTransform getWorldTransformForPass getWorldTransform
        { r with mAntialiasingStrategy := some s } pass objectIndex =
      getWorldTransformForPass s pass * getWorldTransform ∧
    computeTransform getWorldTransformForPass getWorldTransform
        { r with mAntialiasingStrategy := none } pass objectIndex =
      getWorldTransform := by
  refine ⟨rfl, rfl, rfl, ?_, ?_⟩ <;> simp [computeTransform, getModelviewTransform]

/-- C17. Adaptive dispatch. A call of one of the per-pass and per-object methods
(`prepareForRendering`, `prepareForDirectRendering`, `prepareToRenderObject`,
`antialiasObject`, `finishAntialiasingObject`, `finishDirectlyRenderingObject`,
`resolveAAForObject`, `resolve`) on the adaptive strategy runs the same method
with the same arguments on the stencil strategy and leaves the mesh strategy
alone when `needsStencil` is true, and runs it on the mesh strategy and leaves
the stencil strategy alone when `needsStencil` is false;
`getAppropriateStrategy` chooses the stencil strategy exactly when
`needsStencil` is true and the mesh strategy otherwise. -/
theorem adaptiveStrategy_dispatch {σm σs : Type} (Sm : AntialiasingStrategy σm)
    (Ss : AntialiasingStrategy σs) (needsStencil : Bool) (c : Call)
    (a : AdaptiveStencilMeshAAAStrategy σm σs) (hc : c.isPerPassOrObject = true) :
    (needsStencil = true →
      (adaptiveStrategy Sm Ss needsStencil).apply c a =
        ⟨a.mMeshStrategy, Ss.apply c a.mStencilStrategy⟩) ∧
    (needsStencil = false →
      (adaptiveStrategy Sm Ss needsStencil).apply c a =
        ⟨Sm.apply c a.mMeshStrategy, a.mStencilStrategy⟩) ∧
    (getAppropriateStrategy needsStencil = .stencil ↔ needsStencil = true) ∧
    (getAppropriateStrategy needsStencil = .mesh ↔ needsStencil = false) := by
  refine ⟨?_, ?_, ?_, ?_⟩
  · intro hb
    subst hb
    cases c <;> first | rfl | simp [Call.isPerPassOrObject] at hc
  · intro hb
    subst hb
    cases c <;> first | rfl | simp [Call.isPerPassOrObject] at hc
  · cases needsStencil <;> simp [getAppropriateStrategy]
  · cases needsStencil <;> simp [getAppropriateStrategy]

/-- C17, at `antialiasObject(3)` on an adaptive strategy over two strategies
that record the calls they receive: with `needsStencil` true the stencil
strategy receives `antialiasObject(3)` and the mesh strategy nothing, with
`needsStencil` false the other way round. -/
theorem adaptiveStrategy_dispatch_witness :
    (adaptiveStrategy (recordingStrategy 1 .drm_conservative)
        (recordingStrategy 1 .drm_none) true).apply (.antialiasObject 3) ⟨[], []⟩ =
      ⟨[], [.antialiasObject 3]⟩ ∧
    (adaptiveStrategy (recordingStrategy 1 .drm_conservative)
        (recordingStrategy 1 .drm_none) false).apply (.antialiasObject 3) ⟨[], []⟩ =
      ⟨[.antialiasObject 3], []⟩ :=
  ⟨(adaptiveStrategy_dispatch (recordingStrategy 1 .drm_conservative)
      (recordingStrategy 1 .drm_none) true (.antialiasObject 3) ⟨[], []⟩ rfl).1 rfl,
    (adaptiveStrategy_dispatch (recordingStrategy 1 .drm_conservative)
      (recordingStrategy 1 .drm_none) false (.antialiasObject 3) ⟨[], []⟩ rfl).2.1 rfl⟩

/-- C18. Adaptive strategy constants. For every state of the adaptive strategy,
whatever `needsStencil` and whatever the two strategies it owns,
`getPassCount()` is 1 and `getDirectRenderingMode()` is `none`. Hence
`renderAtlas` driven by an adaptive strategy, with mesh buffers attached, issues
exactly the calls of one pass without direct rendering: one `resolve`, and no
`prepareForDirectRendering`, `prepareToRenderObject`, `clearForDirectRendering`
or `directlyRenderObject`, also when the mesh strategy has the mode
`conservative` and receives the calls. -/
theorem adaptiveStrategy_constants {σm σs : Type} (Sm : AntialiasingStrategy σm)
    (Ss : AntialiasingStrategy σs) (needsStencil : Bool)
    (r : Renderer (AdaptiveStencilMeshAAAStrategy σm σs))
    (a : AdaptiveStencilMeshAAAStrategy σm σs) (hmesh : r.mMeshBuffers ≠ [])
    (hs : r.mAntialiasingStrategy = some a) :
    (∀ a', (adaptiveStrategy Sm Ss needsStencil).getPassCount a' = 1 ∧
      (adaptiveStrategy Sm Ss needsStencil).getDirectRenderingMode a' = .drm_none) ∧
    (renderAtlas (adaptiveStrategy Sm Ss needsStencil) r).calls =
      frameCallSequence 1 r.getObjectCount.toNat ∧
    (renderAtlas (adaptiveStrategy Sm Ss needsStencil) r).calls.countP Call.isResolve = 1 ∧
    (∀ c ∈ (renderAtlas (adaptiveStrategy Sm Ss needsStencil) r).calls,
      c.isDirectRendering = false) := by
  have hcalls : (renderAtlas (adaptiveStrategy Sm Ss needsStencil) r).calls =
      frameCallSequence 1 r.getObjectCount.toNat :=
    renderAtlas_calls_of_none (adaptiveStrategy Sm Ss needsStencil) r a hmesh hs
      (fun _ => rfl)
  refine ⟨fun _ => ⟨rfl, rfl⟩, hcalls, ?_, ?_⟩
  · rw [hcalls]
    exact (frameCallSequence_counts 1 _).2.1
  · rw [hcalls]
    exact frameCallSequence_no_direct 1 _

/-- C18, at a frame over two objects driven by an adaptive strategy whose mesh
strategy has the mode `conservative` and receives the calls (`needsStencil`
false): the calls are those of one pass without direct rendering. -/
theorem adaptiveStrategy_constants_witness :
    (renderAtlas (adaptiveStrategy (recordingStrategy 3 .drm_conservative)
        (recordingStrategy 2 .drm_none) false)
      (sampleRendererOf (some ⟨[], []⟩) (fun _ _ _ _ => none) 2)).calls =
      [.clearDestFramebuffer, .prepareForRendering,
        .antialiasObject 0, .finishAntialiasingObject 0, .resolveAAForObject 0,
        .antialiasObject 1, .finishAntialiasingObject 1, .resolveAAForObject 1,
        .resolve 0] :=
  (adaptiveStrategy_constants (recordingStrategy 3 .drm_conservative)
    (recordingStrategy 2 .drm_none) false _ ⟨[], []⟩ (by decide) rfl).2.1.trans
    (by decide)

/-- C16, at a renderer with a strategy and 4 by 4 matrices of rationals. -/
theorem computeTransform_composition_witness :
    computeTransform (fun (s : Nat) (pass : Int) => sampleTransform (s + pass))
        (sampleTransform 5) (sampleRenderer 1) 2 0 =
      sampleTransform 2 * sampleTransform 5 :=
  ((computeTransform_composition (fun (s : Nat) (pass : Int) => sampleTransform (s + pass))
    (sampleTransform 5) (sampleRenderer 1) 0 2 0).2.2.2.1).trans
    (by simp)

/-- C19 fails for `bindGammaLUT` at a program that declares `uBGColor` (at
location 11) and no `uGammaLUT`: the helper issues `glUniform3f` on location
11. -/
theorem bindGammaLUT_without_uGammaLUT :
    (⟨[-1, -1, -1, -1, -1, -1, -1, 11, -1], []⟩ : PathfinderShaderProgram).hasUniform
      sampleUniformIDs.uniform_uGammaLUT = false ∧
    bindGammaLUT sampleUniformIDs 2 ⟨[-1, -1, -1, -1, -1, -1, -1, 11, -1], []⟩ =
      ⟨[.hasUniform 6 false, .hasUniform 7 true, .getUniform 7,
        .command (.glUniform3f 11)], some ()⟩ ∧
    (bindGammaLUT sampleUniformIDs 2
      ⟨[-1, -1, -1, -1, -1, -1, -1, 11, -1], []⟩).commands = [.glUniform3f 11] := by
  decide

/-- C19, amended. Each helper returns without issuing a GL command when the
program declares none of the uniforms the helper binds: `uTransform` for
`setTransformUniform`, `uTransformST` and `uTransformExt` for
`setTransformAffineUniforms`, `uFramebufferSize` for
`setFramebufferSizeUniform`, `uEmboldenAmount` for `setEmboldenAmountUniform`,
`uGammaLUT` and `uBGColor` for `bindGammaLUT`, `uAreaLUT` for `bindAreaLUT`; for
every program, every identifier values and every argument. And `bindGammaLUT`
binds `uBGColor` whenever the program declares it: it issues `glUniform3f` on
the location of `uBGColor`, and this is its only GL command when the program
does not declare `uGammaLUT`. -/
theorem uniform_helpers_noop (ids : UniformIDs) (p : PathfinderShaderProgram)
    (pass objectIndex textureUnit : Int) :
    (p.hasUniform ids.uniform_uTransform = false →
      (setTransformUniform ids p pass objectIndex).commands = [] ∧
      (setTransformUniform ids p pass objectIndex).value = some ()) ∧
    (p.hasUniform ids.uniform_uTransformST = false →
      p.hasUniform ids.uniform_uTransformExt = false →
      (setTransformAffineUniforms ids p objectIndex).commands = [] ∧
      (setTransformAffineUniforms ids p objectIndex).value = some ()) ∧
    (p.hasUniform ids.uniform_uFramebufferSize = false →
      (setFramebufferSizeUniform ids p).commands = [] ∧
      (setFramebufferSizeUniform ids p).value = some ()) ∧
    (p.hasUniform ids.uniform_uEmboldenAmount = false →
      (setEmboldenAmountUniform ids objectIndex p).commands = [] ∧
      (setEmboldenAmountUniform ids objectIndex p).value = some ()) ∧
    (p.hasUniform ids.uniform_uGammaLUT = false →
      p.hasUniform ids.uniform_uBGColor = false →
      (bindGammaLUT ids textureUnit p).commands = [] ∧
      (bindGammaLUT ids textureUnit p).value = some ()) ∧
    (p.hasUniform ids.uniform_uAreaLUT = false →
      (bindAreaLUT ids textureUnit p).commands = [] ∧
      (bindAreaLUT ids textureUnit p).value = some ()) ∧
    (p.hasUniform ids.uniform_uBGColor = true →
      (bindGammaLUT ids textureUnit p).value = some () ∧
      ∃ location, p.getUniform ids.uniform_uBGColor = some location ∧
        GLCommand.glUniform3f location ∈ (bindGammaLUT ids textureUnit p).commands ∧
        (p.hasUniform ids.uniform_uGammaLUT = false →
          (bindGammaLUT ids textureUnit p).commands = [.glUniform3f location])) :=
  ⟨fun h => ⟨(setTransformUniform_run ids p pass objectIndex).2.2 h,
      (setTransformUniform_run ids p pass objectIndex).1⟩,
    fun h₁ h₂ => ⟨(setTransformAffineUniforms_run ids p objectIndex).2.2 h₁ h₂,
      (setTransformAffineUniforms_run ids p objectIndex).1⟩,
    fun h => ⟨(setFramebufferSizeUniform_run ids p).2.2 h,
      (setFramebufferSizeUniform_run ids p).1⟩,
    fun h => ⟨(setEmboldenAmountUniform_run ids p objectIndex).2.2 h,
      (setEmboldenAmountUniform_run ids p objectIndex).1⟩,
    fun h₁ h₂ => ⟨(bindGammaLUT_run ids p textureUnit).2.2 h₁ h₂,
      (bindGammaLUT_run ids p textureUnit).1⟩,
    fun h => ⟨(bindAreaLUT_run ids p textureUnit).2.2 h,
      (bindAreaLUT_run ids p textureUnit).1⟩,
    fun h => ⟨(bindGammaLUT_run ids p textureUnit).1,
      bindGammaLUT_uBGColor ids p textureUnit h⟩⟩

/-- C19, amended, at a program that declares `uFramebufferSize` only, and at a
program that declares `uBGColor` only, at location 11. -/
theorem uniform_helpers_noop_witness :
    (setTransformUniform sampleUniformIDs ⟨[4, -1, -1, -1, -1, -1, -1, -1, -1], []⟩
      1 2).commands = [] ∧
    (setTransformAffineUniforms sampleUniformIDs ⟨[4, -1, -1, -1, -1, -1, -1, -1, -1], []⟩
      2).commands = [] ∧
    (setEmboldenAmountUniform sampleUniformIDs 2
      ⟨[4, -1, -1, -1, -1, -1, -1, -1, -1], []⟩).commands = [] ∧
    (bindGammaLUT sampleUniformIDs 3 ⟨[4, -1, -1, -1, -1, -1, -1, -1, -1], []⟩).commands =
      [] ∧
    (bindAreaLUT sampleUniformIDs 3 ⟨[4, -1, -1, -1, -1, -1, -1, -1, -1], []⟩).commands =
      [] ∧
    ∃ location,
      PathfinderShaderProgram.getUniform ⟨[-1, -1, -1, -1, -1, -1, -1, 11, -1], []⟩
        sampleUniformIDs.uniform_uBGColor = some location ∧
      GLCommand.glUniform3f location ∈
        (bindGammaLUT sampleUniformIDs 3
          ⟨[-1, -1, -1, -1, -1, -1, -1, 11, -1], []⟩).commands :=
  have h := uniform_helpers_noop sampleUniformIDs ⟨[4, -1, -1, -1, -1, -1, -1, -1, -1], []⟩
    1 2 3
  have h' := uniform_helpers_noop sampleUniformIDs
    ⟨[-1, -1, -1, -1, -1, -1, -1, 11, -1], []⟩ 1 2 3
  ⟨(h.1 (by decide)).1, (h.2.1 (by decide) (by decide)).1, (h.2.2.2.1 (by decide)).1,
    (h.2.2.2.2.1 (by decide) (by decide)).1, (h.2.2.2.2.2.1 (by decide)).1,
    match (h'.2.2.2.2.2.2 (by decide)).2 with
    | ⟨location, hl, hmem, _⟩ => ⟨location, hl, hmem⟩⟩

/-- C20 fails for `initImplicitCoverCurveVAO` at a program that declares no
attribute: after `glUseProgram` and `glBindBuffer` the helper looks up
`aPosition` with no query before it, and the assertion of `getAttribute`
fails. -/
theorem initImplicitCoverCurveVAO_unguarded_lookup :
    (⟨[], [-1, -1, -1]⟩ : PathfinderShaderProgram).hasAttribute
      sampleAttributeIDs.attribute_aPosition = false ∧
    initImplicitCoverCurveVAO sampleAttributeIDs 1 ⟨[], [-1, -1, -1]⟩ =
      ⟨[.command .glUseProgram, .command .glBindBuffer, .getAttribute 0], none⟩ ∧
    (initImplicitCoverCurveVAO sampleAttributeIDs 1 ⟨[], [-1, -1, -1]⟩).guarded = false := by
  decide

/-- C20, amended. In each of the uniform helpers (`setFramebufferSizeUniform`,
`setTransformAndTexScaleUniformsForDest`,
`setTransformSTAndTexScaleUniformsForDest`, `setTransformUniform`,
`setTransformSTUniform`, `setTransformAffineUniforms`,
`setEmboldenAmountUniform`, `bindGammaLUT`, `bindAreaLUT`) every
`getUniform(id)` comes after a `hasUniform(id)` that returned true, and the
helper returns with no assertion failed, for every program. The attributes are
looked up without a query: `initImplicitCoverCurveVAO` returns with no assertion
failed when the program declares `aPosition`, `aVertexID` and `aPathID`, and
`initImplicitCoverInteriorVAO` when it declares `aPosition` and `aPathID`, and
`aVertexID` for the conservative interior program. -/
theorem uniform_lookups_guarded (ids : UniformIDs) (attrs : AttributeIDs)
    (p : PathfinderShaderProgram) (pass objectIndex textureUnit : Int)
    (meshBuffersCount : Nat) (isConservativeInterior : Bool) :
    ((setFramebufferSizeUniform ids p).value = some () ∧
      (setFramebufferSizeUniform ids p).guarded = true) ∧
    ((setTransformAndTexScaleUniformsForDest ids p).value = some () ∧
      (setTransformAndTexScaleUniformsForDest ids p).guarded = true) ∧
    ((setTransformSTAndTexScaleUniformsForDest ids p).value = some () ∧
      (setTransformSTAndTexScaleUniformsForDest ids p).guarded = true) ∧
    ((setTransformUniform ids p pass objectIndex).value = some () ∧
      (setTransformUniform ids p pass objectIndex).guarded = true) ∧
    ((setTransformSTUniform ids p objectIndex).value = some () ∧
      (setTransformSTUniform ids p objectIndex).guarded = true) ∧
    ((setTransformAffineUniforms ids p objectIndex).value = some () ∧
      (setTransformAffineUniforms ids p objectIndex).guarded = true) ∧
    ((setEmboldenAmountUniform ids objectIndex p).value = some () ∧
      (setEmboldenAmountUniform ids objectIndex p).guarded = true) ∧
    ((bindGammaLUT ids textureUnit p).value = some () ∧
      (bindGammaLUT ids textureUnit p).guarded = true) ∧
    ((bindAreaLUT ids textureUnit p).value = some () ∧
      (bindAreaLUT ids textureUnit p).guarded = true) ∧
    (p.hasAttribute attrs.attribute_aPosition = true →
      p.hasAttribute attrs.attribute_aVertexID = true →
      p.hasAttribute attrs.attribute_aPathID = true →
      (initImplicitCoverCurveVAO attrs meshBuffersCount p).value = some ()) ∧
    (p.hasAttribute attrs.attribute_aPosition = true →
      (isConservativeInterior = true →
        p.hasAttribute attrs.attribute_aVertexID = true) →
      p.hasAttribute attrs.attribute_aPathID = true →
      (initImplicitCoverInteriorVAO attrs meshBuffersCount isConservativeInterior
        p).value = some ()) :=
  ⟨⟨(setFramebufferSizeUniform_run ids p).1, (setFramebufferSizeUniform_run ids p).2.1⟩,
    ⟨(setTransformAndTexScaleUniformsForDest_run ids p).1,
      (setTransformAndTexScaleUniformsForDest_run ids p).2.1⟩,
    ⟨(setTransformSTAndTexScaleUniformsForDest_run ids p).1,
      (setTransformSTAndTexScaleUniformsForDest_run ids p).2.1⟩,
    ⟨(setTransformUniform_run ids p pass objectIndex).1,
      (setTransformUniform_run ids p pass objectIndex).2.1⟩,
    ⟨(setTransformSTUniform_run ids p objectIndex).1,
      (setTransformSTUniform_run ids p objectIndex).2.1⟩,
    ⟨(setTransformAffineUniforms_run ids p objectIndex).1,
      (setTransformAffineUniforms_run ids p objectIndex).2.1⟩,
    ⟨(setEmboldenAmountUniform_run ids p objectIndex).1,
      (setEmboldenAmountUniform_run ids p objectIndex).2.1⟩,
    ⟨(bindGammaLUT_run ids p textureUnit).1, (bindGammaLUT_run ids p textureUnit).2.1⟩,
    ⟨(bindAreaLUT_run ids p textureUnit).1, (bindAreaLUT_run ids p textureUnit).2.1⟩,
    initImplicitCoverCurveVAO_value attrs meshBuffersCount p,
    initImplicitCoverInteriorVAO_value attrs meshBuffersCount isConservativeInterior p⟩

/-- C20, amended, at a program that declares the three attributes (at locations
4, 5, 6) and the uniforms `uGammaLUT` and `uBGColor`. -/
theorem uniform_lookups_guarded_witness :
    (bindGammaLUT sampleUniformIDs 2
      ⟨[-1, -1, -1, -1, -1, -1, 9, 11, -1], [4, 5, 6]⟩).guarded = true ∧
    (initImplicitCoverCurveVAO sampleAttributeIDs 1
      ⟨[-1, -1, -1, -1, -1, -1, 9, 11, -1], [4, 5, 6]⟩).value = some () ∧
    (initImplicitCoverInteriorVAO sampleAttributeIDs 1 true
      ⟨[-1, -1, -1, -1, -1, -1, 9, 11, -1], [4, 5, 6]⟩).value = some () :=
  have h := uniform_lookups_guarded sampleUniformIDs sampleAttributeIDs
    ⟨[-1, -1, -1, -1, -1, -1, 9, 11, -1], [4, 5, 6]⟩ 0 0 2 1 true
  ⟨h.2.2.2.2.2.2.2.1.2, h.2.2.2.2.2.2.2.2.2.1 (by decide) (by decide) (by decide),
    h.2.2.2.2.2.2.2.2.2.2 (by decide) (fun _ => by decide) (by decide)⟩

/-- C25. Adjacent path ranges resolve to adjacent index ranges: on a non-empty
table detected as ascending and for integers `1 ≤ a ≤ b ≤ c`, the three path
ranges `(a,b)`, `(b,c)` and `(a,c)` resolve to ranges `rab`, `rbc`, `rac` with
`rab.end = rbc.start` and `rac = (rab.start, rbc.end)`; nothing is assumed of
the entries of the table. -/
theorem getMeshIndexRange_adjacent (T : List Range) (a b c : Int) (hne : T ≠ [])
    (hasc : ¬ (T.head hne).start > (T.getLast hne).start)
    (ha : 1 ≤ a) (hab : a ≤ b) (hbc : b ≤ c) :
    ∃ rab rbc rac,
      (getMeshIndexRange T ⟨a, b⟩).value = some rab ∧
      (getMeshIndexRange T ⟨b, c⟩).value = some rbc ∧
      (getMeshIndexRange T ⟨a, c⟩).value = some rac ∧
      rab.«end» = rbc.start ∧
      rac = ⟨rab.start, rbc.«end»⟩ :=
  ⟨_, _, _,
    getMeshIndexRange_value_asc_bounds T a b hne hasc ha (by omega),
    getMeshIndexRange_value_asc_bounds T b c hne hasc (by omega) (by omega),
    getMeshIndexRange_value_asc_bounds T a c hne hasc ha (by omega), rfl, rfl⟩

/-- C25, at the table `[(0,2),(4,5),(7,9)]`, whose entries are not contiguous,
and `a = 1`, `b = 2`, `c = 5`. -/
theorem getMeshIndexRange_adjacent_witness :
    ∃ rab rbc rac,
      (getMeshIndexRange [⟨0, 2⟩, ⟨4, 5⟩, ⟨7, 9⟩] ⟨1, 2⟩).value = some rab ∧
      (getMeshIndexRange [⟨0, 2⟩, ⟨4, 5⟩, ⟨7, 9⟩] ⟨2, 5⟩).value = some rbc ∧
      (getMeshIndexRange [⟨0, 2⟩, ⟨4, 5⟩, ⟨7, 9⟩] ⟨1, 5⟩).value = some rac ∧
      rab.«end» = rbc.start ∧
      rac = ⟨rab.start, rbc.«end»⟩ :=
  getMeshIndexRange_adjacent [⟨0, 2⟩, ⟨4, 5⟩, ⟨7, 9⟩] 1 2 5 (by decide) (by decide)
    (by decide) (by decide) (by decide)

/-- C26, at the descending table `[(5,9),(0,5)]` of contiguous valid ranges: the
empty path range `(3,3)` resolves to `(0,5)`, which is not empty, and for the
empty path range `(1,1)` the resolver reads the entry `-1`, outside the table,
and returns no range. -/
theorem getMeshIndexRange_descending_empty_not_empty :
    (getMeshIndexRange [⟨5, 9⟩, ⟨0, 5⟩] ⟨3, 3⟩).value = some ⟨0, 5⟩ ∧
    Range.isEmpty ⟨0, 5⟩ = false ∧
    getMeshIndexRange [⟨5, 9⟩, ⟨0, 5⟩] ⟨1, 1⟩ = ⟨[1, 0, 0, -1], none⟩ := by
  decide

/-- C27. `pathRangeForObject` returns `(0,0)` when no mesh buffers are attached,
and otherwise, for an object that has mesh buffers, `(1, n + 1)` where `n` is
the number of entries of their `bQuadVertexPositionPathRanges`: a range of
length `n`; in both cases the range does not contain the path ID 0. On a
non-empty table `T` of `n` entries the path range `(1, n + 1)` resolves to
`(T[0].start, T.last.end)` when `T` is not descending and to
`(T.last.start, T[0].end)` when it is. -/
theorem pathRangeForObject_whole_table {σ : Type} (r : Renderer σ) (objectIndex : Int)
    (T : List Range) (hne : T ≠ []) :
    (r.mMeshBuffers = [] → pathRangeForObject r objectIndex = some ⟨0, 0⟩) ∧
    (∀ meshBuffers, r.mMeshBuffers ≠ [] → 0 ≤ objectIndex →
      r.mMeshBuffers[objectIndex.toNat]? = some meshBuffers →
      pathRangeForObject r objectIndex =
        some ⟨1, (meshBuffers.bQuadVertexPositionPathRanges.length : Int) + 1⟩ ∧
      Range.length ⟨1, (meshBuffers.bQuadVertexPositionPathRanges.length : Int) + 1⟩ =
        meshBuffers.bQuadVertexPositionPathRanges.length) ∧
    (∀ pathRange, pathRangeForObject r objectIndex = some pathRange →
      ¬ pathRange.contains 0) ∧
    (¬ (T.head hne).start > (T.getLast hne).start →
      (getMeshIndexRange T ⟨1, (T.length : Int) + 1⟩).value =
        some ⟨(T.head hne).start, (T.getLast hne).«end»⟩) ∧
    ((T.head hne).start > (T.getLast hne).start →
      (getMeshIndexRange T ⟨1, (T.length : Int) + 1⟩).value =
        some ⟨(T.getLast hne).start, (T.head hne).«end»⟩) := by
  have hpos : 0 < T.length := List.length_pos.mpr hne
  refine ⟨?_, ?_, ?_, ?_, ?_⟩
  · intro h
    simp [pathRangeForObject, h]
  · intro meshBuffers hmb h0 hget
    have hlen : r.mMeshBuffers.length ≠ 0 := fun h => hmb (List.length_eq_zero.mp h)
    constructor
    · simp [pathRangeForObject, hlen, h0, hget]
    · simp [Range.length]
  · intro pathRange h
    unfold pathRangeForObject at h
    unfold Range.contains
    split at h
    · cases h
      simp
    · split at h
      · cases hget : r.mMeshBuffers[objectIndex.toNat]? with
        | none => simp [hget] at h
        | some b =>
          simp only [hget, Option.map_some', Option.some.injEq] at h
          subst h
          simp
      · cases h
  · intro hasc
    rw [getMeshIndexRange_value_asc T ⟨1, (T.length : Int) + 1⟩ hne hasc (by simp)
      (by simp) (by simp; omega)]
    simp [List.head_eq_getElem]
  · intro hdesc
    rw [getMeshIndexRange_value_desc T ⟨1, (T.length : Int) + 1⟩ hne hdesc (by simp)
      (by simp; omega) (by simp)]
    have hi : ((T.length : Int) + 1 - 2).toNat = T.length - 1 := by omega
    simp [List.head_eq_getElem, List.getLast_eq_getElem, hi]

/-- C27, at a renderer whose object 0 has one path and at the table
`[(0,2),(2,5),(5,9)]`. -/
theorem pathRangeForObject_whole_table_witness :
    pathRangeForObject (sampleRenderer 1) 0 = some ⟨1, 2⟩ ∧
    (getMeshIndexRange [⟨0, 2⟩, ⟨2, 5⟩, ⟨5, 9⟩] ⟨1, 4⟩).value = some ⟨0, 9⟩ :=
  have h := pathRangeForObject_whole_table (sampleRenderer 1)
    0 [⟨0, 2⟩, ⟨2, 5⟩, ⟨5, 9⟩] (by decide)
  ⟨(h.2.1 sampleMeshBuffers (by decide) (by decide) rfl).1, h.2.2.2.1 (by decide)⟩

/-- C28 fails at the table `[(-2147483648,0),(2147483647,2147483647)]`, of valid
ranges with non-decreasing starts, and the path range `(1,2)`: the resolver
returns `(-2147483648, 2147483647)`, whose length `4294967295` is above
`INT_MAX`, and the subtraction of `calculateCountFromIndexRanges` overflows, so
that it returns no count. -/
theorem calculateCountFromIndexRanges_overflow :
    (∀ r ∈ ([⟨-2147483648, 0⟩, ⟨2147483647, 2147483647⟩] : List Range),
      r.start ≤ r.«end») ∧
    ([⟨-2147483648, 0⟩, ⟨2147483647, 2147483647⟩] : List Range).Pairwise
      (fun a b => a.start ≤ b.start) ∧
    (getMeshIndexRange [⟨-2147483648, 0⟩, ⟨2147483647, 2147483647⟩] ⟨1, 2⟩).value =
      some ⟨-2147483648, 2147483647⟩ ∧
    Range.length ⟨-2147483648, 2147483647⟩ = 4294967295 ∧
    INT_MAX < 4294967295 ∧
    (calculateCountFromIndexRanges ⟨1, 2⟩
      [⟨-2147483648, 0⟩, ⟨2147483647, 2147483647⟩]).value = none := by
  refine ⟨by decide, by simp, by decide, by decide, by decide, by decide⟩

/-- C28, amended. On a non-empty table of valid ranges with non-decreasing
starts whose span `T.last.end - T[0].start` is at most `INT_MAX`, for every path
range with `1 ≤ start ≤ end` and `start - 1 < |T|`,
`calculateStartFromIndexRanges` returns the start and
`calculateCountFromIndexRanges` the length of the range `getMeshIndexRange`
returns, and the count is not negative; on an empty table both helpers return 0
without a read. -/
theorem calculateFromIndexRanges_refines (T : List Range) (R : Range) (hne : T ≠ [])
    (hvalid : ∀ r ∈ T, r.start ≤ r.«end»)
    (hmono : T.Pairwise (fun a b => a.start ≤ b.start))
    (hspan : (T.getLast hne).«end» - (T.head hne).start ≤ INT_MAX)
    (h1 : 1 ≤ R.start) (h2 : R.start ≤ R.«end»)
    (h3 : R.start - 1 < (T.length : Int)) :
    (calculateStartFromIndexRanges R T).value =
      (getMeshIndexRange T R).value.map Range.start ∧
    (calculateCountFromIndexRanges R T).value =
      (getMeshIndexRange T R).value.map Range.length ∧
    (∃ count, (calculateCountFromIndexRanges R T).value = some count ∧ 0 ≤ count) ∧
    calculateStartFromIndexRanges R [] = ⟨[], some 0⟩ ∧
    calculateCountFromIndexRanges R [] = ⟨[], some 0⟩ := by
  have hasc : ¬ (T.head hne).start > (T.getLast hne).start :=
    not_lt.mpr (head_start_le_getLast_start T hne hmono)
  have hsl : (R.start - 1).toNat < T.length := by omega
  have hlast : (T.getLast hne).start ≤ (T.getLast hne).«end» :=
    hvalid _ (List.getLast_mem hne)
  have hpos : 0 < T.length := by omega
  have hhead : T.head hne = T[0] := by
    cases T with
    | nil => exact absurd rfl hne
    | cons a t => rfl
  have hfirst : (T.head hne).start ≤ T[(R.start - 1).toNat].start := by
    rw [hhead]
    exact getElem_start_mono T hmono 0 (R.start - 1).toNat hpos hsl (by omega)
  have hbounds : 0 ≤ (if h : R.«end» - 1 < (T.length : Int) then
        T[(R.«end» - 1).toNat].start else (T.getLast hne).«end») -
        T[(R.start - 1).toNat].start ∧
      (if h : R.«end» - 1 < (T.length : Int) then
        T[(R.«end» - 1).toNat].start else (T.getLast hne).«end») -
        T[(R.start - 1).toNat].start ≤ INT_MAX := by
    by_cases he : R.«end» - 1 < (T.length : Int)
    · have hel : (R.«end» - 1).toNat < T.length := by omega
      have hm := getElem_start_mono T hmono (R.start - 1).toNat (R.«end» - 1).toNat hsl hel
        (by omega)
      have hl := getElem_start_le_getLast_start T hne hmono (R.«end» - 1).toNat hel
      simp only [he, dite_true]
      constructor <;> omega
    · have hl := getElem_start_le_getLast_start T hne hmono (R.start - 1).toNat hsl
      simp only [he, dite_false]
      constructor <;> omega
  have hcount := calculateCountFromIndexRanges_value T R hne h1 h2 h3
  rw [checkedInt_of_bounds _ (by unfold INT_MIN; omega) hbounds.2] at hcount
  refine ⟨?_, ?_, ⟨_, hcount, hbounds.1⟩, rfl, rfl⟩
  · rw [getMeshIndexRange_value_asc T R hne hasc h1 h2 h3,
      calculateStartFromIndexRanges_value T R hne h1 h3]
    rfl
  · rw [getMeshIndexRange_value_asc T R hne hasc h1 h2 h3, hcount]
    rfl

/-- C28, amended, at the table `[(0,2),(2,5),(5,9)]` and the path range
`(2,4)`. -/
theorem calculateFromIndexRanges_refines_witness :
    (calculateStartFromIndexRanges ⟨2, 4⟩ [⟨0, 2⟩, ⟨2, 5⟩, ⟨5, 9⟩]).value =
      (getMeshIndexRange [⟨0, 2⟩, ⟨2, 5⟩, ⟨5, 9⟩] ⟨2, 4⟩).value.map Range.start ∧
    (calculateCountFromIndexRanges ⟨2, 4⟩ [⟨0, 2⟩, ⟨2, 5⟩, ⟨5, 9⟩]).value =
      (getMeshIndexRange [⟨0, 2⟩, ⟨2, 5⟩, ⟨5, 9⟩] ⟨2, 4⟩).value.map Range.length :=
  have h := calculateFromIndexRanges_refines [⟨0, 2⟩, ⟨2, 5⟩, ⟨5, 9⟩] ⟨2, 4⟩ (by decide)
    (by decide) (by simp) (by decide) (by decide) (by decide) (by decide)
  ⟨h.1, h.2.1⟩

/-- C24. On a non-empty table of valid ranges that is contiguous in its
direction (each entry ends where the next starts, or the first start is greater
than the last start and each entry starts where the next ends), a path range
with `1 ≤ start < end ≤ |T| + 1` resolves to a range whose length is the sum of
the lengths of the entries `start - 1` to `end - 2`, and which contains exactly
the integers contained in one of these entries. -/
theorem getMeshIndexRange_covers_addressed (T : List Range) (R : Range) (hne : T ≠ [])
    (hvalid : ∀ r ∈ T, r.start ≤ r.«end»)
    (hdir : T.Chain' (fun a b => a.«end» = b.start) ∨
      ((T.head hne).start > (T.getLast hne).start ∧
        T.Chain' (fun a b => a.start = b.«end»)))
    (h1 : 1 ≤ R.start) (h2 : R.start < R.«end»)
    (h3 : R.«end» ≤ (T.length : Int) + 1) :
    ∃ result, (getMeshIndexRange T R).value = some result ∧
      result.length = ((addressedEntries T R).map Range.length).sum ∧
      ∀ x, result.contains x ↔ ∃ r ∈ addressedEntries T R, r.contains x := by
  have hsub := addressedEntries_ne_nil T R h1 h2 h3
  obtain ⟨hhead, hlast⟩ := addressedEntries_head_getLast T R h1 h2 h3 hsub
  have hv : ∀ r ∈ addressedEntries T R, r.start ≤ r.«end» :=
    fun r hr => hvalid r (mem_of_mem_addressedEntries T R r hr)
  rcases hdir with hc | ⟨hdesc, hc⟩
  · have hcs : (addressedEntries T R).Chain' (fun a b => a.«end» = b.start) :=
      (hc.drop _).take _
    refine ⟨_, getMeshIndexRange_value_asc_contiguous T R hne hvalid hc h1 h2 h3, ?_, ?_⟩
    · rw [asc_chain_sum _ hsub hcs, hhead, hlast]
      rfl
    · intro x
      rw [← asc_chain_union _ hsub hcs hv x, hhead, hlast]
      rfl
  · have hcs : (addressedEntries T R).Chain' (fun a b => a.start = b.«end») :=
      (hc.drop _).take _
    refine ⟨_, getMeshIndexRange_value_desc T R hne hdesc h1 h2 h3, ?_, ?_⟩
    · rw [desc_chain_sum _ hsub hcs, hhead, hlast]
      rfl
    · intro x
      rw [← desc_chain_union _ hsub hcs hv x, hhead, hlast]
      rfl

/-- C24, at the descending table `[(5,9),(2,5),(0,2)]` and the path range
`(2,4)`, which addresses the entries `(2,5)` and `(0,2)`: the resolved range has
length `3 + 2`. -/
theorem getMeshIndexRange_covers_addressed_witness :
    ∃ result, (getMeshIndexRange [⟨5, 9⟩, ⟨2, 5⟩, ⟨0, 2⟩] ⟨2, 4⟩).value = some result ∧
      result.length = 3 + 2 :=
  have h := getMeshIndexRange_covers_addressed [⟨5, 9⟩, ⟨2, 5⟩, ⟨0, 2⟩] ⟨2, 4⟩
    (by decide) (by decide)
    (Or.inr ⟨by decide, by simp⟩)
    (by decide) (by decide) (by decide)
  match h with
  | ⟨result, hr, hl, _⟩ => ⟨result, hr, hl.trans (by decide)⟩

/-- C30 fails at `pathCount = 536870911`: `pathCount + 1` is `2^29` and
`pathCount * 4` overflows `int`, so no arrays of the stated sizes are returned;
at `pathCount = 536870910` the sizes are still computed. -/
theorem createPathTransformBuffers_overflow :
    (0 : Int) ≤ 536870911 ∧ (536870911 : Int) ≤ INT_MAX ∧
    checkedInt ((536870911 + 1) * 4) = none ∧
    (createPathTransformBuffers 536870911).isSome = false := by
  refine ⟨by decide, by decide, by decide, ?_⟩
  simp [createPathTransformBuffers, checkedInt, INT_MIN, INT_MAX]

/-- C30, amended. For every `pathCount` with `0 ≤ pathCount ≤ 536870910` (in
particular up to `MAX_PATHS`), `createPathTransformBuffers(pathCount)` returns
an `st` array of exactly `4 * (pathCount + 1)` floats and an `ext` array of
exactly `2 * (pathCount + 1 + (pathCount + 1) mod 2)` floats; both have room for
every path ID `0 .. pathCount` (4 `st` values and 2 `ext` values each), and the
`ext` length is the smallest multiple of 4 that is at least
`2 * (pathCount + 1)`. -/
theorem createPathTransformBuffers_sizes (pathCount : Int) (h0 : 0 ≤ pathCount)
    (hmax : pathCount ≤ 536870910) :
    ∃ buffers, createPathTransformBuffers pathCount = some buffers ∧
      (buffers.st.length : Int) = 4 * (pathCount + 1) ∧
      (buffers.ext.length : Int) = 2 * (pathCount + 1 + (pathCount + 1) % 2) ∧
      (∀ pathID : Int, 0 ≤ pathID → pathID ≤ pathCount →
        4 * (pathID + 1) ≤ (buffers.st.length : Int) ∧
        2 * (pathID + 1) ≤ (buffers.ext.length : Int)) ∧
      (4 : Int) ∣ (buffers.ext.length : Int) ∧
      2 * (pathCount + 1) ≤ (buffers.ext.length : Int) ∧
      (∀ k : Int, (4 : Int) ∣ k → 2 * (pathCount + 1) ≤ k →
        (buffers.ext.length : Int) ≤ k) ∧
      MAX_PATHS ≤ 536870910 := by
  have hc : ∀ x : Int, INT_MIN ≤ x → x ≤ INT_MAX → checkedInt x = some x := by
    intro x h1 h2
    simp [checkedInt, h1, h2]
  have hs : ∀ x : Int, 0 ≤ x → x ≤ INT_MAX → ((toSizeT x : Nat) : Int) = x := by
    intro x h1 h2
    unfold toSizeT
    unfold INT_MAX at h2
    omega
  have hm := Int.emod_two_eq (pathCount + 1)
  have e1 := hc (pathCount + 1) (by unfold INT_MIN; omega) (by unfold INT_MAX; omega)
  have e2 := hc ((pathCount + 1) * 4) (by unfold INT_MIN; omega) (by unfold INT_MAX; omega)
  have e3 := hc (pathCount + 1 + (pathCount + 1) % 2) (by unfold INT_MIN; omega)
    (by unfold INT_MAX; omega)
  have e4 := hc ((pathCount + 1 + (pathCount + 1) % 2) * 2) (by unfold INT_MIN; omega)
    (by unfold INT_MAX; omega)
  have hst := hs ((pathCount + 1) * 4) (by omega) (by unfold INT_MAX; omega)
  have hext := hs ((pathCount + 1 + (pathCount + 1) % 2) * 2) (by omega)
    (by unfold INT_MAX; omega)
  refine ⟨⟨List.replicate (toSizeT ((pathCount + 1) * 4)) 0,
    List.replicate (toSizeT ((pathCount + 1 + (pathCount + 1) % 2) * 2)) 0⟩, ?_, ?_, ?_,
    ?_, ?_, ?_, ?_, by decide⟩
  · simp [createPathTransformBuffers, e1, e2, e3, e4]
  · simp only [List.length_replicate, hst]
    omega
  · simp only [List.length_replicate, hext]
    omega
  · intro pathID hp0 hp1
    simp only [List.length_replicate, hst, hext]
    omega
  · simp only [List.length_replicate, hext]
    omega
  · simp only [List.length_replicate, hext]
    omega
  · intro k hk hle
    simp only [List.length_replicate, hext]
    omega

/-- C30, amended, at `pathCount = 2`: 12 `st` floats and 8 `ext` floats. -/
theorem createPathTransformBuffers_sizes_witness :
    ∃ buffers, createPathTransformBuffers 2 = some buffers ∧
      (buffers.st.length : Int) = 12 ∧ (buffers.ext.length : Int) = 8 :=
  match createPathTransformBuffers_sizes 2 (by decide) (by decide) with
  | ⟨buffers, h, hst, hext, _⟩ => ⟨buffers, h, hst, hext.trans (by decide)⟩

/-- C22. Lookup failure is exactly absence. For every program and every integer
id, `getUniform(id)` completes without an assertion failure if and only if
`hasUniform(id)` is true, and then it returns the stored location, which is not
-1; for every id outside `[0, uniform_count)`, `hasUniform` is false and
`getUniform` fails; the same holds of `getAttribute` and `hasAttribute` over
`[0, attribute_count)`; and `getProgram(id)` fails exactly when id is outside
`[0, program_count)`. -/
theorem lookup_fails_iff_absent (p : PathfinderShaderProgram) (env : ShaderEnvironment)
    (m : ShaderManager) (id : Int) :
    ((p.getUniform id).isSome = true ↔ p.hasUniform id = true) ∧
      (p.hasUniform id = true →
        p.getUniform id = some (p.mUniforms.getD id.toNat (-1)) ∧
          p.mUniforms.getD id.toNat (-1) ≠ -1) ∧
      (¬ (0 ≤ id ∧ id < (p.mUniforms.length : Int)) →
        p.hasUniform id = false ∧ p.getUniform id = none) ∧
      ((p.getAttribute id).isSome = true ↔ p.hasAttribute id = true) ∧
      (p.hasAttribute id = true →
        p.getAttribute id = some (p.mAttributes.getD id.toNat (-1)) ∧
          p.mAttributes.getD id.toNat (-1) ≠ -1) ∧
      (¬ (0 ≤ id ∧ id < (p.mAttributes.length : Int)) →
        p.hasAttribute id = false ∧ p.getAttribute id = none) ∧
      (m.getProgram env id = none ↔ ¬ (0 ≤ id ∧ id < (env.program_count : Int))) := by
  refine ⟨?_, ?_, ?_, ?_, ?_, ?_, ?_⟩
  · unfold PathfinderShaderProgram.getUniform PathfinderShaderProgram.hasUniform
    split
    · simp
    · split <;> simp [-List.getD_eq_getElem?_getD, *]
  · unfold PathfinderShaderProgram.getUniform PathfinderShaderProgram.hasUniform
    split
    · simp
    · split <;> simp [-List.getD_eq_getElem?_getD, *]
  · intro h
    have h2 : id < 0 ∨ id ≥ (p.mUniforms.length : Int) := by omega
    simp [PathfinderShaderProgram.getUniform, PathfinderShaderProgram.hasUniform, h2]
  · unfold PathfinderShaderProgram.getAttribute PathfinderShaderProgram.hasAttribute
    split
    · simp
    · split <;> simp [-List.getD_eq_getElem?_getD, *]
  · unfold PathfinderShaderProgram.getAttribute PathfinderShaderProgram.hasAttribute
    split
    · simp
    · split <;> simp [-List.getD_eq_getElem?_getD, *]
  · intro h
    have h2 : id < 0 ∨ id ≥ (p.mAttributes.length : Int) := by omega
    simp [PathfinderShaderProgram.getAttribute, PathfinderShaderProgram.hasAttribute, h2]
  · unfold ShaderManager.getProgram
    split
    · simp; omega
    · split
      · simp; omega
      · simp; omega

/-- The lookups of C22 on a program with the uniforms `[7, -1]` and the
attributes `[-1, 4]` in a table of two programs: uniform 0 and attribute 1 are
found, uniform 1 and attribute 0 are absent, and id 2 is outside all three
ranges. -/
theorem lookup_fails_iff_absent_witness :
    (PathfinderShaderProgram.hasUniform ⟨[7, -1], [-1, 4]⟩ 0 = true ∧
        PathfinderShaderProgram.getUniform ⟨[7, -1], [-1, 4]⟩ 0 = some 7) ∧
      (¬ (0 ≤ (2 : Int) ∧ (2 : Int) < (([7, -1] : List Int).length : Int)) ∧
        PathfinderShaderProgram.hasUniform ⟨[7, -1], [-1, 4]⟩ 2 = false ∧
        PathfinderShaderProgram.getUniform ⟨[7, -1], [-1, 4]⟩ 2 = none) ∧
      (PathfinderShaderProgram.hasAttribute ⟨[7, -1], [-1, 4]⟩ 1 = true ∧
        PathfinderShaderProgram.getAttribute ⟨[7, -1], [-1, 4]⟩ 1 = some 4) ∧
      (ShaderManager.new (sampleEnvironment fun _ => true)).getProgram
        (sampleEnvironment fun _ => true) 2 = none :=
  ⟨⟨by decide,
      ((lookup_fails_iff_absent ⟨[7, -1], [-1, 4]⟩ (sampleEnvironment fun _ => true)
        (ShaderManager.new (sampleEnvironment fun _ => true)) 0).2.1 (by decide)).1⟩,
    ⟨by decide,
      (lookup_fails_iff_absent ⟨[7, -1], [-1, 4]⟩ (sampleEnvironment fun _ => true)
        (ShaderManager.new (sampleEnvironment fun _ => true)) 2).2.2.1 (by decide)⟩,
    ⟨by decide,
      ((lookup_fails_iff_absent ⟨[7, -1], [-1, 4]⟩ (sampleEnvironment fun _ => true)
        (ShaderManager.new (sampleEnvironment fun _ => true)) 1).2.2.2.2.1 (by decide)).1⟩,
    (lookup_fails_iff_absent ⟨[7, -1], [-1, 4]⟩ (sampleEnvironment fun _ => true)
      (ShaderManager.new (sampleEnvironment fun _ => true)) 2).2.2.2.2.2.2.2
        (by decide)⟩

/-- C21, as stated, fails. With one vertex shader, one fragment shader and two
programs of which the first links and the second does not, `init` returns false
and slot 0 of the program table holds the first program. -/
theorem ShaderManager_init_false_keeps_program :
    ((ShaderManager.new (sampleEnvironment fun i => i == 0)).init
        (sampleEnvironment fun i => i == 0)).1 = false ∧
      ((ShaderManager.new (sampleEnvironment fun i => i == 0)).init
        (sampleEnvironment fun i => i == 0)).2.getProgram
          (sampleEnvironment fun i => i == 0) 0 = some (some ⟨[0], []⟩) := by
  decide

/-- C21, amended. On a newly constructed manager, `init` returns true if and
only if every vertex shader and every fragment shader compiles and every program
links; when it returns true, `getProgram(id)` returns a loaded program for every
id with `0 <= id < program_count`; and in every case slot `i` of the table holds
a program exactly when all shaders compiled, the programs before `i` linked and
program `i` linked: after a failure the table holds the programs loaded before
it, and none when a shader does not compile or the first program does not
link. -/
theorem ShaderManager_init_spec (env : ShaderEnvironment) :
    (((ShaderManager.new env).init env).1 = true ↔
        (∀ i < env.vs_count, env.compileVertexShader i = true) ∧
          (∀ i < env.fs_count, env.compileFragmentShader i = true) ∧
            ∀ i < env.program_count, (loadProgram env i).isSome = true) ∧
      (((ShaderManager.new env).init env).1 = true →
        ∀ id : Int, 0 ≤ id → id < (env.program_count : Int) →
          ∃ program, ((ShaderManager.new env).init env).2.getProgram env id =
            some (some program)) ∧
      (∀ i < env.program_count, ∀ program,
        ((ShaderManager.new env).init env).2.mPrograms.getD i none = some program ↔
          ((∀ j < env.vs_count, env.compileVertexShader j = true) ∧
            (∀ j < env.fs_count, env.compileFragmentShader j = true)) ∧
            (∀ j < i, (loadProgram env j).isSome = true) ∧
              loadProgram env i = some program) ∧
      ((∀ i < env.program_count,
          ((ShaderManager.new env).init env).2.mPrograms.getD i none = none) ↔
        ¬ ((∀ j < env.vs_count, env.compileVertexShader j = true) ∧
            (∀ j < env.fs_count, env.compileFragmentShader j = true)) ∨
          env.program_count = 0 ∨ loadProgram env 0 = none) := by
  obtain ⟨hlen, hflag, htable⟩ :=
    programLoop_spec env (loadAllShaders env).1 env.program_count env.program_count (le_refl _)
  have hshaders := loadAllShaders_flag env
  have h1 : ((ShaderManager.new env).init env).1 = true ↔
      (∀ i < env.vs_count, env.compileVertexShader i = true) ∧
        (∀ i < env.fs_count, env.compileFragmentShader i = true) ∧
          ∀ i < env.program_count, (loadProgram env i).isSome = true := by
    rw [ShaderManager.init_eq]
    show (forWhileSucceeded _ _ (_, List.replicate env.program_count none)).1 = true ↔ _
    rw [hflag, hshaders, and_assoc]
  have h3 : ∀ i < env.program_count, ∀ program,
      ((ShaderManager.new env).init env).2.mPrograms.getD i none = some program ↔
        ((∀ j < env.vs_count, env.compileVertexShader j = true) ∧
          (∀ j < env.fs_count, env.compileFragmentShader j = true)) ∧
          (∀ j < i, (loadProgram env j).isSome = true) ∧
            loadProgram env i = some program := by
    intro i hi program
    rw [ShaderManager.init_eq]
    show (forWhileSucceeded _ _ (_, List.replicate env.program_count none)).2.getD i none =
      some program ↔ _
    rw [htable i hi program, hshaders]
    constructor
    · rintro ⟨a, _, c, d⟩; exact ⟨a, c, d⟩
    · rintro ⟨a, c, d⟩; exact ⟨a, hi, c, d⟩
  refine ⟨h1, ?_, h3, ?_⟩
  · intro htrue id h0 hlt
    obtain ⟨hv, hf, hp⟩ := h1.1 htrue
    have hid : id.toNat < env.program_count := by omega
    obtain ⟨program, hprogram⟩ := Option.isSome_iff_exists.1 (hp id.toNat hid)
    refine ⟨program, ?_⟩
    have := (h3 id.toNat hid program).2 ⟨⟨hv, hf⟩, fun j hj => hp j (by omega), hprogram⟩
    unfold ShaderManager.getProgram
    rw [if_neg (by omega), if_neg (by omega), this]
  · constructor
    · intro hall
      by_contra hcon
      push_neg at hcon
      obtain ⟨hs, hn, hp⟩ := hcon
      obtain ⟨program, hprogram⟩ := Option.ne_none_iff_exists.1 hp
      have hpos : 0 < env.program_count := Nat.pos_of_ne_zero hn
      have := (h3 0 hpos program).2 ⟨hs, fun j hj => absurd hj (by omega), hprogram.symm⟩
      rw [hall 0 hpos] at this
      exact absurd this (by simp)
    · intro hcases i hi
      cases hslot : ((ShaderManager.new env).init env).2.mPrograms.getD i none with
      | none => rfl
      | some program =>
        exfalso
        obtain ⟨hs, hbefore, hp⟩ := (h3 i hi program).1 hslot
        rcases hcases with hns | hzero | hfirst
        · exact hns hs
        · omega
        · rcases Nat.eq_zero_or_pos i with hi0 | hipos
          · rw [hi0, hfirst] at hp
            exact absurd hp (by simp)
          · have := hbefore 0 hipos
            rw [hfirst] at this
            exact absurd this (by simp)

/-- The amended C21 in the environment with two programs that both link: `init`
returns true and `getProgram(1)` returns the second program. -/
theorem ShaderManager_init_spec_witness :
    ((ShaderManager.new (sampleEnvironment fun _ => true)).init
        (sampleEnvironment fun _ => true)).1 = true ∧
      ∃ program, ((ShaderManager.new (sampleEnvironment fun _ => true)).init
        (sampleEnvironment fun _ => true)).2.getProgram
          (sampleEnvironment fun _ => true) 1 = some (some program) :=
  ⟨by decide,
    (ShaderManager_init_spec (sampleEnvironment fun _ => true)).2.1 (by decide) 1
      (by decide) (by decide)⟩

/-- C23. Buffer-texture cache resizing. For every state of the caches and every
`objectCount` n >= 0, `uploadPathColors(n)` completes, and after it the
path-colour cache has exactly n slots; every slot below n holds an entry; every
slot that held an entry before holds the same entry; a slot that was absent
holds a texture created during the call, and as many textures are created as
slots were absent; and the call makes exactly one upload per slot, of
`pathColorsForObject(i)` to the entry of slot `i`, in the order of the slots.
`uploadPathTransforms(n)` does the same for the pairs: a new pair has two
distinct new textures, and each slot receives the upload of the `st` array and
that of the `ext` array. -/
theorem upload_caches_resize {δ : Type} (pathColorsForObject : Int → δ)
    (pathTransformsForObject : Int → PathTransformBuffers δ) (s : BufferTextures δ)
    (n : Int) (hn : 0 ≤ n) :
    (∃ s', uploadPathColors pathColorsForObject n s = some s' ∧
      s'.mPathColorsBufferTextures.length = n.toNat ∧
      (∀ i < n.toNat, ∃ t, s'.mPathColorsBufferTextures.getD i none = some t) ∧
      (∀ i < n.toNat, ∀ t, s.mPathColorsBufferTextures.getD i none = some t →
        s'.mPathColorsBufferTextures.getD i none = some t) ∧
      (∀ i < n.toNat, s.mPathColorsBufferTextures.getD i none = none →
        ∃ t, s'.mPathColorsBufferTextures.getD i none = some t ∧
          s.created ≤ t ∧ t < s'.created) ∧
      s'.created = s.created + (List.range n.toNat).countP
        (fun i => (s.mPathColorsBufferTextures.getD i none).isNone) ∧
      s'.uploads = s.uploads ++ (List.range n.toNat).map (fun i =>
        ((s'.mPathColorsBufferTextures.getD i none).getD 0, pathColorsForObject i))) ∧
    (∃ s', uploadPathTransforms pathTransformsForObject n s = some s' ∧
      s'.mPathTransformBufferTextures.length = n.toNat ∧
      (∀ i < n.toNat, ∃ t, s'.mPathTransformBufferTextures.getD i none = some t) ∧
      (∀ i < n.toNat, ∀ t, s.mPathTransformBufferTextures.getD i none = some t →
        s'.mPathTransformBufferTextures.getD i none = some t) ∧
      (∀ i < n.toNat, s.mPathTransformBufferTextures.getD i none = none →
        ∃ t, s'.mPathTransformBufferTextures.getD i none = some t ∧
          s.created ≤ t.st ∧ t.st ≠ t.ext ∧ s.created ≤ t.ext ∧
            t.st < s'.created ∧ t.ext < s'.created) ∧
      s'.created = s.created + 2 * (List.range n.toNat).countP
        (fun i => (s.mPathTransformBufferTextures.getD i none).isNone) ∧
      s'.uploads = s.uploads ++ (List.range n.toNat).flatMap (fun i =>
        [(((s'.mPathTransformBufferTextures.getD i none).getD ⟨0, 0⟩).st,
            (pathTransformsForObject i).st),
          (((s'.mPathTransformBufferTextures.getD i none).getD ⟨0, 0⟩).ext,
            (pathTransformsForObject i).ext)])) := by
  have hcount : ∀ {β : Type} (v : List (Option β)),
      (List.range n.toNat).countP (fun i => ((resize v n.toNat).getD i none).isNone) =
        (List.range n.toNat).countP (fun i => (v.getD i none).isNone) := by
    intro β v
    apply List.countP_congr
    intro i hi
    rw [resize_getD v n.toNat i (List.mem_range.1 hi)]
  constructor
  · obtain ⟨hlen, _, hkept, hnew, hcreated, huploads, _⟩ :=
      uploadPathColors_loop pathColorsForObject
        { s with
          mPathColorsBufferTextures := resize s.mPathColorsBufferTextures n.toNat }
        n.toNat (by simp [resize_length])
    refine ⟨_, uploadPathColors_of_nonneg _ _ _ hn, ?_, ?_, ?_, ?_, ?_, ?_⟩
    · rw [hlen]; exact resize_length _ _
    · intro i hi
      cases hslot : s.mPathColorsBufferTextures.getD i none with
      | none =>
        obtain ⟨t, ht, _⟩ := hnew i hi (by
          show (resize s.mPathColorsBufferTextures n.toNat).getD i none = none
          rw [resize_getD _ _ _ hi, hslot])
        exact ⟨t, ht⟩
      | some t =>
        exact ⟨t, hkept i hi t (by
          show (resize s.mPathColorsBufferTextures n.toNat).getD i none = some t
          rw [resize_getD _ _ _ hi, hslot])⟩
    · intro i hi t ht
      exact hkept i hi t (by
        show (resize s.mPathColorsBufferTextures n.toNat).getD i none = some t
        rw [resize_getD _ _ _ hi, ht])
    · intro i hi hnone
      exact hnew i hi (by
        show (resize s.mPathColorsBufferTextures n.toNat).getD i none = none
        rw [resize_getD _ _ _ hi, hnone])
    · rw [hcreated]
      show s.created + (List.range n.toNat).countP
        (fun i => ((resize s.mPathColorsBufferTextures n.toNat).getD i none).isNone) = _
      rw [hcount]
    · exact huploads
  · obtain ⟨hlen, _, hkept, hnew, hcreated, huploads, _⟩ :=
      uploadPathTransforms_loop pathTransformsForObject
        { s with
          mPathTransformBufferTextures :=
            resize s.mPathTransformBufferTextures n.toNat }
        n.toNat (by simp [resize_length])
    refine ⟨_, uploadPathTransforms_of_nonneg _ _ _ hn, ?_, ?_, ?_, ?_, ?_, ?_⟩
    · rw [hlen]; exact resize_length _ _
    · intro i hi
      cases hslot : s.mPathTransformBufferTextures.getD i none with
      | none =>
        obtain ⟨t, ht, _⟩ := hnew i hi (by
          show (resize s.mPathTransformBufferTextures n.toNat).getD i none = none
          rw [resize_getD _ _ _ hi, hslot])
        exact ⟨t, ht⟩
      | some t =>
        exact ⟨t, hkept i hi t (by
          show (resize s.mPathTransformBufferTextures n.toNat).getD i none = some t
          rw [resize_getD _ _ _ hi, hslot])⟩
    · intro i hi t ht
      exact hkept i hi t (by
        show (resize s.mPathTransformBufferTextures n.toNat).getD i none = some t
        rw [resize_getD _ _ _ hi, ht])
    · intro i hi hnone
      exact hnew i hi (by
        show (resize s.mPathTransformBufferTextures n.toNat).getD i none = none
        rw [resize_getD _ _ _ hi, hnone])
    · rw [hcreated]
      show s.created + 2 * (List.range n.toNat).countP
        (fun i => ((resize s.mPathTransformBufferTextures n.toNat).getD i none).isNone) = _
      rw [hcount]
    · exact huploads

/-- The uploads of C23 for three objects on caches whose colour cache holds a
texture in slot 0 of two and whose transform cache has one slot: both calls
complete and leave caches of three slots. -/
theorem upload_caches_resize_witness :
    (0 : Int) ≤ 3 ∧
      (∃ s', uploadPathColors (fun i => [i.toNat, 9]) 3 sampleBufferTextures = some s' ∧
        s'.mPathColorsBufferTextures.length = 3) ∧
      ∃ s', uploadPathTransforms (fun i => ⟨[i.toNat, 9], [i.toNat, 8]⟩) 3
          sampleBufferTextures = some s' ∧
        s'.mPathTransformBufferTextures.length = 3 :=
  ⟨by decide,
    (upload_caches_resize (fun i => [i.toNat, 9]) (fun i => ⟨[i.toNat, 9], [i.toNat, 8]⟩)
      sampleBufferTextures 3 (by decide)).1.imp (fun _ h => ⟨h.1, h.2.1⟩),
    (upload_caches_resize (fun i => [i.toNat, 9]) (fun i => ⟨[i.toNat, 9], [i.toNat, 8]⟩)
      sampleBufferTextures 3 (by decide)).2.imp (fun _ h => ⟨h.1, h.2.1⟩)⟩

/-- C29. Strategy-before-meshes invariant. In every renderer state reached from
the constructor by a sequence of `init`, `setAntialiasingOptions`,
`attachMeshes` and `renderAtlas` calls none of which fails, `mMeshBuffers` and
`mMeshes` have the same length and a non-empty `mMeshBuffers` implies that a
strategy is set; hence the assertion on the strategy in `renderAtlas` does not
fail in such a state. A null pointer from `createAAStrategy` makes
`setAntialiasingOptions` fail here, so that the sequences that do not fail are
those of the claim. -/
theorem strategy_before_meshes {σ : Type} (S : AntialiasingStrategy σ)
    (renderContext : RenderContext)
    (gcm_on : GammaCorrectionMode) (getObjectCount : Int)
    (createAAStrategy :
      AntialiasingStrategyName → Int → SubpixelAAType → StemDarkeningMode → Option σ)
    (getDirectInteriorProgramName : DirectRenderingMode → Int)
    (getDirectCurveProgramName : Int)
    (setHintsUniform : PathfinderShaderProgram → Option Unit)
    (ops : List Operation) (r : Renderer σ)
    (hrun : runOperations S
      (Renderer.new renderContext gcm_on getObjectCount createAAStrategy
        getDirectInteriorProgramName getDirectCurveProgramName setHintsUniform) ops =
        some r) :
    r.mMeshBuffers.length = r.mMeshes.length ∧
      (r.mMeshBuffers ≠ [] → r.mAntialiasingStrategy.isSome = true) ∧
      (renderAtlas S r).renderer.isSome = true ∧
      (runOperations S
        (Renderer.new renderContext gcm_on getObjectCount createAAStrategy
          getDirectInteriorProgramName getDirectCurveProgramName setHintsUniform)
        (ops ++ [.renderAtlas])).isSome = true := by
  have hinv := runOperations_invariant S ops _ r
    (show (Renderer.new renderContext gcm_on getObjectCount createAAStrategy
        getDirectInteriorProgramName getDirectCurveProgramName
        setHintsUniform).mMeshBuffers.length =
      (Renderer.new renderContext gcm_on getObjectCount createAAStrategy
        getDirectInteriorProgramName getDirectCurveProgramName
        setHintsUniform).mMeshes.length ∧ _ from
      ⟨rfl, fun h => absurd rfl h⟩) hrun
  have hatlas := renderAtlas_renderer_isSome S r hinv.2
  refine ⟨hinv.1, hinv.2, hatlas, ?_⟩
  rw [runOperations_append, hrun]
  obtain ⟨r', hr'⟩ := Option.isSome_iff_exists.1 hatlas
  show (((renderAtlas S r).renderer).bind fun r => some r).isSome = true
  rw [hr']
  rfl

/-- The invariant of C29 after `init`, `attachMeshes` of one mesh, `renderAtlas`,
`setAntialiasingOptions` and `renderAtlas` again, with the counting strategy: no
call fails, and one mesh and one mesh buffer are attached. -/
theorem strategy_before_meshes_witness :
    (∃ r, runOperations (countingStrategy 2 .drm_none)
        (Renderer.new sampleRenderContext 1 1 (fun _ _ _ _ => some 0) (fun _ => 0) 1
          (fun _ => some ()))
        [.init 0 0 ⟨0, 0, 0⟩, .attachMeshes [sampleMesh], .renderAtlas,
          .setAntialiasingOptions 1 4 ⟨0, 0, 0⟩, .renderAtlas] = some r ∧
      r.mMeshBuffers.length = 1 ∧ r.mMeshes.length = 1 ∧
      r.mAntialiasingStrategy.isSome = true ∧
      (renderAtlas (countingStrategy 2 .drm_none) r).renderer.isSome = true) :=
  ⟨_, rfl, rfl, rfl,
    (strategy_before_meshes (countingStrategy 2 .drm_none) sampleRenderContext 1 1
      (fun _ _ _ _ => some 0) (fun _ => 0) 1 (fun _ => some ())
      [.init 0 0 ⟨0, 0, 0⟩, .attachMeshes [sampleMesh], .renderAtlas,
        .setAntialiasingOptions 1 4 ⟨0, 0, 0⟩, .renderAtlas] _ rfl).2.1 (by decide),
    (strategy_before_meshes (countingStrategy 2 .drm_none) sampleRenderContext 1 1
      (fun _ _ _ _ => some 0) (fun _ => 0) 1 (fun _ => some ())
      [.init 0 0 ⟨0, 0, 0⟩, .attachMeshes [sampleMesh], .renderAtlas,
        .setAntialiasingOptions 1 4 ⟨0, 0, 0⟩, .renderAtlas] _ rfl).2.2.1⟩

end pathfinder
